import Mathlib

/-!
Verification development for the LenkCare Homes synthetic data generator
(`src/datagen/generate.py`, `src/datagen/generators.py`, `src/datagen/config.py`).

Shallow embedding conventions:

* Timestamps (`datetime` values) are modelled as `Int` minutes; `timedelta(days = d)`
  is `d * dayLen`, `timedelta(hours = h)` is `h * hourLen`. `datetime.date()`
  (truncation to midnight, as performed by `.date().isoformat()` in the source)
  is `dateFloor`.
* `config.py` anchors the horizon at `END_DATE = datetime.now()` and
  `START_DATE = END_DATE - timedelta(days=730)`; the wall-clock anchor is the
  explicit parameter `now`.
* The pseudo-random stream seeded by `random.seed(42)` is modelled as an
  oracle `g : Nat -> Nat`; every syntactic `random.*` call site reads its own
  position of the stream.  `random.randint(a, b)` reads one position and
  returns a value in `[a, b]`; branch conditions of the form
  `random.random() > p` become oracle booleans (`randBool`); `random.choice`
  picks an index into its pool; `random.sample` removes picked elements so it
  never repeats one.  Theorems quantify over all oracles, so the exact
  correspondence of stream positions is irrelevant to their truth.
* `uuid.uuid4()` draws from the operating system entropy source, which
  `random.seed` / `Faker.seed` do not touch; it is modelled as a second,
  independent oracle `u : Nat -> Nat` read at successive positions, ids being
  plain `Nat` tokens.
* Faker-produced free text (names, addresses, phone numbers) and purely
  textual template fields are the out-of-scope collaborators of spec section 1
  and section 6; records keep their structural, temporal and referential
  fields and omit the opaque text.
-/

namespace LenkCare


/-- Minutes per day: `timedelta(days=1)`. -/
def dayLen : Int := 1440

/-- Minutes per hour: `timedelta(hours=1)`. -/
def hourLen : Int := 60

/-- `datetime.date()` as used by `.date().isoformat()`: truncation to
midnight of the same day. -/
def dateFloor (t : Int) : Int := t - t % dayLen

/-- `config.END_DATE = datetime.now()` under wall-clock anchor `now`. -/
def endDate (now : Int) : Int := now

/-- `config.START_DATE = END_DATE - timedelta(days=730)`. -/
def startDate (now : Int) : Int := now - 730 * dayLen

/-- Identifier tokens produced by `uuid.uuid4()` (modelled as `Nat`). -/
abbrev Id := Nat

/-- The seeded pseudo-random stream (`random` module after `random.seed(42)`). -/
abbrev Rand := Nat → Nat

/-- `random.randint(a, b)`: inclusive range, one stream position. -/
def randNat (g : Rand) (k : Nat) (a b : Nat) : Nat := a + g k % (b - a + 1)

/-- `random.randint(a, b)` cast into the time arithmetic. -/
def randInt (g : Rand) (k : Nat) (a b : Nat) : Int := (randNat g k a b : Int)

/-- Outcome of a `random.random() > p` (or `< p`) branch condition, as an
oracle boolean. -/
def randBool (g : Rand) (k : Nat) : Bool := g k % 2 == 1

/-- `random.choice(pool)` for a nonempty literal pool (`d` is returned for the
empty pool, which the call sites never pass). -/
def choiceD {α : Type} (pool : List α) (d : α) (g : Rand) (k : Nat) : α :=
  pool.getD (g k % pool.length) d

/-- `config.weighted_choice(choices)`: selection among the values of a
`(value, weight)` table.  All weights in the source tables are positive, so
the support is the whole pool; which element comes out is oracle-driven
(weights scaled by 100 to integers). -/
def weightedChoice {α : Type} (pool : List (α × Nat)) (d : α) (g : Rand) (k : Nat) : α :=
  (pool.getD (g k % pool.length) (d, 0)).1

/-- `random.sample(pool, n)`: draw `n` elements without replacement (each draw
removes the picked element). -/
def randSample {α : Type} (g : Rand) : List α → Nat → Nat → List α
  | _, 0, _ => []
  | pool, n + 1, k =>
    match pool.get? (g k % pool.length) with
    | some x => x :: randSample g (pool.eraseIdx (g k % pool.length)) n (k + 1)
    | none => []

/-! ## Identifier and checksum subsystem (`IncidentGenerator` static helpers) -/

/-- The 36-symbol alphabet `"0123456789ABCDEFGHIJKLMNOPQRSTUVWXYZ"`. -/
def alphabet : List Char :=
  ['0', '1', '2', '3', '4', '5', '6', '7', '8', '9',
   'A', 'B', 'C', 'D', 'E', 'F', 'G', 'H', 'I', 'J',
   'K', 'L', 'M', 'N', 'O', 'P', 'Q', 'R', 'S', 'T',
   'U', 'V', 'W', 'X', 'Y', 'Z']

/-- `chars.index(ch)` over the 36-symbol alphabet. -/
def charIndex (c : Char) : Nat := alphabet.indexOf c

/-- One Luhn addend: multiply the alphabet index by the factor, then reduce by
summing the base-36 digits (`addend // 36 + addend % 36`). -/
def luhnAdd (factor c : Nat) : Nat := factor * c / 36 + factor * c % 36

/-- The Luhn accumulation of `_calculate_luhn_mod36_checksum`, over the
code-point list taken right-to-left (head of the argument list is the
rightmost character), with the factor alternating 2, 1, 2, ... -/
def luhnSumAux : List Nat → Nat → Nat
  | [], _ => 0
  | c :: rest, factor =>
    luhnAdd factor c + luhnSumAux rest (if factor == 2 then 1 else 2)

/-- Total Luhn sum of a code-point list given left-to-right (the source scans
`input_str` from its last index down to 0 starting with factor 2). -/
def luhnSum (codes : List Nat) : Nat := luhnSumAux codes.reverse 2

/-- The check code point: `(36 - sum % 36) % 36`. -/
def luhnChecksumIdx (codes : List Nat) : Nat := (36 - luhnSum codes % 36) % 36

/-- `IncidentGenerator._calculate_luhn_mod36_checksum`: the check character
for a payload (payload characters are drawn from the alphabet, so the
`.upper()` in the source is the identity). -/
def luhnChecksumChar (s : List Char) : Char :=
  alphabet.getD (luhnChecksumIdx (s.map charIndex)) '0'

/-- Checksum verification: recompute the check character over all but the last
character and compare with the last character. -/
def luhnVerify (num : List Char) : Bool :=
  !num.isEmpty && (luhnChecksumChar num.dropLast == num.getLastD '0')

/-- Recursion of `IncidentGenerator._to_base36` (`while value > 0`):
repeatedly prepend `chars[value % 36]` and divide by 36.  The first argument
only bounds the recursion structurally; any bound of at least `v` reproduces
the source loop, since the value shrinks strictly on every step. -/
def toBase36Go : Nat → Nat → List Char → List Char
  | 0, _, acc => acc
  | fuel + 1, v, acc =>
    if v = 0 then acc
    else toBase36Go fuel (v / 36) (alphabet.getD (v % 36) '0' :: acc)

/-- `IncidentGenerator._to_base36`. -/
def toBase36 (value : Nat) : List Char :=
  if value = 0 then ['0'] else toBase36Go value value []

/-- Python `str.zfill(w)`: left-pad with `'0'` to width `w`. -/
def zfill (w : Nat) (s : List Char) : List Char :=
  List.replicate (w - s.length) '0' ++ s

/-- `IncidentGenerator._get_incident_type_code`. -/
def incidentTypeCodeOf (incidentType : String) : Char :=
  if incidentType = "Fall" then 'F'
  else if incidentType = "Medication" then 'M'
  else if incidentType = "Behavioral" then 'B'
  else if incidentType = "Medical" then 'X'
  else if incidentType = "Injury" then 'I'
  else if incidentType = "Elopement" then 'E'
  else 'O'

/-- `IncidentGenerator._generate_incident_number`: build
`<TypeCode>IR<HomeCode(2)><Sequence(4)><Check(1)>` (the `.upper()` calls are
the identity, `_to_base36` emitting uppercase only). -/
def generateIncidentNumber (homeSequence : Nat) (incidentType : String)
    (incidentCount : Nat) : List Char :=
  let typeCode := incidentTypeCodeOf incidentType
  let homeCode := zfill 2 (toBase36 homeSequence)
  let sequence := zfill 4 (toBase36 incidentCount)
  let payload := homeCode ++ sequence
  let fullPayload := typeCode :: 'I' :: 'R' :: payload
  fullPayload ++ [luhnChecksumChar fullPayload]

/-- The Sequence component of a standard-width incident number: characters 5
to 8 (0-based) of the 10-character string. -/
def sequenceComponent (num : List Char) : List Char := (num.drop 5).take 4

/-! ## Reference-data pools (`config.py`) needed by the embedded generators -/

/-- `config.DISCHARGE_REASONS`. -/
def DISCHARGE_REASONS : List String :=
  ["Transferred to skilled nursing facility",
   "Returned home with family",
   "Hospitalized - higher level of care needed",
   "Transferred to memory care facility",
   "Deceased",
   "Family relocation",
   "Transferred to another AFH"]

/-- The inline discharge-reason pool of the random-discharge branch of
Phase 3 (`generate.py`, the `c["dischargeReason"]` assignment). -/
def HAZARD_DISCHARGE_REASONS : List String :=
  ["Transferred to skilled nursing facility",
   "Returned home with family",
   "Transferred to another AFH"]

/-- `config.INCIDENT_LOCATIONS`. -/
def INCIDENT_LOCATIONS : List String :=
  ["Bedroom", "Bathroom", "Living Room", "Dining Room",
   "Kitchen", "Hallway", "Front Entrance", "Back Yard",
   "Common Area", "Medication Room"]

/-- `config.INCIDENT_TYPES` (weights scaled by 100). -/
def INCIDENT_TYPES : List (String × Nat) :=
  [("Fall", 35), ("Medication", 15), ("Behavioral", 15), ("Medical", 15),
   ("Injury", 10), ("Other", 8), ("Elopement", 2)]

/-- The `status_weights` table of `IncidentGenerator.generate`
(weights scaled by 100). -/
def INCIDENT_STATUS_WEIGHTS : List (String × Nat) :=
  [("Closed", 75), ("UnderReview", 15), ("Submitted", 8), ("Draft", 2)]

/-- The `severity_map` of `IncidentGenerator.generate`, with its `[2, 3]`
default. -/
def severityPool (incidentType : String) : List Nat :=
  if incidentType = "Fall" then [2, 3, 3, 4]
  else if incidentType = "Medication" then [2, 2, 3]
  else if incidentType = "Behavioral" then [1, 2, 2, 3]
  else if incidentType = "Medical" then [2, 3, 3, 4]
  else if incidentType = "Injury" then [2, 3, 3, 4]
  else if incidentType = "Elopement" then [4, 4, 5]
  else if incidentType = "Other" then [1, 2, 2]
  else [2, 3]

/-- `IncidentGenerator.INCIDENT_IMAGES`: the fixed 7-image pool. -/
def INCIDENT_IMAGES : List String :=
  ["image-001.png", "image-002.png", "image-003.png", "image-004.png",
   "image-005.png", "image-006.png", "image-007.png"]

/-- The caption pool of `IncidentGenerator._generate_photos`
(`None` means no caption). -/
def PHOTO_CAPTIONS : List (Option String) :=
  [some "Photo of incident location",
   some "Documentation of affected area",
   some "Evidence of incident conditions",
   none]

/-- `config.ACTIVITIES` entries: name, category, group flag. -/
structure ActivityInfo where
  name : String
  category : String
  group : Bool
deriving Repr, DecidableEq

/-- `config.ACTIVITIES`. -/
def ACTIVITIES : List ActivityInfo :=
  [⟨"Bingo Night", "Recreational", true⟩,
   ⟨"Movie Afternoon", "Recreational", true⟩,
   ⟨"Music Therapy Session", "Recreational", true⟩,
   ⟨"Arts and Crafts", "Recreational", true⟩,
   ⟨"Puzzle Time", "Recreational", false⟩,
   ⟨"Reading Time", "Recreational", false⟩,
   ⟨"Card Games", "Social", true⟩,
   ⟨"Family Visit", "Social", false⟩,
   ⟨"Birthday Celebration", "Social", true⟩,
   ⟨"Holiday Party", "Social", true⟩,
   ⟨"Group Exercise Class", "Exercise", true⟩,
   ⟨"Walking Program", "Exercise", false⟩,
   ⟨"Chair Yoga", "Exercise", true⟩,
   ⟨"Balance Exercises", "Exercise", false⟩,
   ⟨"Pet Therapy Visit", "Other", true⟩,
   ⟨"Garden Activity", "Other", true⟩,
   ⟨"Cooking Class", "Other", true⟩,
   ⟨"Religious Service", "Other", true⟩]

/-- `config.APPOINTMENT_TYPES` (weights scaled by 100). -/
def APPOINTMENT_TYPES : List (String × Nat) :=
  [("GeneralPractice", 25), ("Dental", 10), ("Ophthalmology", 8),
   ("Podiatry", 8), ("PhysicalTherapy", 8), ("OccupationalTherapy", 5),
   ("Cardiology", 7), ("Neurology", 5), ("Dermatology", 4),
   ("Psychiatry", 4), ("LabWork", 6), ("Imaging", 3), ("Audiology", 3),
   ("SpeechTherapy", 2), ("SocialWorker", 1), ("FamilyVisit", 1)]

/-- `config.APPOINTMENT_STATUSES` (weights scaled by 100). -/
def APPOINTMENT_STATUSES : List (String × Nat) :=
  [("Completed", 80), ("Cancelled", 12), ("NoShow", 5), ("Rescheduled", 3)]

/-- The `duration_ranges` table of
`AppointmentGenerator._get_duration_for_type`, with its `[30, 45, 60]`
default. -/
def appointmentDurationPool (appointmentType : String) : List Nat :=
  if appointmentType = "GeneralPractice" then [30, 45, 60]
  else if appointmentType = "Dental" then [30, 45, 60]
  else if appointmentType = "Ophthalmology" then [30, 45]
  else if appointmentType = "Podiatry" then [30, 45]
  else if appointmentType = "PhysicalTherapy" then [45, 60]
  else if appointmentType = "OccupationalTherapy" then [45, 60]
  else if appointmentType = "SpeechTherapy" then [30, 45]
  else if appointmentType = "Psychiatry" then [30, 45, 60]
  else if appointmentType = "Dermatology" then [15, 30]
  else if appointmentType = "Cardiology" then [30, 45, 60]
  else if appointmentType = "Neurology" then [45, 60]
  else if appointmentType = "LabWork" then [15, 30]
  else if appointmentType = "Imaging" then [30, 60, 90]
  else if appointmentType = "Audiology" then [30, 45, 60]
  else if appointmentType = "SocialWorker" then [45, 60]
  else if appointmentType = "FamilyVisit" then [60, 90, 120]
  else [30, 45, 60]

/-- `config.DIAGNOSES`. -/
def DIAGNOSES : List String :=
  ["Alzheimer's disease", "Vascular dementia", "Parkinson's disease",
   "Type 2 Diabetes", "Hypertension", "Congestive Heart Failure", "COPD",
   "Osteoarthritis", "Chronic Kidney Disease", "Atrial Fibrillation",
   "Stroke history", "Depression", "Anxiety disorder", "Osteoporosis",
   "Hypothyroidism", "Anemia", "GERD", "Urinary Incontinence",
   "Hearing Loss", "Macular Degeneration"]

/-- `config.MEDICATIONS` as `(name, dosage, route)` triples. -/
def MEDICATIONS : List (String × String × String) :=
  [("Lisinopril", "10mg", "Oral"), ("Lisinopril", "20mg", "Oral"),
   ("Metformin", "500mg", "Oral"), ("Metformin", "1000mg", "Oral"),
   ("Amlodipine", "5mg", "Oral"), ("Amlodipine", "10mg", "Oral"),
   ("Metoprolol", "25mg", "Oral"), ("Metoprolol", "50mg", "Oral"),
   ("Omeprazole", "20mg", "Oral"), ("Losartan", "50mg", "Oral"),
   ("Atorvastatin", "20mg", "Oral"), ("Atorvastatin", "40mg", "Oral"),
   ("Levothyroxine", "50mcg", "Oral"), ("Levothyroxine", "75mcg", "Oral"),
   ("Gabapentin", "300mg", "Oral"), ("Sertraline", "50mg", "Oral"),
   ("Donepezil", "5mg", "Oral"), ("Donepezil", "10mg", "Oral"),
   ("Memantine", "10mg", "Oral"), ("Carbidopa-Levodopa", "25-100mg", "Oral"),
   ("Furosemide", "20mg", "Oral"), ("Furosemide", "40mg", "Oral"),
   ("Warfarin", "5mg", "Oral"), ("Aspirin", "81mg", "Oral"),
   ("Vitamin D3", "1000 IU", "Oral"), ("Calcium Carbonate", "500mg", "Oral"),
   ("Insulin Glargine", "10 units", "Injection"),
   ("Insulin Glargine", "20 units", "Injection"),
   ("Albuterol", "2 puffs", "Inhalation"),
   ("Fluticasone", "2 puffs", "Inhalation"),
   ("Nitroglycerin", "0.4mg", "Sublingual"), ("Lorazepam", "0.5mg", "Oral"),
   ("Acetaminophen", "500mg", "Oral"), ("Bisacodyl", "10mg", "Oral"),
   ("Docusate", "100mg", "Oral"),
   ("Eye Drops (Artificial Tears)", "2 drops", "Ophthalmic")]

/-- `config.MEDICATION_TIMES` (`"06:00"` .. `"22:00"`) as minutes of the day. -/
def MEDICATION_TIMES : List Nat :=
  [360, 420, 480, 540, 720, 780, 840, 1020, 1080, 1140, 1260, 1320]

/-- The `status_weights` table of `MedicationLogGenerator.generate`
(weights scaled by 100). -/
def MED_STATUS_WEIGHTS : List (String × Nat) :=
  [("Administered", 92), ("Refused", 4), ("GivenLate", 2), ("GivenEarly", 1),
   ("Held", 1)]

/-- The `severity_weights` table of `BehaviorNoteGenerator.generate`
(weights scaled by 100). -/
def BEHAVIOR_SEVERITY_WEIGHTS : List (String × Nat) :=
  [("Low", 70), ("Medium", 25), ("High", 5)]

/-- The `base_independence` pool of Phase 4. -/
def INDEPENDENCE_LEVELS : List String :=
  ["Independent", "PartialAssist", "Dependent"]

/-- `ADLLogGenerator._get_levels`. -/
def adlLevels (independence : String) : List String :=
  if independence = "Independent" then
    ["Independent", "Independent", "PartialAssist"]
  else if independence = "PartialAssist" then
    ["Independent", "PartialAssist", "PartialAssist", "Dependent"]
  else ["PartialAssist", "Dependent", "Dependent"]

/-- `random.randint(a, b)` for a range with a negative lower end (the hire
and document offsets and the vitals deltas), on the same oracle position
convention as `randNat`. -/
def randIntNeg (g : Rand) (k : Nat) (a b : Int) : Int :=
  a + ((g k % (b - a + 1).toNat : Nat) : Int)

/-- `config.random_working_hour_time(base)`: the base date's clock replaced
by an hour of 6-22 and a minute of 0-59 (`base.replace(hour=..., minute=...,
second=0, microsecond=0)`). -/
def workingHourTime (g : Rand) (k : Nat) (base : Int) : Int :=
  dateFloor base + randInt g k 6 22 * hourLen + randInt g (k + 1) 0 59

/-! ## Association-list helpers for the Python dict state of the generators -/

/-- Update-or-append for a dict keyed by ids (insertion order preserved, as
for a Python dict). -/
def setAssoc {β : Type} : List (Id × β) → Id → β → List (Id × β)
  | [], h, v => [(h, v)]
  | (a, b) :: rest, h, v =>
    if a = h then (h, v) :: rest else (a, b) :: setAssoc rest h v

/-- `d.get(key, 0)`-style lookup of a counter dict. -/
def lookupCount (m : List (Id × Nat)) (h : Id) : Nat := (m.lookup h).getD 0

/-! ## Incident generator (`IncidentGenerator`) -/

/-- An incident photo record (`IncidentGenerator._generate_photos`).
`blobPath` holds the components of
`"incident-photos/{home_id}/{incident_id}/{photo_id}.png"`. -/
structure Photo where
  id : Id
  incidentId : Id
  blobPath : Id × Id × Id
  fileName : String
  contentType : String
  fileSizeBytes : Nat
  displayOrder : Nat
  caption : Option String
  createdAt : Int
  createdById : Id
  sourceFile : String
deriving Repr, DecidableEq

/-- An incident record (`IncidentGenerator.generate`).  The `description` and
`actionsTaken` fields are fixed template text over the reference pools
(spec section 6 collaborator) and are omitted. -/
structure Incident where
  id : Id
  incidentNumber : List Char
  clientId : Option Id
  homeId : Id
  incidentType : String
  severity : Nat
  status : String
  occurredAt : Int
  location : String
  reportedById : Id
  createdAt : Int
  updatedAt : Option Int
  closedAt : Option Int
  closureNotes : Option String
  closedById : Option Id
  photos : List Photo
deriving Repr, DecidableEq

/-- The mutable state of `IncidentGenerator`
(`incident_counter_by_home`, `home_sequence_map`). -/
structure IncidentGenState where
  incidentCounterByHome : List (Id × Nat)
  homeSequenceMap : List (Id × Nat)
deriving Repr, DecidableEq

/-- The fresh `IncidentGenerator` (`__init__`). -/
def IncidentGenState.init : IncidentGenState := ⟨[], []⟩

/-- `IncidentGenerator._generate_photos`: 1 to 3 photos sampled without
replacement from the image pool.  Consumes oracle positions `k ..` and uuid
positions `uk ..`. -/
def generatePhotos (g u : Rand) (k uk : Nat) (incidentId homeId uploaderId : Id)
    (occurredAt : Int) : List Photo :=
  let numPhotos := randNat g k 1 3
  let selected := randSample g INCIDENT_IMAGES (min numPhotos INCIDENT_IMAGES.length) (k + 1)
  selected.enum.map (fun p =>
    let i := p.1
    let imageFile := p.2
    let photoId := u (uk + i)
    { id := photoId
      incidentId := incidentId
      blobPath := (homeId, incidentId, photoId)
      fileName := imageFile
      contentType := "image/png"
      fileSizeBytes := randNat g (k + 4 + 2 * i) 50000 500000
      displayOrder := i
      caption := choiceD PHOTO_CAPTIONS none g (k + 5 + 2 * i)
      createdAt := occurredAt
      createdById := uploaderId
      sourceFile := imageFile })

/-- `IncidentGenerator.generate`.  Returns the incident, the updated
generator state, and the next free oracle and uuid positions.  The optional
`home_sequence` argument is modelled as `Option Nat`; the optional admin pool
argument (`None` and the empty list are both falsy in the source) as a
`List Id`. -/
def incidentGenerate (st : IncidentGenState) (g u : Rand) (k uk : Nat)
    (homeId : Id) (clientId : Option Id) (reporterId : Id) (occurredAt : Int)
    (homeSequence : Option Nat) (adminUserIds : List Id) :
    Incident × IncidentGenState × Nat × Nat :=
  -- if home_id not in self.incident_counter_by_home: ... += 1
  let newCount := lookupCount st.incidentCounterByHome homeId + 1
  let counters := setAssoc st.incidentCounterByHome homeId newCount
  -- if home_sequence is not None and home_id not in self.home_sequence_map: ...
  let seqMap :=
    match homeSequence with
    | some s =>
      if (st.homeSequenceMap.lookup homeId).isSome then st.homeSequenceMap
      else setAssoc st.homeSequenceMap homeId s
    | none => st.homeSequenceMap
  let incidentType := weightedChoice INCIDENT_TYPES "Other" g k
  let severity := choiceD (severityPool incidentType) 2 g (k + 1)
  let location := choiceD INCIDENT_LOCATIONS "Bedroom" g (k + 2)
  let status := weightedChoice INCIDENT_STATUS_WEIGHTS "Closed" g (k + 3)
  let incidentId := u uk
  let number := generateIncidentNumber ((seqMap.lookup homeId).getD 1) incidentType newCount
  let base : Incident :=
    { id := incidentId
      incidentNumber := number
      clientId := clientId
      homeId := homeId
      incidentType := incidentType
      severity := severity
      status := status
      occurredAt := occurredAt
      location := location
      reportedById := reporterId
      createdAt := occurredAt
      updatedAt := none
      closedAt := none
      closureNotes := none
      closedById := none
      photos := [] }
  -- non-Draft: updated_at = occurred_at + randint(1, 24) hours
  let withUpdate :=
    if status ≠ "Draft" then
      { base with updatedAt := some (occurredAt + randInt g (k + 4) 1 24 * hourLen) }
    else base
  -- Closed: close_date = occurred_at + randint(1, 7) days; closer from the
  -- admin pool when it is nonempty, otherwise the reporter; updatedAt is
  -- overwritten to the closure time
  let withClose :=
    if status = "Closed" then
      let closeDate := occurredAt + randInt g (k + 5) 1 7 * dayLen
      { withUpdate with
          closedAt := some closeDate
          closureNotes := some "Investigation complete. Preventive measures implemented."
          closedById :=
            if adminUserIds.isEmpty then some reporterId
            else some (choiceD adminUserIds reporterId g (k + 6))
          updatedAt := some closeDate }
    else withUpdate
  let photos := generatePhotos g u (k + 7) (uk + 1) incidentId homeId reporterId occurredAt
  ({ withClose with photos := photos }, ⟨counters, seqMap⟩, k + 17, uk + 1 + photos.length)

/-! ## Client generator and Phase 3 (bed allocation and resident lifecycle) -/

/-- A client (resident) record (`ClientGenerator.generate`).  The
Faker-produced identity fields, allergies and the emergency-contact and
physician picks are the opaque collaborators of spec section 6 and are
omitted; `diagnoses` keeps the sampled diagnosis entries (the source joins
them with `", "` into one string) and `medications` the sampled
`(name, dosage, route)` triples stored as the internal `_medications` list,
both of which Phase 4 reads back; `admissionDate` and `dischargeDate` are
stored date-only (`.date().isoformat()` in the source), `createdAt` keeps
the full admission datetime. -/
structure Client where
  id : Id
  homeId : Id
  bedId : Id
  admissionDate : Int
  dischargeDate : Option Int
  dischargeReason : Option String
  isActive : Bool
  createdAt : Int
  createdById : Id
  diagnoses : List String
  medications : List (String × String × String)
deriving Repr, DecidableEq

/-- `ClientGenerator.generate`: oracle position `k` is the discharge-reason
pick of the `if discharged and discharge_date:` branch; positions `k + 1 ..`
hold the diagnosis-count, diagnosis-sample, medication-count and
medication-sample draws. -/
def clientGenerate (g : Rand) (k : Nat) (uid : Id) (homeId bedId : Id)
    (admissionDate : Int) (caregiverId : Id)
    (discharged : Bool) (dischargeDate : Option Int) : Client :=
  let base : Client :=
    { id := uid
      homeId := homeId
      bedId := bedId
      admissionDate := dateFloor admissionDate
      dischargeDate := none
      dischargeReason := none
      isActive := !discharged
      createdAt := admissionDate
      createdById := caregiverId
      diagnoses := randSample g DIAGNOSES (randNat g (k + 1) 1 4) (k + 2)
      medications := randSample g MEDICATIONS (randNat g (k + 6) 3 8) (k + 7) }
  if discharged then
    match dischargeDate with
    | some d =>
      { base with
          dischargeDate := some (dateFloor d)
          dischargeReason := some (choiceD DISCHARGE_REASONS "" g k)
          isActive := false }
    | none => base
  else base

/-- One entry of a bed's occupancy ledger: `(start, end, client_id)` with
`end = None` for a still-open interval. -/
structure Interval where
  start : Int
  stop : Option Int
  clientId : Id
deriving Repr, DecidableEq

/-- `start <= date <= (end or END_DATE)`: the coverage test of
`find_available_bed` (an open-ended interval extends to the simulation end). -/
def intervalCovers (now date : Int) (iv : Interval) : Bool :=
  decide (iv.start ≤ date) && decide (date ≤ iv.stop.getD (endDate now))

/-- A bed is available on `date` when no ledger interval covers `date`. -/
def bedFree (now date : Int) (ivs : List Interval) : Bool :=
  ivs.all (fun iv => !intervalCovers now date iv)

/-- `find_available_bed`: the first bed (dict insertion order) whose ledger
has no interval covering the date. -/
def findAvailableBed (now : Int) (occ : List (Id × List Interval))
    (date : Int) : Option Id :=
  (occ.find? (fun p => bedFree now date p.2)).map (fun p => p.1)

/-- `bed_occupancy[bed_id].append(interval)`. -/
def appendInterval (occ : List (Id × List Interval)) (bedId : Id)
    (iv : Interval) : List (Id × List Interval) :=
  occ.map (fun p => if p.1 = bedId then (p.1, p.2 ++ [iv]) else p)

/-- The `occupied_beds` count of the Phase 3 loop. -/
def occupiedBeds (now current : Int) (occ : List (Id × List Interval)) : Nat :=
  (occ.filter (fun p => p.2.any (fun iv => intervalCovers now current iv))).length

/-- The per-home Phase 3 state: the (per-home slice of the) global client
list, the per-bed occupancy ledger, and the next free oracle and uuid
positions. -/
structure Phase3State where
  clients : List Client
  bedOccupancy : List (Id × List Interval)
  k : Nat
  uk : Nat
deriving Repr, DecidableEq

/-- The initial-admissions loop of Phase 3 (`for _ in range(initial_clients)`):
each attempt draws an admission date in the home's first month, takes the
first available bed, and creates the client and an open-ended interval only
when a bed was found. -/
def admitInitialClients (now : Int) (g u : Rand) (homeId : Id)
    (caregivers : List Id) (homeOpen : Int) : Nat → Phase3State → Phase3State
  | 0, s => s
  | n + 1, s =>
    let admitDate := homeOpen + randInt g s.k 0 30 * dayLen
    match findAvailableBed now s.bedOccupancy admitDate with
    | some bedId =>
      let caregiverId := choiceD caregivers 0 g (s.k + 1)
      let clientId := u s.uk
      let client := clientGenerate g (s.k + 2) clientId homeId bedId admitDate
        caregiverId false none
      admitInitialClients now g u homeId caregivers homeOpen n
        { clients := s.clients ++ [client]
          bedOccupancy := appendInterval s.bedOccupancy bedId ⟨admitDate, none, clientId⟩
          k := s.k + 3
          uk := s.uk + 1 }
    | none => admitInitialClients now g u homeId caregivers homeOpen n { s with k := s.k + 1 }

/-- The admission half of a Phase 3 loop iteration: when occupancy is below
capacity and the admission coin fires, admit into the first free bed,
pre-deciding the stay duration and (for stays ending inside the horizon, with
a second coin) the discharge. -/
def gradualAdmit (now : Int) (g u : Rand) (homeId : Id) (caregivers : List Id)
    (current : Int) (s : Phase3State) : Phase3State :=
  -- `len(home_beds)` equals the number of ledger keys
  if occupiedBeds now current s.bedOccupancy < s.bedOccupancy.length then
    if randBool g s.k then
      match findAvailableBed now s.bedOccupancy current with
      | some bedId =>
        let caregiverId := choiceD caregivers 0 g (s.k + 2)
        let stay := randInt g (s.k + 3) 60 700
        let dischargeDate := current + stay * dayLen
        -- is_discharged = discharge_date < END_DATE and random.random() > 0.6
        let isDischarged := decide (dischargeDate < endDate now) && randBool g (s.k + 4)
        let clientId := u s.uk
        let client := clientGenerate g (s.k + 5) clientId homeId bedId current
          caregiverId isDischarged (if isDischarged then some dischargeDate else none)
        { clients := s.clients ++ [client]
          bedOccupancy := appendInterval s.bedOccupancy bedId
            ⟨current, if isDischarged then some dischargeDate else none, clientId⟩
          k := s.k + 6
          uk := s.uk + 1 }
      | none => { s with k := s.k + 2 }
    else { s with k := s.k + 2 }
  else s

/-- The client-list update of a random (hazard) discharge: the first client
with the matching id gets its discharge fields set (`for c in clients: ...
break`). -/
def dischargeClient (g : Rand) (k : Nat) (current : Int) (clientId : Id) :
    List Client → List Client
  | [] => []
  | c :: rest =>
    if c.id = clientId then
      { c with
          dischargeDate := some (dateFloor current)
          dischargeReason := some (choiceD HAZARD_DISCHARGE_REASONS "" g k)
          isActive := false } :: rest
    else c :: dischargeClient g k current clientId rest

/-- The hazard-discharge scan over one bed's ledger: every open interval
older than 180 days (`(current_date - start).days > 180`) draws the 2%% coin;
on a hit the owning client is discharged and the interval closed at the
current date. -/
def hazardBed (g : Rand) (current : Int) :
    List Interval → List Client → Nat → List Interval × List Client × Nat
  | [], cs, k => ([], cs, k)
  | iv :: rest, cs, k =>
    if iv.stop = none ∧ (current - iv.start) / dayLen > 180 then
      if randBool g k then
        let cs1 := dischargeClient g (k + 1) current iv.clientId cs
        let res := hazardBed g current rest cs1 (k + 2)
        ({ iv with stop := some current } :: res.1, res.2.1, res.2.2)
      else
        let res := hazardBed g current rest cs (k + 1)
        (iv :: res.1, res.2.1, res.2.2)
    else
      let res := hazardBed g current rest cs k
      (iv :: res.1, res.2.1, res.2.2)

/-- The hazard-discharge scan over all beds (`for bed_id, occupancy in
bed_occupancy.items()`). -/
def hazardBeds (g : Rand) (current : Int) :
    List (Id × List Interval) → List Client → Nat →
    List (Id × List Interval) × List Client × Nat
  | [], cs, k => ([], cs, k)
  | (b, ivs) :: rest, cs, k =>
    let one := hazardBed g current ivs cs k
    let more := hazardBeds g current rest one.2.1 one.2.2
    ((b, one.1) :: more.1, more.2.1, more.2.2)

/-- The Phase 3 `while current_date < END_DATE` loop.  `fuel` only bounds the
recursion: every iteration advances `current` by at least 7 days, so over the
730-day horizon at most 106 iterations ever run and any fuel of at least 107
reproduces the source loop exactly. -/
def phase3Loop (now : Int) (g u : Rand) (homeId : Id) (caregivers : List Id) :
    Nat → Int → Phase3State → Phase3State
  | 0, _, s => s
  | fuel + 1, current, s =>
    if current < endDate now then
      let s1 := gradualAdmit now g u homeId caregivers current s
      let haz := hazardBeds g current s1.bedOccupancy s1.clients s1.k
      let step := randInt g haz.2.2 7 21
      phase3Loop now g u homeId caregivers fuel (current + step * dayLen)
        { clients := haz.2.1, bedOccupancy := haz.1, k := haz.2.2 + 1, uk := s1.uk }
    else s

/-- All of Phase 3 for one home: the empty per-bed ledger, the 1-2 initial
admissions inside the first month, then the gradual-fill loop starting 45
days after opening. -/
def phase3Home (now : Int) (g u : Rand) (homeId : Id) (beds : List Id)
    (caregivers : List Id) (homeOpen : Int) (fuel k uk : Nat) : Phase3State :=
  let s0 : Phase3State := ⟨[], beds.map (fun b => (b, [])), k + 1, uk⟩
  let initialClients := randNat g k 1 2
  let s1 := admitInitialClients now g u homeId caregivers homeOpen initialClients s0
  phase3Loop now g u homeId caregivers fuel (homeOpen + 45 * dayLen) s1

/-! ## Active-resident filter and Phase 5 (activities) -/

/-- The active-resident test of Phases 5 and 6:
`admission <= current and (not discharge or discharge > current)` over the
stored (date-only) fields. -/
def isActiveOn (c : Client) (current : Int) : Bool :=
  decide (c.admissionDate ≤ current) &&
    (match c.dischargeDate with
     | none => true
     | some d => decide (d > current))

/-- `active_client_ids` over a home's client list. -/
def activeClientIds (clients : List Client) (current : Int) : List Id :=
  (clients.filter (fun c => isActiveOn c current)).map (fun c => c.id)

/-- An activity participation record. -/
structure Participation where
  id : Id
  activityId : Id
  clientId : Id
  createdAt : Int
deriving Repr, DecidableEq

/-- An activity record (`ActivityGenerator.generate`); the `description`
template field is omitted, `startTime` and `endTime` keep the underlying
datetimes whose clock part the source renders with `strftime("%H:%M")`,
`date` is stored date-only. -/
structure Activity where
  id : Id
  homeId : Id
  activityName : String
  date : Int
  startTime : Int
  endTime : Int
  duration : Nat
  category : String
  isGroupActivity : Bool
  createdById : Id
  createdAt : Int
  updatedAt : Option Int
  participants : List Participation
deriving Repr, DecidableEq

/-- Default `Activity` (for total list access in concrete statements). -/
instance : Inhabited Activity :=
  ⟨⟨0, 0, "", 0, 0, 0, 0, "", false, 0, 0, none, []⟩⟩

/-- `ActivityGenerator.generate`: group activities sample 2-6 participants
without replacement from the supplied id list, individual ones pick a single
participant. -/
def activityGenerate (g u : Rand) (k uk : Nat) (homeId : Id) (caregiverId : Id)
    (activityDate : Int) (clientIds : List Id) : Activity × Nat × Nat :=
  let info := choiceD ACTIVITIES ⟨"Bingo Night", "Recreational", true⟩ g k
  let participantIds :=
    if info.group then
      randSample g clientIds (min clientIds.length (randNat g (k + 1) 2 6)) (k + 2)
    else [choiceD clientIds 0 g (k + 1)]
  let startHour := randInt g (k + 8) 9 16
  let duration := choiceD ([30, 45, 60, 90] : List Nat) 30 g (k + 9)
  let startTime := dateFloor activityDate + startHour * hourLen
  let activityId := u uk
  ({ id := activityId
     homeId := homeId
     activityName := info.name
     date := dateFloor activityDate
     startTime := startTime
     endTime := startTime + (duration : Int)
     duration := duration
     category := info.category
     isGroupActivity := info.group
     createdById := caregiverId
     createdAt := activityDate
     updatedAt := none
     participants := participantIds.enum.map (fun p =>
       ⟨u (uk + 1 + p.1), activityId, p.2, activityDate⟩) },
   k + 10, uk + 1 + participantIds.length)

/-- The inner `for _ in range(activities_this_week)` loop of Phase 5: each
round draws an offset of 0-6 days from the week anchor and generates the
activity (over the anchor-date active list) only when the drawn date is
inside the horizon. -/
def phase5Activities (now : Int) (g u : Rand) (homeId : Id)
    (caregivers : List Id) (active : List Id) (current : Int) :
    Nat → Nat → Nat → List Activity × Nat × Nat
  | 0, k, uk => ([], k, uk)
  | j + 1, k, uk =>
    let activityDate := current + randInt g k 0 6 * dayLen
    if activityDate < endDate now then
      let caregiverId := choiceD caregivers 0 g (k + 1)
      let one := activityGenerate g u (k + 2) uk homeId caregiverId activityDate active
      let rest := phase5Activities now g u homeId caregivers active current j one.2.1 one.2.2
      (one.1 :: rest.1, rest.2.1, rest.2.2)
    else
      phase5Activities now g u homeId caregivers active current j (k + 1) uk

/-- One week of Phase 5: compute the active residents at the week anchor and,
when there are any, run 2-5 activity rounds against that list. -/
def phase5Week (now : Int) (g u : Rand) (homeId : Id) (caregivers : List Id)
    (clients : List Client) (current : Int) (k uk : Nat) :
    List Activity × Nat × Nat :=
  let active := activeClientIds clients current
  if active.isEmpty then ([], k, uk)
  else phase5Activities now g u homeId caregivers active current
    (randNat g k 2 5) (k + 1) uk

/-- The Phase 5 weekly loop for one home, starting one week after opening
(fuel bounds the recursion exactly as for `phase3Loop`). -/
def phase5Home (now : Int) (g u : Rand) (homeId : Id) (caregivers : List Id)
    (clients : List Client) : Nat → Int → Nat → Nat → List Activity × Nat × Nat
  | 0, _, k, uk => ([], k, uk)
  | fuel + 1, current, k, uk =>
    if current < endDate now then
      let week := phase5Week now g u homeId caregivers clients current k uk
      let rest := phase5Home now g u homeId caregivers clients fuel
        (current + 7 * dayLen) week.2.1 week.2.2
      (week.1 ++ rest.1, rest.2.1, rest.2.2)
    else ([], k, uk)

/-! ## Phase 6 (incident stream per home) -/

/-- The Phase 6 incident loop for one home: from a start 14-45 days after
opening, step 10-30 days; at each step with active residents and a hit of the
incident coin, generate one incident at the current date (the involved client
is drawn from the active list, or omitted on the 10%% coin). -/
def phase6Home (now : Int) (g u : Rand) (homeId : Id) (caregivers : List Id)
    (clients : List Client) (homeSequence : Nat) (adminUserIds : List Id) :
    Nat → Int → IncidentGenState → Nat → Nat →
    List Incident × IncidentGenState × Nat × Nat
  | 0, _, st, k, uk => ([], st, k, uk)
  | fuel + 1, current, st, k, uk =>
    if current < endDate now then
      let active := activeClientIds clients current
      -- if active_client_ids and random.random() > 0.6 (coin only drawn when
      -- the list is nonempty)
      if !active.isEmpty && randBool g k then
        let clientId :=
          if randBool g (k + 1) then some (choiceD active 0 g (k + 2)) else none
        let reporterId := choiceD caregivers 0 g (k + 3)
        let one := incidentGenerate st g u (k + 4) uk homeId clientId reporterId
          current (some homeSequence) adminUserIds
        let step := randInt g one.2.2.1 10 30
        let rest := phase6Home now g u homeId caregivers clients homeSequence
          adminUserIds fuel (current + step * dayLen) one.2.1 (one.2.2.1 + 1) one.2.2.2
        (one.1 :: rest.1, rest.2.1, rest.2.2.1, rest.2.2.2)
      else
        let k1 := if active.isEmpty then k else k + 1
        let step := randInt g k1 10 30
        phase6Home now g u homeId caregivers clients homeSequence adminUserIds
          fuel (current + step * dayLen) st (k1 + 1) uk
    else ([], st, k, uk)

/-! ## Appointment generator and the upcoming-appointments pass of Phase 7 -/

/-- `AppointmentGenerator.OUTCOME_TEMPLATES["Completed"]`. -/
def OUTCOME_COMPLETED : List String :=
  ["Appointment completed as scheduled. No concerns noted.",
   "Visit went well. Follow-up scheduled in 3 months.",
   "Good outcome. Medication adjusted as needed.",
   "Resident tolerated appointment well. Results pending.",
   "Stable condition noted. Continue current care plan.",
   "Provider satisfied with progress. No changes to treatment."]

/-- `AppointmentGenerator.OUTCOME_TEMPLATES["Cancelled"]`. -/
def OUTCOME_CANCELLED : List String :=
  ["Cancelled due to resident illness.",
   "Cancelled - weather conditions.",
   "Cancelled by provider office - rescheduled.",
   "Family requested cancellation.",
   "Cancelled - transportation unavailable."]

/-- `AppointmentGenerator.OUTCOME_TEMPLATES["NoShow"]`. -/
def OUTCOME_NOSHOW : List String :=
  ["Resident refused to go to appointment.",
   "Missed appointment - scheduling error.",
   "Could not attend due to acute illness."]

/-- `AppointmentGenerator.OUTCOME_TEMPLATES["Rescheduled"]`. -/
def OUTCOME_RESCHEDULED : List String :=
  ["Rescheduled to better accommodate resident's needs.",
   "Provider requested reschedule.",
   "Rescheduled due to conflicting appointment."]

/-- `OUTCOME_TEMPLATES.get(status, [])`. -/
def outcomePool (status : String) : List String :=
  if status = "Completed" then OUTCOME_COMPLETED
  else if status = "Cancelled" then OUTCOME_CANCELLED
  else if status = "NoShow" then OUTCOME_NOSHOW
  else if status = "Rescheduled" then OUTCOME_RESCHEDULED
  else []

/-- An appointment record (`AppointmentGenerator.generate`).  The textual
title/location/provider/notes fields are reference-pool text (spec section 6
collaborator) and are omitted. -/
structure Appointment where
  id : Id
  clientId : Id
  homeId : Id
  appointmentType : String
  status : String
  scheduledAt : Int
  durationMinutes : Nat
  reminderSent : Bool
  createdById : Id
  createdAt : Int
  completedAt : Option Int
  completedById : Option Id
  outcomeNotes : Option String
deriving Repr, DecidableEq

/-- `AppointmentGenerator.generate` (the unused `appointment_counter`
increment is dropped). -/
def appointmentGenerate (g u : Rand) (k uk : Nat) (clientId homeId createdById : Id)
    (scheduledAt : Int) (isPast : Bool) : Appointment × Nat × Nat :=
  let appointmentType := weightedChoice APPOINTMENT_TYPES "Other" g k
  let duration := choiceD (appointmentDurationPool appointmentType) 30 g (k + 4)
  let base : Appointment :=
    { id := u uk
      clientId := clientId
      homeId := homeId
      appointmentType := appointmentType
      status := "Scheduled"
      scheduledAt := scheduledAt
      durationMinutes := duration
      reminderSent := isPast
      createdById := createdById
      createdAt := scheduledAt - randInt g (k + 8) 3 21 * dayLen
      completedAt := none
      completedById := none
      outcomeNotes := none }
  let appt :=
    if isPast then
      let status := weightedChoice APPOINTMENT_STATUSES "Completed" g (k + 9)
      if status = "Completed" then
        { base with
            status := status
            completedAt := some (scheduledAt + (duration : Int))
            completedById := some createdById
            outcomeNotes := some (choiceD OUTCOME_COMPLETED "" g (k + 10)) }
      else if status = "Cancelled" ∨ status = "NoShow" ∨ status = "Rescheduled" then
        { base with
            status := status
            outcomeNotes := some (choiceD (outcomePool status) "" g (k + 10)) }
      else { base with status := status }
    else base
  (appt, k + 12, uk + 1)

/-- The inner `for _ in range(num_upcoming)` loop of the upcoming-appointments
pass: each round is scheduled 1-30 days after `datetime.now()` (the fixed
anchor `now`) at a clock time of 8:00-17:45, always with `is_past=False`. -/
def upcomingForClient (now : Int) (g u : Rand) (caregivers : List Id)
    (c : Client) : Nat → Nat → Nat → List Appointment × Nat × Nat
  | 0, k, uk => ([], k, uk)
  | n + 1, k, uk =>
    let caregiverId := choiceD caregivers 0 g k
    let daysAhead := randInt g (k + 1) 1 30
    let hour := randInt g (k + 2) 8 17
    let minute := choiceD ([0, 15, 30, 45] : List Nat) 0 g (k + 3)
    let schedTime := dateFloor (now + daysAhead * dayLen) + hour * hourLen + (minute : Int)
    let one := appointmentGenerate g u (k + 4) uk c.id c.homeId caregiverId schedTime false
    let rest := upcomingForClient now g u caregivers c n one.2.1 one.2.2
    (one.1 :: rest.1, rest.2.1, rest.2.2)

/-- The upcoming-appointments pass of Phase 7 (`generate.py`, the second
client loop): every still-active client gets 0-2 appointments in the next 30
days. -/
def upcomingAppointments (now : Int) (g u : Rand) (caregivers : List Id) :
    List Client → Nat → Nat → List Appointment × Nat × Nat
  | [], k, uk => ([], k, uk)
  | c :: rest, k, uk =>
    if c.isActive then
      let num := randNat g k 0 2
      let one := upcomingForClient now g u caregivers c num (k + 1) uk
      let more := upcomingAppointments now g u caregivers rest one.2.1 one.2.2
      (one.1 ++ more.1, more.2.1, more.2.2)
    else upcomingAppointments now g u caregivers rest k uk

/-! ## Care-log generators and Phase 4 (daily care logs) -/

/-- An ADL log record (`ADLLogGenerator.generate`); the optional `notes`
text is reference-pool text behind a coin (spec section 6 collaborator) and
is omitted. -/
structure AdlLog where
  id : Id
  clientId : Id
  caregiverId : Id
  timestamp : Int
  bathing : String
  dressing : String
  toileting : String
  transferring : String
  continence : String
  feeding : String
  createdAt : Int
deriving Repr, DecidableEq

/-- `ADLLogGenerator.generate`: the six task fields each pick from the
independence-adjusted level pool (`_get_levels`). -/
def adlGenerate (g u : Rand) (k uk : Nat) (clientId caregiverId : Id)
    (timestamp : Int) (independence : String) : AdlLog :=
  let levels := adlLevels independence
  { id := u uk
    clientId := clientId
    caregiverId := caregiverId
    timestamp := timestamp
    bathing := choiceD levels "Independent" g k
    dressing := choiceD levels "Independent" g (k + 1)
    toileting := choiceD levels "Independent" g (k + 2)
    transferring := choiceD levels "Independent" g (k + 3)
    continence := choiceD levels "Independent" g (k + 4)
    feeding := choiceD levels "Independent" g (k + 5)
    createdAt := timestamp }

/-- A vitals log record (`VitalsLogGenerator.generate`); the float-valued
`temperature` (`random.uniform`) is the one real-valued collaborator field
and is omitted, and the conditional abnormal-vitals `notes` text likewise. -/
structure VitalsLog where
  id : Id
  clientId : Id
  caregiverId : Id
  timestamp : Int
  systolicBP : Int
  diastolicBP : Int
  pulse : Int
  oxygenSaturation : Int
  createdAt : Int
deriving Repr, DecidableEq

/-- `VitalsLogGenerator.generate`.  `hasDia` is accepted and unused exactly
as `has_diabetes` is in the source. -/
def vitalsGenerate (g u : Rand) (k uk : Nat) (clientId caregiverId : Id)
    (timestamp : Int) (hasHyp hasDia : Bool) : VitalsLog :=
  let systolicBase : Int := if hasHyp then 140 else 120
  { id := u uk
    clientId := clientId
    caregiverId := caregiverId
    timestamp := timestamp
    systolicBP := systolicBase + randIntNeg g k (-15) 20
    diastolicBP := 80 + randIntNeg g (k + 1) (-10) 15
    pulse := 72 + randIntNeg g (k + 2) (-12) 18
    oxygenSaturation := min 100 (max 88 (97 + randIntNeg g (k + 3) (-5) 3))
    createdAt := timestamp }

/-- A medication log record (`MedicationLogGenerator.generate`); the
status-dependent fixed `notes` text is omitted. -/
structure MedicationLog where
  id : Id
  clientId : Id
  caregiverId : Id
  timestamp : Int
  medicationName : String
  dosage : String
  route : String
  status : String
  scheduledTime : Int
  createdAt : Int
deriving Repr, DecidableEq

/-- `MedicationLogGenerator.generate`: `scheduledTime` is the timestamp's
day with the clock replaced by a pick of `MEDICATION_TIMES`. -/
def medicationGenerate (g u : Rand) (k uk : Nat) (clientId caregiverId : Id)
    (timestamp : Int) (med : String × String × String) : MedicationLog :=
  { id := u uk
    clientId := clientId
    caregiverId := caregiverId
    timestamp := timestamp
    medicationName := med.1
    dosage := med.2.1
    route := med.2.2
    status := weightedChoice MED_STATUS_WEIGHTS "Administered" g k
    scheduledTime := dateFloor timestamp +
      ((choiceD MEDICATION_TIMES 480 g (k + 1) : Nat) : Int)
    createdAt := timestamp }

/-- A ROM log record (`ROMLogGenerator.generate`); the exercise description
and optional note are reference-pool text and are omitted. -/
structure RomLog where
  id : Id
  clientId : Id
  caregiverId : Id
  timestamp : Int
  duration : Nat
  repetitions : Option Nat
  createdAt : Int
deriving Repr, DecidableEq

/-- `ROMLogGenerator.generate`. -/
def romGenerate (g u : Rand) (k uk : Nat) (clientId caregiverId : Id)
    (timestamp : Int) : RomLog :=
  { id := u uk
    clientId := clientId
    caregiverId := caregiverId
    timestamp := timestamp
    duration := choiceD ([5, 10, 15, 20] : List Nat) 5 g k
    repetitions := choiceD ([none, some 5, some 10, some 15, some 20] :
      List (Option Nat)) none g (k + 1)
    createdAt := timestamp }

/-- A behavior note record (`BehaviorNoteGenerator.generate`); the
category/text pair drawn from `BEHAVIOR_OBSERVATIONS` is reference-pool text
and is omitted. -/
structure BehaviorNote where
  id : Id
  clientId : Id
  caregiverId : Id
  timestamp : Int
  severity : String
  createdAt : Int
deriving Repr, DecidableEq

/-- `BehaviorNoteGenerator.generate`. -/
def behaviorGenerate (g u : Rand) (k uk : Nat) (clientId caregiverId : Id)
    (timestamp : Int) : BehaviorNote :=
  { id := u uk
    clientId := clientId
    caregiverId := caregiverId
    timestamp := timestamp
    severity := weightedChoice BEHAVIOR_SEVERITY_WEIGHTS "Low" g k
    createdAt := timestamp }

/-- The diagnosis-dependent condition flags of Phase 4.  The source tests
substring containment in the `", "`-joined diagnosis string; no entry of
`config.DIAGNOSES` contains another entry's test string and none of the test
strings spans a `", "` join boundary, so each containment test equals
membership of the unique pool entries containing it ("Hypertension";
"Type 2 Diabetes" for `"Diabetes" in`; "Vascular dementia" or
"Alzheimer's disease" for the lower-cased `"dementia" in` / `"Alzheimer"
in` pair). -/
def hasHypertension (c : Client) : Bool := c.diagnoses.contains "Hypertension"

/-- `has_diabetes` of Phase 4 (see `hasHypertension`). -/
def hasDiabetes (c : Client) : Bool := c.diagnoses.contains "Type 2 Diabetes"

/-- `has_dementia` of Phase 4 (see `hasHypertension`). -/
def hasDementia (c : Client) : Bool :=
  c.diagnoses.contains "Vascular dementia" ||
    c.diagnoses.contains "Alzheimer's disease"

/-- The five per-day log streams of Phase 4. -/
structure LogBundle where
  adls : List AdlLog
  vitals : List VitalsLog
  meds : List MedicationLog
  roms : List RomLog
  behaviors : List BehaviorNote
deriving Repr, DecidableEq

/-- The empty log bundle. -/
def emptyBundle : LogBundle := ⟨[], [], [], [], []⟩

/-- Stream-wise concatenation of log bundles (the `.append` accumulation of
Phase 4). -/
def bundleAppend (a b : LogBundle) : LogBundle :=
  ⟨a.adls ++ b.adls, a.vitals ++ b.vitals, a.meds ++ b.meds,
   a.roms ++ b.roms, a.behaviors ++ b.behaviors⟩

/-- The `for _ in range(random.randint(1, 2))` ADL sub-loop of a Phase 4
day. -/
def phase4Adls (g u : Rand) (clientId caregiverId : Id) (current : Int)
    (independence : String) : Nat → Nat → Nat → List AdlLog × Nat × Nat
  | 0, k, uk => ([], k, uk)
  | n + 1, k, uk =>
    let t := workingHourTime g k current
    let one := adlGenerate g u (k + 2) uk clientId caregiverId t independence
    let more := phase4Adls g u clientId caregiverId current independence n
      (k + 8) (uk + 1)
    (one :: more.1, more.2.1, more.2.2)

/-- The `for _ in range(random.randint(1, 2))` vitals sub-loop of a Phase 4
day. -/
def phase4Vitals (g u : Rand) (clientId caregiverId : Id) (current : Int)
    (hasHyp hasDia : Bool) : Nat → Nat → Nat → List VitalsLog × Nat × Nat
  | 0, k, uk => ([], k, uk)
  | n + 1, k, uk =>
    let t := workingHourTime g k current
    let one := vitalsGenerate g u (k + 2) uk clientId caregiverId t hasHyp hasDia
    let more := phase4Vitals g u clientId caregiverId current hasHyp hasDia n
      (k + 6) (uk + 1)
    (one :: more.1, more.2.1, more.2.2)

/-- The `for med in meds` sub-loop of a Phase 4 day: each medication draws
the 98%%-compliance coin and on a hit produces one log. -/
def phase4Meds (g u : Rand) (clientId caregiverId : Id) (current : Int) :
    List (String × String × String) → Nat → Nat →
    List MedicationLog × Nat × Nat
  | [], k, uk => ([], k, uk)
  | med :: rest, k, uk =>
    if randBool g k then
      let t := workingHourTime g (k + 1) current
      let one := medicationGenerate g u (k + 3) uk clientId caregiverId t med
      let more := phase4Meds g u clientId caregiverId current rest (k + 5)
        (uk + 1)
      (one :: more.1, more.2.1, more.2.2)
    else phase4Meds g u clientId caregiverId current rest (k + 1) uk

/-- One day of the Phase 4 `while current_date < discharge` loop: the
caregiver pick, the coin-guarded ADL and vitals sub-loops, the per-medication
loop, and the coin-guarded ROM and behavior entries.  The behavior coin's
threshold varies with `has_dementia` in the source (0.3 vs 0.15); the oracle
models the comparison outcome, so the threshold only shifts the
distribution, not the support. -/
def phase4Day (g u : Rand) (c : Client) (caregivers : List Id)
    (independence : String) (current : Int) (k uk : Nat) :
    LogBundle × Nat × Nat :=
  let caregiverId := choiceD caregivers 0 g k
  let adl :=
    if randBool g (k + 1) then
      phase4Adls g u c.id caregiverId current independence
        (randNat g (k + 2) 1 2) (k + 3) uk
    else ([], k + 2, uk)
  let vit :=
    if randBool g adl.2.1 then
      phase4Vitals g u c.id caregiverId current (hasHypertension c)
        (hasDiabetes c) (randNat g (adl.2.1 + 1) 1 2) (adl.2.1 + 2) adl.2.2
    else ([], adl.2.1 + 1, adl.2.2)
  let med := phase4Meds g u c.id caregiverId current c.medications
    vit.2.1 vit.2.2
  let rom :=
    if randBool g med.2.1 then
      let t := workingHourTime g (med.2.1 + 1) current
      ([romGenerate g u (med.2.1 + 3) med.2.2 c.id caregiverId t],
       med.2.1 + 5, med.2.2 + 1)
    else ([], med.2.1 + 1, med.2.2)
  let beh :=
    if randBool g rom.2.1 then
      let t := workingHourTime g (rom.2.1 + 1) current
      ([behaviorGenerate g u (rom.2.1 + 3) rom.2.2 c.id caregiverId t],
       rom.2.1 + 4, rom.2.2 + 1)
    else ([], rom.2.1 + 1, rom.2.2)
  (⟨adl.1, vit.1, med.1, rom.1, beh.1⟩, beh.2.1, beh.2.2)

/-- The Phase 4 daily loop for one client (`while current_date < discharge:
... current_date += timedelta(days=1)`), fuel-bounded: the loop runs at most
730 iterations over the horizon, so any fuel of at least 731 reproduces the
source loop exactly. -/
def phase4Days (now : Int) (g u : Rand) (c : Client) (caregivers : List Id)
    (independence : String) : Nat → Int → Nat → Nat → LogBundle × Nat × Nat
  | 0, _, k, uk => (emptyBundle, k, uk)
  | fuel + 1, current, k, uk =>
    if current < c.dischargeDate.getD (endDate now) then
      let day := phase4Day g u c caregivers independence current k uk
      let rest := phase4Days now g u c caregivers independence fuel
        (current + dayLen) day.2.1 day.2.2
      (bundleAppend day.1 rest.1, rest.2.1, rest.2.2)
    else (emptyBundle, k, uk)

/-- Phase 4 for one client: the one-off `base_independence` pick, then the
daily loop from the stored admission date. -/
def phase4ForClient (now : Int) (g u : Rand) (caregivers : List Id)
    (c : Client) (fuel k uk : Nat) : LogBundle × Nat × Nat :=
  let independence := choiceD INDEPENDENCE_LEVELS "Independent" g k
  phase4Days now g u c caregivers independence fuel c.admissionDate (k + 1) uk

/-- Phase 4 over the global client list (`for client in clients`), each
client against their home's caregiver pool. -/
def phase4All (now : Int) (g u : Rand) (pools : List (Id × List Id))
    (fuel : Nat) : List Client → Nat → Nat → LogBundle × Nat × Nat
  | [], k, uk => (emptyBundle, k, uk)
  | c :: rest, k, uk =>
    let caregivers := (pools.lookup c.homeId).getD []
    let one := phase4ForClient now g u caregivers c fuel k uk
    let more := phase4All now g u pools fuel rest one.2.1 one.2.2
    (bundleAppend one.1 more.1, more.2.1, more.2.2)

/-! ## The past-appointments loop of Phase 7 -/

/-- The per-client `while current_date < discharge` appointment loop of
Phase 7: each round schedules at the current date with a clock of 8:00-17:45,
the past flag is the comparison against `datetime.now()` (the anchor), and
the date steps 14-42 days. -/
def pastForClient (now : Int) (g u : Rand) (caregivers : List Id)
    (c : Client) : Nat → Int → Nat → Nat → List Appointment × Nat × Nat
  | 0, _, k, uk => ([], k, uk)
  | fuel + 1, current, k, uk =>
    if current < c.dischargeDate.getD (endDate now) then
      let caregiverId := choiceD caregivers 0 g k
      let hour := randInt g (k + 1) 8 17
      let minute := choiceD ([0, 15, 30, 45] : List Nat) 0 g (k + 2)
      let time := dateFloor current + hour * hourLen + (minute : Int)
      let isPast := decide (time < endDate now)
      let one := appointmentGenerate g u (k + 3) uk c.id c.homeId caregiverId
        time isPast
      let rest := pastForClient now g u caregivers c fuel
        (current + randInt g one.2.1 14 42 * dayLen) (one.2.1 + 1) one.2.2
      (one.1 :: rest.1, rest.2.1, rest.2.2)
    else ([], k, uk)

/-- The past-appointments pass of Phase 7 over the global client list: per
client the first appointment lands 7-30 days after admission. -/
def pastAppointments (now : Int) (g u : Rand) (pools : List (Id × List Id))
    (fuel : Nat) : List Client → Nat → Nat → List Appointment × Nat × Nat
  | [], k, uk => ([], k, uk)
  | c :: rest, k, uk =>
    let caregivers := (pools.lookup c.homeId).getD []
    let start := c.admissionDate + randInt g k 7 30 * dayLen
    let one := pastForClient now g u caregivers c fuel start (k + 1) uk
    let more := pastAppointments now g u pools fuel rest one.2.1 one.2.2
    (one.1 ++ more.1, more.2.1, more.2.2)

/-- The upcoming-appointments pass of Phase 7 over the global client list,
each active client against their home's caregiver pool. -/
def upcomingAll (now : Int) (g u : Rand) (pools : List (Id × List Id)) :
    List Client → Nat → Nat → List Appointment × Nat × Nat
  | [], k, uk => ([], k, uk)
  | c :: rest, k, uk =>
    if c.isActive then
      let caregivers := (pools.lookup c.homeId).getD []
      let num := randNat g k 0 2
      let one := upcomingForClient now g u caregivers c num (k + 1) uk
      let more := upcomingAll now g u pools rest one.2.1 one.2.2
      (one.1 ++ more.1, more.2.1, more.2.2)
    else upcomingAll now g u pools rest k uk

/-! ## Homes, beds, users and Phases 1-2 -/

/-- A home record (`HomeGenerator.generate`); the Faker/pool-drawn name,
address and phone fields are omitted (the name-uniqueness retry loop draws
only text). -/
structure Home where
  id : Id
  capacity : Nat
  isActive : Bool
  createdAt : Int
  createdById : Id
deriving Repr, DecidableEq

/-- A bed record (`HomeGenerator.generate_beds`); the fixed `label`/`status`
strings are determined by the index and omitted. -/
structure Bed where
  id : Id
  homeId : Id
  isActive : Bool
  createdAt : Int
deriving Repr, DecidableEq

/-- A user record; `role` is the single element of the source's `roles`
list, the Faker identity fields are omitted. -/
structure User where
  id : Id
  role : String
  isActive : Bool
  createdAt : Int
deriving Repr, DecidableEq

/-- A caregiver-home assignment record.  `seededId` marks which of the two
construction sites produced the record: `False` for the uuid4-drawn ids of
`UserGenerator.generate_caregiver`, `True` for the Phase 2 cross-home
records whose id is assembled from seeded `random.getrandbits(128)` draws
(and is therefore seed-determined, unlike every other id). -/
structure HomeAssignment where
  id : Id
  seededId : Bool
  userId : Id
  homeId : Id
  assignedAt : Int
  assignedById : Id
  isActive : Bool
deriving Repr, DecidableEq

/-- `HomeGenerator.generate`. -/
def homeGenerate (g u : Rand) (k uk : Nat) (openDate : Int)
    (createdById : Id) : Home :=
  { id := u uk
    capacity := choiceD ([4, 5, 6] : List Nat) 4 g k
    isActive := true
    createdAt := openDate
    createdById := createdById }

/-- `HomeGenerator.generate_beds`: one bed per capacity slot, created at the
home's creation time. -/
def bedsGenerate (u : Rand) (uk : Nat) (home : Home) : List Bed :=
  (List.range home.capacity).map (fun i =>
    ⟨u (uk + i), home.id, true, home.createdAt⟩)

/-- `UserGenerator.generate_caregiver` for a single home: the user plus the
one home-assignment record, both stamped with the hire date. -/
def caregiverGenerate (u : Rand) (uk : Nat) (hireDate : Int) (homeId : Id)
    (assignedById : Id) : User × HomeAssignment :=
  (⟨u uk, "Caregiver", true, hireDate⟩,
   ⟨u (uk + 1), false, u uk, homeId, hireDate, assignedById, true⟩)

/-- The six organic home-opening dates of Phase 1. -/
def homeOpenDates (g : Rand) (now : Int) (k : Nat) : List Int :=
  [startDate now + 14 * dayLen,
   startDate now + randInt g k 90 120 * dayLen,
   startDate now + randInt g (k + 1) 180 240 * dayLen,
   startDate now + randInt g (k + 2) 300 360 * dayLen,
   startDate now + randInt g (k + 3) 420 480 * dayLen,
   startDate now + randInt g (k + 4) 540 600 * dayLen]

/-- Phase 1: one home with its beds per opening date. -/
def phase1 (g u : Rand) (adminId : Id) :
    List Int → Nat → Nat → List (Home × List Bed) × Nat × Nat
  | [], k, uk => ([], k, uk)
  | d :: rest, k, uk =>
    let home := homeGenerate g u k uk d adminId
    let beds := bedsGenerate u (uk + 1) home
    let more := phase1 g u adminId rest (k + 1) (uk + 1 + home.capacity)
    ((home, beds) :: more.1, more.2.1, more.2.2)

/-- The per-home hiring loop of Phase 2: each caregiver's hire date is the
home opening shifted by -14..14 days, floored at `START_DATE`.  Returns the
users, their assignment records and the home's caregiver-id pool. -/
def phase2Home (g u : Rand) (now : Int) (adminId : Id) (home : Home) :
    Nat → Nat → Nat → List User × List HomeAssignment × List Id × Nat × Nat
  | 0, k, uk => ([], [], [], k, uk)
  | n + 1, k, uk =>
    let hireDate := max (home.createdAt + randIntNeg g k (-14) 14 * dayLen)
      (startDate now)
    let cg := caregiverGenerate u uk hireDate home.id adminId
    let more := phase2Home g u now adminId home n (k + 1) (uk + 2)
    (cg.1 :: more.1, cg.2 :: more.2.1, cg.1.id :: more.2.2.1,
     more.2.2.2.1, more.2.2.2.2)

/-- Phase 2 over all homes: 2-3 caregivers per home, pools keyed by home id
in home order (`caregivers_by_home`). -/
def phase2 (g u : Rand) (now : Int) (adminId : Id) :
    List Home → Nat → Nat →
    List User × List HomeAssignment × List (Id × List Id) × Nat × Nat
  | [], k, uk => ([], [], [], k, uk)
  | home :: rest, k, uk =>
    let n := randNat g k 2 3
    let one := phase2Home g u now adminId home n (k + 1) uk
    let more := phase2 g u now adminId rest one.2.2.2.1 one.2.2.2.2
    (one.1 ++ more.1, one.2.1 ++ more.2.1,
     (home.id, one.2.2.1) :: more.2.2.1, more.2.2.2.1, more.2.2.2.2)

/-- `caregivers_by_home[home_id].append(caregiver)` for the cross-home
loop. -/
def appendPool (pools : List (Id × List Id)) (h : Id) (cg : Id) :
    List (Id × List Id) :=
  pools.map (fun p => if p.1 = h then (p.1, p.2 ++ [cg]) else p)

/-- The cross-home loop of Phase 2 (`for home in homes[3:]`): on a coin hit
an existing caregiver of one of the first three homes is also assigned to
the later home.  The assignment record's id is assembled from seeded
`random.getrandbits` draws (one oracle position), its `assignedAt` is the
later home's creation time, and the caregiver joins the later home's pool. -/
def crossHome (g : Rand) (allHomes : List Home) (adminId : Id) :
    List Home → List (Id × List Id) → Nat →
    List HomeAssignment × List (Id × List Id) × Nat
  | [], pools, k => ([], pools, k)
  | home :: rest, pools, k =>
    if randBool g k then
      let earlier := choiceD (allHomes.take 3) ⟨0, 0, false, 0, 0⟩ g (k + 1)
      let cg := choiceD ((pools.lookup earlier.id).getD []) 0 g (k + 2)
      let a : HomeAssignment :=
        ⟨g (k + 3), true, cg, home.id, home.createdAt, adminId, true⟩
      let more := crossHome g allHomes adminId rest
        (appendPool pools home.id cg) (k + 4)
      (a :: more.1, more.2.1, more.2.2)
    else crossHome g allHomes adminId rest pools (k + 1)

/-! ## The per-home phase loops over all six homes -/

/-- Recursion bound for the dated loops; every loop step advances at least 7
days over the 730-day horizon, so 200 is never exhausted. -/
def runFuel : Nat := 200

/-- Recursion bound for the daily Phase 4 loop (at most 730 iterations over
the horizon, so 800 is never exhausted). -/
def dayFuel : Nat := 800

/-- Phase 3 over all homes, producing the per-home client slices
(`clients_by_home`) in home order. -/
def phase3All (now : Int) (g u : Rand) (pools : List (Id × List Id)) :
    List (Home × List Bed) → Nat → Nat →
    List (Id × List Client) × Nat × Nat
  | [], k, uk => ([], k, uk)
  | hb :: rest, k, uk =>
    let caregivers := (pools.lookup hb.1.id).getD []
    let s := phase3Home now g u hb.1.id (hb.2.map Bed.id) caregivers
      hb.1.createdAt runFuel k uk
    let more := phase3All now g u pools rest s.k s.uk
    ((hb.1.id, s.clients) :: more.1, more.2.1, more.2.2)

/-- Phase 5 over all homes (each against its caregiver pool and client
slice). -/
def phase5All (now : Int) (g u : Rand) (pools : List (Id × List Id))
    (clientsByHome : List (Id × List Client)) :
    List Home → Nat → Nat → List Activity × Nat × Nat
  | [], k, uk => ([], k, uk)
  | home :: rest, k, uk =>
    let caregivers := (pools.lookup home.id).getD []
    let cs := (clientsByHome.lookup home.id).getD []
    let one := phase5Home now g u home.id caregivers cs runFuel
      (home.createdAt + 7 * dayLen) k uk
    let more := phase5All now g u pools clientsByHome rest one.2.1 one.2.2
    (one.1 ++ more.1, more.2.1, more.2.2)

/-- Phase 6 over all homes with the 1-based home sequence and the threaded
incident-generator state; each home's incident stream starts 14-45 days
after opening. -/
def phase6All (now : Int) (g u : Rand) (pools : List (Id × List Id))
    (clientsByHome : List (Id × List Client)) (adminUserIds : List Id) :
    List Home → Nat → IncidentGenState → Nat → Nat →
    List Incident × IncidentGenState × Nat × Nat
  | [], _, st, k, uk => ([], st, k, uk)
  | home :: rest, seq, st, k, uk =>
    let caregivers := (pools.lookup home.id).getD []
    let cs := (clientsByHome.lookup home.id).getD []
    let one := phase6Home now g u home.id caregivers cs seq adminUserIds
      runFuel (home.createdAt + randInt g k 14 45 * dayLen) st (k + 1) uk
    let more := phase6All now g u pools clientsByHome adminUserIds rest
      (seq + 1) one.2.1 one.2.2.1 one.2.2.2
    (one.1 ++ more.1, more.2.1, more.2.2.1, more.2.2.2)

/-! ## Phase 8 (client document metadata) -/

/-- A client-document metadata record
(`DocumentGenerator.generate_documents_for_client`); the file name,
description and PDF rendering (`fileSizeBytes`) are collaborator output and
are omitted. -/
structure Document where
  id : Id
  clientId : Id
  documentType : String
  createdAt : Int
deriving Repr, DecidableEq

/-- The Phase 8 document schedule for one client, based at the stored
admission date: care plan at admission, consent at -7..0 days, insurance at
-14..0, identification at -7..0, 1-2 legal documents at -30..7 each, the
admission physical at -30..14, and on a coin an extra consent at 7..90 days.
The annual-physical branch is dead code: `base_date` is the admission date
itself, so `days_since_admission` is always 0 and never exceeds 365. -/
def documentsForClient (g u : Rand) (k uk : Nat) (c : Client) :
    List Document :=
  let carePlan : Document := ⟨u uk, c.id, "CarePlan", c.admissionDate⟩
  let consent : Document :=
    ⟨u (uk + 1), c.id, "ConsentForm",
      c.admissionDate + randIntNeg g k (-7) 0 * dayLen⟩
  let insurance : Document :=
    ⟨u (uk + 2), c.id, "Insurance",
      c.admissionDate + randIntNeg g (k + 1) (-14) 0 * dayLen⟩
  let identDoc : Document :=
    ⟨u (uk + 3), c.id, "Identification",
      c.admissionDate + randIntNeg g (k + 2) (-7) 0 * dayLen⟩
  let legalCount := randNat g (k + 3) 1 2
  let legals := (List.range legalCount).map (fun i =>
    (⟨u (uk + 4 + i), c.id, "Legal",
      c.admissionDate + randIntNeg g (k + 4 + i) (-30) 7 * dayLen⟩ :
      Document))
  let medical : Document :=
    ⟨u (uk + 4 + legalCount), c.id, "MedicalReport",
      c.admissionDate + randIntNeg g (k + 4 + legalCount) (-30) 14 * dayLen⟩
  let extra : List Document :=
    if randBool g (k + 5 + legalCount) then
      [⟨u (uk + 5 + legalCount), c.id, "ConsentForm",
        c.admissionDate + randInt g (k + 6 + legalCount) 7 90 * dayLen⟩]
    else []
  carePlan :: consent :: insurance :: identDoc :: (legals ++ medical :: extra)

/-- Phase 8 over the global client list. -/
def phase8All (g u : Rand) : List Client → Nat → Nat →
    List Document × Nat × Nat
  | [], k, uk => ([], k, uk)
  | c :: rest, k, uk =>
    let docs := documentsForClient g u k uk c
    let more := phase8All g u rest (k + 9) (uk + docs.length)
    (docs ++ more.1, more.2.1, more.2.2)

/-! ## The composed generation run (`generate_synthetic_data`)

The dataset is assembled over all six homes in the source's phase order:
homes and beds, users and caregiver assignments (including the cross-home
loop), Phase 3 residents, Phase 4 daily care logs, Phase 5 activities,
Phase 6 incidents, the Phase 7 past- and upcoming-appointment passes, and
the Phase 8 document metadata.  The seeded stream `g` and the wall-clock
anchor `now` are the tunable inputs of spec section 6; `u` is the
`uuid.uuid4()` entropy source.  Activity participation records stay inline
in their activities (the source splits them into a second list when
saving). -/

/-- The record streams assembled by the run (`all_data`). -/
structure Dataset where
  homes : List Home
  beds : List Bed
  users : List User
  assignments : List HomeAssignment
  clients : List Client
  adlLogs : List AdlLog
  vitalsLogs : List VitalsLog
  medicationLogs : List MedicationLog
  romLogs : List RomLog
  behaviorNotes : List BehaviorNote
  activities : List Activity
  incidents : List Incident
  appointments : List Appointment
  documents : List Document
deriving Repr, DecidableEq

/-- The full generation run.  Uuid positions 0 and 1 are the admin and
sysadmin users created first in Phase 1; oracle positions 0-4 hold the five
drawn home-opening offsets. -/
def generateDataset (g u : Rand) (now : Int) : Dataset :=
  let adminId := u 0
  let admin : User := ⟨adminId, "Admin", true, startDate now⟩
  let sysadmin : User := ⟨u 1, "Sysadmin", true, startDate now⟩
  let p1 := phase1 g u adminId (homeOpenDates g now 0) 5 2
  let homes := p1.1.map Prod.fst
  let p2 := phase2 g u now adminId homes p1.2.1 p1.2.2
  let cross := crossHome g homes adminId (homes.drop 3) p2.2.2.1 p2.2.2.2.1
  let pools := cross.2.1
  let p3 := phase3All now g u pools p1.1 cross.2.2 p2.2.2.2.2
  let clients := (p3.1.map Prod.snd).flatten
  let p4 := phase4All now g u pools dayFuel clients p3.2.1 p3.2.2
  let p5 := phase5All now g u pools p3.1 homes p4.2.1 p4.2.2
  let p6 := phase6All now g u pools p3.1 [adminId] homes 1
    IncidentGenState.init p5.2.1 p5.2.2
  let past := pastAppointments now g u pools runFuel clients
    p6.2.2.1 p6.2.2.2
  let upc := upcomingAll now g u pools clients past.2.1 past.2.2
  let p8 := phase8All g u clients upc.2.1 upc.2.2
  { homes := homes
    beds := (p1.1.map Prod.snd).flatten
    users := admin :: sysadmin :: p2.1
    assignments := p2.2.1 ++ cross.1
    clients := clients
    adlLogs := p4.1.adls
    vitalsLogs := p4.1.vitals
    medicationLogs := p4.1.meds
    romLogs := p4.1.roms
    behaviorNotes := p4.1.behaviors
    activities := p5.1
    incidents := p6.1
    appointments := past.1 ++ upc.1
    documents := p8.1 }

/-! ## Relabelling and erasure of the uuid-drawn identifier fields -/

/-- Apply `f` to every identifier field of a client. -/
def mapClientIds (f : Nat → Nat) (c : Client) : Client :=
  { c with id := f c.id, homeId := f c.homeId, bedId := f c.bedId,
           createdById := f c.createdById }

/-- Apply `f` to the identifier field of a ledger interval. -/
def mapIntervalIds (f : Nat → Nat) (iv : Interval) : Interval :=
  { iv with clientId := f iv.clientId }

/-- Apply `f` to every identifier in an occupancy ledger. -/
def mapOccIds (f : Nat → Nat) (occ : List (Id × List Interval)) :
    List (Id × List Interval) :=
  occ.map (fun p => (f p.1, p.2.map (mapIntervalIds f)))

/-- Apply `f` to every identifier field of a photo (including the blob-path
components, which embed ids). -/
def mapPhotoIds (f : Nat → Nat) (p : Photo) : Photo :=
  { p with id := f p.id, incidentId := f p.incidentId,
           blobPath := (f p.blobPath.1, f p.blobPath.2.1, f p.blobPath.2.2),
           createdById := f p.createdById }

/-- Apply `f` to every identifier field of an incident. -/
def mapIncidentIds (f : Nat → Nat) (i : Incident) : Incident :=
  { i with id := f i.id, clientId := i.clientId.map f, homeId := f i.homeId,
           reportedById := f i.reportedById, closedById := i.closedById.map f,
           photos := i.photos.map (mapPhotoIds f) }

/-- Apply `f` to every identifier field of a participation record. -/
def mapParticipationIds (f : Nat → Nat) (p : Participation) : Participation :=
  { p with id := f p.id, activityId := f p.activityId, clientId := f p.clientId }

/-- Apply `f` to every identifier field of an activity. -/
def mapActivityIds (f : Nat → Nat) (a : Activity) : Activity :=
  { a with id := f a.id, homeId := f a.homeId, createdById := f a.createdById,
           participants := a.participants.map (mapParticipationIds f) }

/-- Apply `f` to every identifier field of an appointment. -/
def mapAppointmentIds (f : Nat → Nat) (a : Appointment) : Appointment :=
  { a with id := f a.id, clientId := f a.clientId, homeId := f a.homeId,
           createdById := f a.createdById, completedById := a.completedById.map f }

/-- Apply `f` to every identifier field of a home record. -/
def mapHomeIds (f : Nat → Nat) (h : Home) : Home :=
  { h with id := f h.id, createdById := f h.createdById }

/-- Apply `f` to every identifier field of a bed record. -/
def mapBedIds (f : Nat → Nat) (b : Bed) : Bed :=
  { b with id := f b.id, homeId := f b.homeId }

/-- Apply `f` to the identifier field of a user record. -/
def mapUserIds (f : Nat → Nat) (us : User) : User := { us with id := f us.id }

/-- Apply `f` to every uuid-drawn identifier field of a caregiver-home
assignment.  The record id is uuid-drawn except at the cross-home
construction site, where it comes from the seeded stream and is left
untouched. -/
def mapAssignmentIds (f : Nat → Nat) (a : HomeAssignment) : HomeAssignment :=
  { a with id := if a.seededId then a.id else f a.id, userId := f a.userId,
           homeId := f a.homeId, assignedById := f a.assignedById }

/-- Apply `f` to every identifier field of an ADL log. -/
def mapAdlIds (f : Nat → Nat) (l : AdlLog) : AdlLog :=
  { l with id := f l.id, clientId := f l.clientId,
           caregiverId := f l.caregiverId }

/-- Apply `f` to every identifier field of a vitals log. -/
def mapVitalsIds (f : Nat → Nat) (l : VitalsLog) : VitalsLog :=
  { l with id := f l.id, clientId := f l.clientId,
           caregiverId := f l.caregiverId }

/-- Apply `f` to every identifier field of a medication log. -/
def mapMedIds (f : Nat → Nat) (l : MedicationLog) : MedicationLog :=
  { l with id := f l.id, clientId := f l.clientId,
           caregiverId := f l.caregiverId }

/-- Apply `f` to every identifier field of a ROM log. -/
def mapRomIds (f : Nat → Nat) (l : RomLog) : RomLog :=
  { l with id := f l.id, clientId := f l.clientId,
           caregiverId := f l.caregiverId }

/-- Apply `f` to every identifier field of a behavior note. -/
def mapBehaviorIds (f : Nat → Nat) (l : BehaviorNote) : BehaviorNote :=
  { l with id := f l.id, clientId := f l.clientId,
           caregiverId := f l.caregiverId }

/-- Apply `f` to every identifier field of a log bundle. -/
def mapBundleIds (f : Nat → Nat) (b : LogBundle) : LogBundle :=
  ⟨b.adls.map (mapAdlIds f), b.vitals.map (mapVitalsIds f),
   b.meds.map (mapMedIds f), b.roms.map (mapRomIds f),
   b.behaviors.map (mapBehaviorIds f)⟩

/-- Apply `f` to every identifier field of a document record. -/
def mapDocumentIds (f : Nat → Nat) (d : Document) : Document :=
  { d with id := f d.id, clientId := f d.clientId }

/-- Apply `f` to the keys and members of the caregiver pools. -/
def mapPoolIds (f : Nat → Nat) (pools : List (Id × List Id)) :
    List (Id × List Id) :=
  pools.map (fun p => (f p.1, p.2.map f))

/-- Apply `f` to the keys and values of the per-home client slices. -/
def mapClientsByHome (f : Nat → Nat) (m : List (Id × List Client)) :
    List (Id × List Client) :=
  m.map (fun p => (f p.1, p.2.map (mapClientIds f)))

/-- Apply `f` to every uuid-drawn identifier field of a dataset. -/
def mapDatasetIds (f : Nat → Nat) (d : Dataset) : Dataset :=
  { homes := d.homes.map (mapHomeIds f)
    beds := d.beds.map (mapBedIds f)
    users := d.users.map (mapUserIds f)
    assignments := d.assignments.map (mapAssignmentIds f)
    clients := d.clients.map (mapClientIds f)
    adlLogs := d.adlLogs.map (mapAdlIds f)
    vitalsLogs := d.vitalsLogs.map (mapVitalsIds f)
    medicationLogs := d.medicationLogs.map (mapMedIds f)
    romLogs := d.romLogs.map (mapRomIds f)
    behaviorNotes := d.behaviorNotes.map (mapBehaviorIds f)
    activities := d.activities.map (mapActivityIds f)
    incidents := d.incidents.map (mapIncidentIds f)
    appointments := d.appointments.map (mapAppointmentIds f)
    documents := d.documents.map (mapDocumentIds f) }

/-- Blank out every uuid-drawn identifier field of a dataset (the seeded
cross-home assignment ids are kept, being seed-determined). -/
def eraseDatasetIds (d : Dataset) : Dataset := mapDatasetIds (fun _ => 0) d

/-! ## Statement-level helpers -/

/-- The concatenated ledger of all beds. -/
def allIntervals (occ : List (Id × List Interval)) : List Interval :=
  (occ.map (fun p => p.2)).flatten

/-- Number of open (still-unclosed) intervals in one bed's ledger. -/
def openIntervalCount (ivs : List Interval) : Nat :=
  (ivs.filter (fun iv => iv.stop.isNone)).length

/-- Overlap of the `[start, end)` ranges of two intervals, an open end
extending to the simulation end date (the spec's overlap notion). -/
def intervalsOverlap (now : Int) (a b : Interval) : Bool :=
  decide (a.start < b.stop.getD (endDate now)) &&
    decide (b.start < a.stop.getD (endDate now))

/-- Apply `f` to every identifier in a Phase 3 state. -/
def mapPhase3State (f : Nat → Nat) (s : Phase3State) : Phase3State :=
  { clients := s.clients.map (mapClientIds f)
    bedOccupancy := mapOccIds f s.bedOccupancy
    k := s.k
    uk := s.uk }

/-- Apply `f` to the home-id keys of an incident-generator state. -/
def mapIncStateIds (f : Nat → Nat) (st : IncidentGenState) : IncidentGenState :=
  { incidentCounterByHome := st.incidentCounterByHome.map (fun p => (f p.1, p.2))
    homeSequenceMap := st.homeSequenceMap.map (fun p => (f p.1, p.2)) }

/-- The Phase 3 data invariant tying the client list to the occupancy
ledger: active-iff-undischarged clients, distinct uuid-drawn client ids below
the uuid frontier, a one-to-one correspondence between client ids and ledger
interval owners, closed-interval ends matching discharge dates (up to the
`.date()` truncation the client field stores), and distinct ledger keys. -/
def phase3Inv (u : Rand) (s : Phase3State) : Prop :=
  (∀ c ∈ s.clients, (c.isActive = true ↔ c.dischargeDate = none)) ∧
  (s.clients.map Client.id).Nodup ∧
  (∀ i ∈ s.clients.map Client.id, ∃ j, j < s.uk ∧ i = u j) ∧
  (∀ i ∈ (allIntervals s.bedOccupancy).map Interval.clientId,
    i ∈ s.clients.map Client.id) ∧
  (∀ i ∈ s.clients.map Client.id,
    i ∈ (allIntervals s.bedOccupancy).map Interval.clientId) ∧
  (∀ iv ∈ allIntervals s.bedOccupancy, ∀ c ∈ s.clients, iv.clientId = c.id →
    iv.stop.map dateFloor = c.dischargeDate) ∧
  ((allIntervals s.bedOccupancy).map Interval.clientId).Nodup ∧
  (s.bedOccupancy.map Prod.fst).Nodup

/-- Horizon bounds of one Phase 3 client's stored fields: the client belongs
to the generating home, the stored (date-truncated) admission lands at least
13 full days after `START_DATE` and before `END_DATE`, the full admission
datetime `createdAt` lies between the stored admission day and `END_DATE`,
the stored admission is day-aligned, and any discharge date stays inside the
horizon. -/
def clientInHorizon (now : Int) (homeId : Id) (c : Client) : Prop :=
  c.homeId = homeId ∧
  startDate now + 13 * dayLen ≤ c.admissionDate ∧
  c.admissionDate < endDate now ∧
  c.admissionDate ≤ c.createdAt ∧ c.createdAt < endDate now ∧
  c.admissionDate = dateFloor c.admissionDate ∧
  ∀ d, c.dischargeDate = some d → startDate now ≤ d ∧ d < endDate now

/-- The base-36 numeric value of a component string. -/
def base36Val (s : List Char) : Nat :=
  s.foldl (fun acc c => acc * 36 + charIndex c) 0

/-- Default `Client` (for total list access in concrete statements). -/
instance : Inhabited Client :=
  ⟨⟨0, 0, 0, 0, none, none, true, 0, 0, [], []⟩⟩

/-- Default `Incident` (for total list access in concrete statements). -/
instance : Inhabited Incident :=
  ⟨⟨0, [], none, 0, "", 0, "", 0, "", 0, 0, none, none, none, none, []⟩⟩

/-- Default `Appointment` (for total list access in concrete statements). -/
instance : Inhabited Appointment :=
  ⟨⟨0, 0, 0, "", "", 0, 0, false, 0, 0, none, none, none⟩⟩

/-- Default `Home` (for total list access in concrete statements). -/
instance : Inhabited Home :=
  ⟨⟨0, 0, false, 0, 0⟩⟩

/-! # Theorems -/

/-! ## Oracle-draw and list lemmas -/

theorem randNat_bounds (g : Rand) (k a b : Nat) (h : a ≤ b) :
    a ≤ randNat g k a b ∧ randNat g k a b ≤ b := by
  unfold randNat
  have hm : g k % (b - a + 1) < b - a + 1 := Nat.mod_lt _ (by omega)
  omega

theorem randInt_bounds (g : Rand) (k a b : Nat) (h : a ≤ b) :
    (a : Int) ≤ randInt g k a b ∧ randInt g k a b ≤ (b : Int) := by
  have hb := randNat_bounds g k a b h
  unfold randInt
  omega

theorem choiceD_mem {α : Type} (pool : List α) (d : α) (g : Rand) (k : Nat)
    (h : pool ≠ []) : choiceD pool d g k ∈ pool := by
  unfold choiceD
  have hl : 0 < pool.length := List.length_pos.mpr h
  have hm : g k % pool.length < pool.length := Nat.mod_lt _ hl
  rw [List.getD_eq_getElem?_getD, List.getElem?_eq_getElem hm]
  exact List.getElem_mem hm

theorem not_mem_eraseIdx_self {α : Type} {l : List α} {i : Nat}
    (hnd : l.Nodup) (hi : i < l.length) : l[i] ∉ l.eraseIdx i := by
  intro hmem
  rw [List.mem_eraseIdx_iff_getElem] at hmem
  obtain ⟨j, hj, hji, hEq⟩ := hmem
  exact hji ((hnd.getElem_inj_iff).mp hEq)

theorem randSample_length {α : Type} (g : Rand) :
    ∀ (n : Nat) (pool : List α) (k : Nat),
      (randSample g pool n k).length = min n pool.length := by
  intro n
  induction n with
  | zero => intro pool k; simp [randSample]
  | succ n ih =>
    intro pool k
    rcases pool with _ | ⟨a, pool⟩
    · simp [randSample]
    · have hm : g k % (a :: pool).length < (a :: pool).length :=
        Nat.mod_lt _ (by simp)
      have hstep : randSample g (a :: pool) (n + 1) k =
          (a :: pool)[g k % (a :: pool).length] ::
            randSample g ((a :: pool).eraseIdx (g k % (a :: pool).length)) n (k + 1) := by
        conv =>
          lhs
          unfold randSample
        rw [List.get?_eq_getElem?, List.getElem?_eq_getElem hm]
      rw [hstep, List.length_cons, ih, List.length_eraseIdx, if_pos hm]
      simp only [List.length_cons]
      omega

theorem randSample_subset {α : Type} (g : Rand) :
    ∀ (n : Nat) (pool : List α) (k : Nat), ∀ x ∈ randSample g pool n k, x ∈ pool := by
  intro n
  induction n with
  | zero => intro pool k x hx; simp [randSample] at hx
  | succ n ih =>
    intro pool k x hx
    unfold randSample at hx
    split at hx
    · rename_i y hy
      rcases List.mem_cons.mp hx with hx | hx
      · exact hx ▸ List.get?_mem hy
      · exact (List.eraseIdx_sublist pool _).subset (ih _ _ x hx)
    · exact absurd hx (List.not_mem_nil x)

theorem randSample_nodup {α : Type} (g : Rand) :
    ∀ (n : Nat) (pool : List α) (k : Nat), pool.Nodup →
      (randSample g pool n k).Nodup := by
  intro n
  induction n with
  | zero => intro pool k _; simp [randSample]
  | succ n ih =>
    intro pool k hnd
    unfold randSample
    split
    · rename_i y hy
      rw [List.get?_eq_getElem?] at hy
      have hm : g k % pool.length < pool.length := by
        by_contra hge
        rw [List.getElem?_eq_none (by omega)] at hy
        exact Option.noConfusion hy
      rw [List.getElem?_eq_getElem hm] at hy
      have hyv : y = pool[g k % pool.length] := (Option.some.injEq _ _ ▸ hy).symm
      rw [List.nodup_cons]
      refine ⟨fun hmem => ?_, ih _ _ ((List.eraseIdx_sublist pool _).nodup hnd)⟩
      have hsub := randSample_subset g n (pool.eraseIdx (g k % pool.length)) (k + 1) y hmem
      rw [hyv] at hsub
      exact not_mem_eraseIdx_self hnd hm hsub
    · exact List.nodup_nil

theorem enumFrom_map_snd {α : Type} :
    ∀ (i : Nat) (l : List α), (l.enumFrom i).map Prod.snd = l
  | _, [] => rfl
  | i, a :: l => by
    simp only [List.enumFrom_cons, List.map_cons, enumFrom_map_snd (i + 1) l]

theorem enumFrom_map_fst {α : Type} :
    ∀ (i : Nat) (l : List α), (l.enumFrom i).map Prod.fst = List.range' i l.length
  | _, [] => rfl
  | i, a :: l => by
    simp only [List.enumFrom_cons, List.map_cons, enumFrom_map_fst (i + 1) l,
      List.length_cons, List.range'_succ]

theorem enum_map_snd {α : Type} (l : List α) : l.enum.map Prod.snd = l :=
  enumFrom_map_snd 0 l

theorem enum_map_fst_eq_range {α : Type} (l : List α) :
    l.enum.map Prod.fst = List.range l.length :=
  (List.range_eq_range' l.length).symm ▸ enumFrom_map_fst 0 l

/-! ## Luhn mod-36 lemmas -/

theorem luhnAdd_lt_fin : ∀ c : Fin 36, luhnAdd 1 c.1 < 36 ∧ luhnAdd 2 c.1 < 36 := by
  decide

theorem luhnAdd_inj_fin : ∀ c d : Fin 36,
    (luhnAdd 1 c.1 = luhnAdd 1 d.1 → c = d) ∧
    (luhnAdd 2 c.1 = luhnAdd 2 d.1 → c = d) := by
  decide

theorem luhnAdd_lt (f c : Nat) (hf : f = 1 ∨ f = 2) (hc : c < 36) :
    luhnAdd f c < 36 := by
  rcases hf with rfl | rfl
  · exact (luhnAdd_lt_fin ⟨c, hc⟩).1
  · exact (luhnAdd_lt_fin ⟨c, hc⟩).2

theorem luhnAdd_inj (f c d : Nat) (hf : f = 1 ∨ f = 2) (hc : c < 36)
    (hd : d < 36) (h : luhnAdd f c = luhnAdd f d) : c = d := by
  rcases hf with rfl | rfl
  · exact Fin.mk.injEq _ _ _ _ ▸ ((luhnAdd_inj_fin ⟨c, hc⟩ ⟨d, hd⟩).1 h)
  · exact Fin.mk.injEq _ _ _ _ ▸ ((luhnAdd_inj_fin ⟨c, hc⟩ ⟨d, hd⟩).2 h)

theorem luhnSumAux_mod_ne (x y : Nat) (hx : x < 36) (hy : y < 36) (hxy : x ≠ y) :
    ∀ (post : List Nat) (pre : List Nat) (f : Nat), f = 1 ∨ f = 2 →
      luhnSumAux (post ++ x :: pre) f % 36 ≠ luhnSumAux (post ++ y :: pre) f % 36 := by
  intro post
  induction post with
  | nil =>
    intro pre f hf heq
    simp only [List.nil_append, luhnSumAux] at heq
    have hcancel : luhnAdd f x % 36 = luhnAdd f y % 36 := by
      have h1 : (luhnAdd f x + luhnSumAux pre (if f == 2 then 1 else 2)) ≡
          (luhnAdd f y + luhnSumAux pre (if f == 2 then 1 else 2)) [MOD 36] := heq
      exact Nat.ModEq.add_right_cancel (Nat.ModEq.refl _) h1
    rw [Nat.mod_eq_of_lt (luhnAdd_lt f x hf hx),
      Nat.mod_eq_of_lt (luhnAdd_lt f y hf hy)] at hcancel
    exact hxy (luhnAdd_inj f x y hf hx hy hcancel)
  | cons a post ih =>
    intro pre f hf heq
    simp only [List.cons_append, luhnSumAux] at heq
    have hf2 : (if f == 2 then 1 else 2) = 1 ∨ (if f == 2 then 1 else 2) = 2 := by
      rcases hf with rfl | rfl <;> simp
    have h1 : luhnSumAux (post ++ x :: pre) (if f == 2 then 1 else 2) ≡
        luhnSumAux (post ++ y :: pre) (if f == 2 then 1 else 2) [MOD 36] :=
      Nat.ModEq.add_left_cancel (Nat.ModEq.refl (luhnAdd f a)) heq
    exact ih pre _ hf2 h1

theorem luhnSum_mod_ne (codes : List Nat) (i : Nat) (x : Nat)
    (hi : i < codes.length) (hx : x < 36)
    (hall : ∀ d ∈ codes, d < 36) (hne : x ≠ codes[i]) :
    luhnSum (codes.set i x) % 36 ≠ luhnSum codes % 36 := by
  have hdecomp : codes = codes.take i ++ codes[i] :: codes.drop (i + 1) := by
    conv =>
      lhs
      rw [← List.take_append_drop i codes]
    rw [List.getElem_cons_drop codes i hi]
  have htlen : (codes.take i).length = i := by
    rw [List.length_take]
    omega
  have hset : codes.set i x = codes.take i ++ x :: codes.drop (i + 1) := by
    conv =>
      lhs
      rw [hdecomp]
    rw [List.set_append_right _ _ (by omega : (codes.take i).length ≤ i)]
    simp only [htlen, Nat.sub_self]
    rfl
  have hci : codes[i] < 36 := hall _ (List.getElem_mem hi)
  unfold luhnSum
  rw [hset]
  conv =>
    rhs
    rw [hdecomp]
  rw [List.reverse_append, List.reverse_cons, List.append_assoc,
    List.reverse_append, List.reverse_cons, List.append_assoc]
  simp only [List.singleton_append]
  exact luhnSumAux_mod_ne x codes[i] hx hci hne
    (codes.drop (i + 1)).reverse (codes.take i).reverse 2 (Or.inr rfl)

theorem luhnChecksumIdx_lt (codes : List Nat) : luhnChecksumIdx codes < 36 :=
  Nat.mod_lt _ (by omega)

theorem luhnCheck_inj_fin : ∀ a b : Fin 36,
    (36 - a.1) % 36 = (36 - b.1) % 36 → a = b := by
  decide

theorem alphabet_getD_inj_fin : ∀ a b : Fin 36,
    alphabet.getD a.1 '0' = alphabet.getD b.1 '0' → a = b := by
  decide

theorem charIndex_getD_fin : ∀ d : Fin 36,
    charIndex (alphabet.getD d.1 '0') = d.1 := by
  decide

theorem alphabet_getD_mem_fin : ∀ d : Fin 36, alphabet.getD d.1 '0' ∈ alphabet := by
  decide

theorem charIndex_lt_of_mem {c : Char} (h : c ∈ alphabet) : charIndex c < 36 := by
  have hlen : alphabet.length = 36 := by decide
  have := List.indexOf_lt_length.mpr h
  unfold charIndex
  omega

theorem charIndex_inj {c d : Char} (hc : c ∈ alphabet) (hd : d ∈ alphabet)
    (h : charIndex c = charIndex d) : c = d :=
  (List.indexOf_inj hc hd).mp h

theorem luhnChecksumChar_ne (p q : List Char)
    (hne : luhnSum (p.map charIndex) % 36 ≠ luhnSum (q.map charIndex) % 36) :
    luhnChecksumChar p ≠ luhnChecksumChar q := by
  intro heq
  unfold luhnChecksumChar at heq
  have h1 : luhnChecksumIdx (p.map charIndex) = luhnChecksumIdx (q.map charIndex) := by
    have := alphabet_getD_inj_fin
      ⟨luhnChecksumIdx (p.map charIndex), luhnChecksumIdx_lt _⟩
      ⟨luhnChecksumIdx (q.map charIndex), luhnChecksumIdx_lt _⟩ heq
    exact Fin.mk.injEq _ _ _ _ ▸ this
  unfold luhnChecksumIdx at h1
  have h2 := luhnCheck_inj_fin
    ⟨luhnSum (p.map charIndex) % 36, Nat.mod_lt _ (by omega)⟩
    ⟨luhnSum (q.map charIndex) % 36, Nat.mod_lt _ (by omega)⟩ h1
  exact hne (Fin.mk.injEq _ _ _ _ ▸ h2)

/-! ## Base-36 encoding lemmas -/

theorem toBase36Go_append : ∀ (f v : Nat) (acc : List Char),
    toBase36Go f v acc = toBase36Go f v [] ++ acc := by
  intro f
  induction f with
  | zero => intro v acc; rfl
  | succ f ih =>
    intro v acc
    unfold toBase36Go
    by_cases hv : v = 0
    · simp [hv]
    · simp only [hv, ite_false]
      rw [ih (v / 36) (alphabet.getD (v % 36) '0' :: acc),
        ih (v / 36) [alphabet.getD (v % 36) '0']]
      simp

theorem toBase36Go_length : ∀ (f v kk : Nat), v < 36 ^ kk →
    (toBase36Go f v []).length ≤ kk := by
  intro f
  induction f with
  | zero => intro v kk _; simp [toBase36Go]
  | succ f ih =>
    intro v kk hv
    unfold toBase36Go
    by_cases h0 : v = 0
    · simp [h0]
    · simp only [h0, ite_false]
      rcases kk with _ | k
      · omega
      · rw [toBase36Go_append]
        have hdiv : v / 36 < 36 ^ k := by
          have h36 : (0 : Nat) < 36 := by omega
          rw [Nat.div_lt_iff_lt_mul h36]
          calc v < 36 ^ (k + 1) := hv
            _ = 36 ^ k * 36 := by rw [Nat.pow_succ]
        have := ih (v / 36) k hdiv
        simp only [List.length_append, List.length_cons, List.length_nil]
        omega

theorem base36Val_concat (l : List Char) (c : Char) :
    base36Val (l ++ [c]) = base36Val l * 36 + charIndex c := by
  unfold base36Val
  rw [List.foldl_append]
  rfl

theorem toBase36Go_val : ∀ (f v : Nat), v ≤ f →
    base36Val (toBase36Go f v []) = v := by
  intro f
  induction f with
  | zero => intro v hv; interval_cases v; rfl
  | succ f ih =>
    intro v hv
    unfold toBase36Go
    by_cases h0 : v = 0
    · simp [h0]; rfl
    · simp only [h0, ite_false]
      rw [toBase36Go_append, base36Val_concat]
      have hdle : v / 36 ≤ f := by
        have := Nat.div_lt_self (by omega : 0 < v) (by omega : 1 < 36)
        omega
      rw [ih (v / 36) hdle]
      have hmod : v % 36 < 36 := Nat.mod_lt _ (by omega)
      rw [charIndex_getD_fin ⟨v % 36, hmod⟩]
      show v / 36 * 36 + v % 36 = v
      omega

theorem base36Val_toBase36 (v : Nat) : base36Val (toBase36 v) = v := by
  unfold toBase36
  by_cases h0 : v = 0
  · simp [h0]; rfl
  · simp only [h0, ite_false]
    exact toBase36Go_val v v (Nat.le_refl v)

theorem toBase36_length_le (v kk : Nat) (hk : 0 < kk) (hv : v < 36 ^ kk) :
    (toBase36 v).length ≤ kk := by
  unfold toBase36
  by_cases h0 : v = 0
  · simp [h0]; omega
  · simp only [h0, ite_false]
    exact toBase36Go_length v v kk hv

theorem toBase36Go_chars : ∀ (f v : Nat), ∀ c ∈ toBase36Go f v [], c ∈ alphabet := by
  intro f
  induction f with
  | zero => intro v c hc; simp [toBase36Go] at hc
  | succ f ih =>
    intro v c hc
    unfold toBase36Go at hc
    by_cases h0 : v = 0
    · simp [h0] at hc
    · simp only [h0, ite_false] at hc
      rw [toBase36Go_append] at hc
      rcases List.mem_append.mp hc with hc | hc
      · exact ih (v / 36) c hc
      · have hmod : v % 36 < 36 := Nat.mod_lt _ (by omega)
        have hmem := alphabet_getD_mem_fin ⟨v % 36, hmod⟩
        simp only [List.mem_singleton] at hc
        exact hc ▸ hmem

theorem toBase36_chars (v : Nat) : ∀ c ∈ toBase36 v, c ∈ alphabet := by
  unfold toBase36
  by_cases h0 : v = 0
  · simp [h0]
    decide
  · simp only [h0, ite_false]
    exact toBase36Go_chars v v

theorem zfill_length (w : Nat) (s : List Char) :
    (zfill w s).length = max w s.length := by
  unfold zfill
  simp only [List.length_append, List.length_replicate]
  omega

theorem zfill_chars (w : Nat) (s : List Char) (hs : ∀ c ∈ s, c ∈ alphabet) :
    ∀ c ∈ zfill w s, c ∈ alphabet := by
  unfold zfill
  intro c hc
  rcases List.mem_append.mp hc with hc | hc
  · have := List.eq_of_mem_replicate hc
    subst this
    decide
  · exact hs c hc

theorem base36Val_replicate_zero (n : Nat) (s : List Char) :
    base36Val (List.replicate n '0' ++ s) = base36Val s := by
  induction n with
  | zero => simp
  | succ n ih =>
    rw [List.replicate_succ, List.cons_append]
    unfold base36Val at ih ⊢
    simp only [List.foldl_cons]
    have hz : (0 : Nat) * 36 + charIndex '0' = 0 := by decide
    rw [hz]
    exact ih

theorem base36Val_zfill (w : Nat) (s : List Char) :
    base36Val (zfill w s) = base36Val s :=
  base36Val_replicate_zero (w - s.length) s

theorem base36Val_foldl (s : List Char) : ∀ a : Nat,
    s.foldl (fun acc c => acc * 36 + charIndex c) a =
      a * 36 ^ s.length + base36Val s := by
  induction s with
  | nil => intro a; simp [base36Val]
  | cons c s ih =>
    intro a
    simp only [List.foldl_cons, List.length_cons]
    rw [ih (a * 36 + charIndex c)]
    have hv : base36Val (c :: s) = charIndex c * 36 ^ s.length + base36Val s := by
      show List.foldl (fun acc ch => acc * 36 + charIndex ch) 0 (c :: s) = _
      simp only [List.foldl_cons]
      rw [ih (0 * 36 + charIndex c)]
      simp only [Nat.zero_mul, Nat.zero_add]
    rw [hv, Nat.pow_succ]
    ring

theorem base36Val_cons (c : Char) (s : List Char) :
    base36Val (c :: s) = charIndex c * 36 ^ s.length + base36Val s := by
  unfold base36Val
  simp only [List.foldl_cons]
  rw [base36Val_foldl s (0 * 36 + charIndex c)]
  simp [base36Val]

theorem base36Val_lt (s : List Char) (hs : ∀ c ∈ s, charIndex c < 36) :
    base36Val s < 36 ^ s.length := by
  induction s with
  | nil => simp [base36Val]
  | cons c s ih =>
    rw [base36Val_cons, List.length_cons, Nat.pow_succ]
    have hc : charIndex c < 36 := hs c (List.mem_cons_self c s)
    have hrest : base36Val s < 36 ^ s.length :=
      ih (fun d hd => hs d (List.mem_cons_of_mem c hd))
    calc charIndex c * 36 ^ s.length + base36Val s
        < charIndex c * 36 ^ s.length + 36 ^ s.length := by omega
      _ = (charIndex c + 1) * 36 ^ s.length := by ring
      _ ≤ 36 * 36 ^ s.length := Nat.mul_le_mul_right _ (by omega)
      _ = 36 ^ s.length * 36 := by ring

theorem digit_block_lt (a b x y P : Nat) (hx : x < P) (hy : y < P) :
    a * P + x < b * P + y ↔ (a < b ∨ (a = b ∧ x < y)) := by
  constructor
  · intro h
    rcases Nat.lt_trichotomy a b with h1 | h1 | h1
    · exact Or.inl h1
    · subst h1
      exact Or.inr ⟨rfl, by omega⟩
    · exfalso
      have h2 : (b + 1) * P ≤ a * P := Nat.mul_le_mul_right P h1
      rw [Nat.succ_mul] at h2
      omega
  · intro h
    rcases h with h | ⟨rfl, h⟩
    · have h2 : (a + 1) * P ≤ b * P := Nat.mul_le_mul_right P h
      rw [Nat.succ_mul] at h2
      omega
    · omega

theorem charIndex_mono_iff : ∀ c ∈ alphabet, ∀ d ∈ alphabet,
    (c < d ↔ charIndex c < charIndex d) := by
  decide

theorem lex_cons_char_iff (c d : Char) (s t : List Char) :
    List.Lex (· < ·) (c :: s) (d :: t) ↔ (c < d ∨ (c = d ∧ List.Lex (· < ·) s t)) := by
  constructor
  · intro h
    cases h with
    | cons h => exact Or.inr ⟨rfl, h⟩
    | rel h => exact Or.inl h
  · intro h
    rcases h with h | ⟨rfl, h⟩
    · exact List.Lex.rel h
    · exact List.Lex.cons h

theorem base36_lex_iff : ∀ (s t : List Char), s.length = t.length →
    (∀ c ∈ s, c ∈ alphabet) → (∀ c ∈ t, c ∈ alphabet) →
    (List.Lex (· < ·) s t ↔ base36Val s < base36Val t) := by
  intro s
  induction s with
  | nil =>
    intro t hlen _ _
    have ht : t = [] := List.length_eq_zero.mp hlen.symm
    subst ht
    constructor
    · intro h; cases h
    · intro h; simp [base36Val] at h
  | cons c s ih =>
    intro t hlen hcs hct
    rcases t with _ | ⟨d, t⟩
    · simp at hlen
    · have hlen2 : s.length = t.length := by
        simp only [List.length_cons] at hlen
        omega
      rw [lex_cons_char_iff, base36Val_cons, base36Val_cons, hlen2]
      have hxb : base36Val s < 36 ^ t.length := by
        rw [← hlen2]
        exact base36Val_lt s (fun e he =>
          charIndex_lt_of_mem (hcs e (List.mem_cons_of_mem c he)))
      have hyb : base36Val t < 36 ^ t.length :=
        base36Val_lt t (fun e he =>
          charIndex_lt_of_mem (hct e (List.mem_cons_of_mem d he)))
      rw [digit_block_lt _ _ _ _ _ hxb hyb]
      have hcm : c ∈ alphabet := hcs c (List.mem_cons_self c s)
      have hdm : d ∈ alphabet := hct d (List.mem_cons_self d t)
      apply or_congr
      · exact charIndex_mono_iff c hcm d hdm
      · apply and_congr
        · exact ⟨fun h => h ▸ rfl, fun h => charIndex_inj hcm hdm h⟩
        · exact ih t hlen2
            (fun e he => hcs e (List.mem_cons_of_mem c he))
            (fun e he => hct e (List.mem_cons_of_mem d he))

/-! ## C8: the concrete Fall incident number -/

/-- C8: for the 3rd Fall incident of the home with creation-order sequence 1,
the type code is `F`, the home code `01`, the sequence `0003`, the checksum
payload exactly `FIR010003`, and the appended check character is the Luhn
mod-36 checksum of that payload — deterministically, with the check character
evaluating to `X`. -/
theorem C8_concrete_fall_incident_number :
    generateIncidentNumber 1 "Fall" 3 =
      "FIR010003".toList ++ [luhnChecksumChar "FIR010003".toList] ∧
    generateIncidentNumber 1 "Fall" 3 = "FIR010003X".toList ∧
    incidentTypeCodeOf "Fall" = 'F' ∧
    zfill 2 (toBase36 1) = "01".toList ∧
    zfill 4 (toBase36 3) = "0003".toList := by
  refine ⟨by decide, by decide, by decide, by decide, by decide⟩

/-! ## C10: incident photo attachments -/

/-- C10: every generated incident photo list has between 1 and 3 photos
(never zero), display orders exactly `0 .. k-1` in list order, pairwise
distinct source file names, and all file names drawn from the fixed 7-image
pool (with the internal `_sourceFile` equal to the stored file name). -/
theorem C10_photo_attachments (g u : Rand) (k uk : Nat)
    (incidentId homeId uploaderId : Id) (occurredAt : Int) :
    1 ≤ (generatePhotos g u k uk incidentId homeId uploaderId occurredAt).length ∧
    (generatePhotos g u k uk incidentId homeId uploaderId occurredAt).length ≤ 3 ∧
    (generatePhotos g u k uk incidentId homeId uploaderId occurredAt).map
        (fun p => p.displayOrder) =
      List.range (generatePhotos g u k uk incidentId homeId uploaderId occurredAt).length ∧
    ((generatePhotos g u k uk incidentId homeId uploaderId occurredAt).map
        (fun p => p.fileName)).Nodup ∧
    ∀ p ∈ generatePhotos g u k uk incidentId homeId uploaderId occurredAt,
      p.fileName ∈ INCIDENT_IMAGES ∧ p.sourceFile = p.fileName := by
  have hnum := randNat_bounds g k 1 3 (by omega)
  have hlen : (randSample g INCIDENT_IMAGES
      (min (randNat g k 1 3) INCIDENT_IMAGES.length) (k + 1)).length =
      min (randNat g k 1 3) INCIDENT_IMAGES.length := by
    rw [randSample_length]
    have : INCIDENT_IMAGES.length = 7 := by decide
    omega
  have hlen7 : INCIDENT_IMAGES.length = 7 := by decide
  unfold generatePhotos
  refine ⟨?_, ?_, ?_, ?_, ?_⟩
  · rw [List.length_map, List.enum_length, hlen]; omega
  · rw [List.length_map, List.enum_length, hlen]; omega
  · rw [List.map_map, List.length_map, List.enum_length]
    exact enum_map_fst_eq_range _
  · rw [List.map_map]
    show ((randSample g INCIDENT_IMAGES
        (min (randNat g k 1 3) INCIDENT_IMAGES.length) (k + 1)).enum.map
          Prod.snd).Nodup
    rw [enum_map_snd]
    exact randSample_nodup g _ _ _ (by decide)
  · intro p hp
    rw [List.mem_map] at hp
    obtain ⟨q, hq, rfl⟩ := hp
    have hq2 : q.2 ∈ randSample g INCIDENT_IMAGES
        (min (randNat g k 1 3) INCIDENT_IMAGES.length) (k + 1) := by
      have hmm := List.mem_map_of_mem Prod.snd hq
      rw [enum_map_snd] at hmm
      exact hmm
    exact ⟨randSample_subset g _ _ _ _ hq2, rfl⟩

/-! ## C3: Luhn mod-36 checksum correctness and mutation detection -/

/-- C3: recomputing the Luhn mod-36 checksum over all but the last character
of a generated incident number reproduces the last character (for in-range
home sequence and count the number is exactly 10 characters, so this is the
checksum of the first 9 reproducing the 10th); and any single-character
mutation of a checksum-valid alphabet string makes verification fail. -/
theorem C3_luhn_checksum_correct :
    (∀ (homeSeq cnt : Nat) (incidentType : String),
      luhnVerify (generateIncidentNumber homeSeq incidentType cnt) = true ∧
      (generateIncidentNumber homeSeq incidentType cnt).dropLast ++
        [luhnChecksumChar ((generateIncidentNumber homeSeq incidentType cnt).dropLast)] =
        generateIncidentNumber homeSeq incidentType cnt ∧
      (homeSeq < 36 ^ 2 → cnt < 36 ^ 4 →
        (generateIncidentNumber homeSeq incidentType cnt).length = 10)) ∧
    (∀ (num : List Char) (i : Fin num.length) (c : Char),
      luhnVerify num = true → (∀ ch ∈ num, ch ∈ alphabet) → c ∈ alphabet →
      c ≠ num.get i → luhnVerify (num.set i.1 c) = false) := by
  constructor
  · intro homeSeq cnt incidentType
    refine ⟨?_, ?_, ?_⟩
    · simp only [generateIncidentNumber]
      unfold luhnVerify
      rw [List.dropLast_concat, List.getLastD_concat]
      simp
    · simp only [generateIncidentNumber]
      rw [List.dropLast_concat]
    · intro hseq hcnt
      simp only [generateIncidentNumber]
      have h1 : (toBase36 homeSeq).length ≤ 2 :=
        toBase36_length_le homeSeq 2 (by omega) hseq
      have h2 : (toBase36 cnt).length ≤ 4 :=
        toBase36_length_le cnt 4 (by omega) hcnt
      simp only [List.length_append, List.length_cons, zfill_length,
        List.length_nil]
      omega
  · intro num i c hvalid hall hcmem hcne
    rcases List.eq_nil_or_concat num with hnil | ⟨p, x, hpx⟩
    · have h0 : num.length = 0 := by rw [hnil]; rfl
      exact absurd i.2 (by omega)
    · rw [List.concat_eq_append] at hpx
      subst hpx
      obtain ⟨j, hj⟩ := i
      have hvx : luhnChecksumChar p = x := by
        unfold luhnVerify at hvalid
        rw [List.dropLast_concat, List.getLastD_concat] at hvalid
        simpa using hvalid
      have hjlen : j < p.length + 1 := by simpa using hj
      have hpmem : ∀ ch ∈ p, ch ∈ alphabet :=
        fun ch hch => hall ch (List.mem_append_left _ hch)
      by_cases hi : j < p.length
      · -- mutation inside the checksum payload
        have hset : (p ++ [x]).set j c = p.set j c ++ [x] :=
          List.set_append_left _ _ hi
        have hgeti : (p ++ [x]).get ⟨j, hj⟩ = p[j] :=
          List.getElem_append_left hi
        have hjm : j < (p.map charIndex).length := by simpa using hi
        have hchne : luhnChecksumChar (p.set j c) ≠ luhnChecksumChar p := by
          apply luhnChecksumChar_ne
          rw [List.map_set]
          have hxlt : charIndex c < 36 := charIndex_lt_of_mem hcmem
          have halld : ∀ d ∈ p.map charIndex, d < 36 := by
            intro d hd
            rcases List.mem_map.mp hd with ⟨e, he, rfl⟩
            exact charIndex_lt_of_mem (hpmem e he)
          have hnex : charIndex c ≠ (p.map charIndex)[j] := by
            rw [List.getElem_map]
            intro hceq
            apply hcne
            rw [hgeti]
            exact charIndex_inj hcmem (hpmem _ (List.getElem_mem hi)) hceq
          exact luhnSum_mod_ne _ j _ hjm hxlt halld hnex
        rw [hset]
        unfold luhnVerify
        rw [List.dropLast_concat, List.getLastD_concat]
        rw [← hvx]
        simp [hchne]
      · -- mutation of the check character itself
        have hieq : j = p.length := by omega
        subst hieq
        have hset : (p ++ [x]).set p.length c = p ++ [c] := by
          rw [List.set_append_right _ _ (Nat.le_refl _)]
          simp
        have hgeti : (p ++ [x]).get ⟨p.length, hj⟩ = x := by
          have h0 : (p ++ [x]).get ⟨p.length, hj⟩ = (p ++ [x])[p.length] := rfl
          rw [h0, List.getElem_append_right (Nat.le_refl _)]
          simp
        rw [hset]
        unfold luhnVerify
        rw [List.dropLast_concat, List.getLastD_concat]
        have hne2 : luhnChecksumChar p ≠ c := by
          rw [hvx]
          intro hxc
          exact hcne (by rw [hgeti, hxc])
        simp [hne2]

/-- Witness for C3 at a concrete input: the generated number
`FIR010003X` verifies, and mutating its first character to `M` fails
verification. -/
theorem C3_luhn_checksum_correct_witness :
    luhnVerify (generateIncidentNumber 1 "Fall" 3) = true ∧
    luhnVerify (("FIR010003X".toList).set 0 'M') = false := by
  constructor
  · exact (C3_luhn_checksum_correct.1 1 3 "Fall").1
  · exact C3_luhn_checksum_correct.2 "FIR010003X".toList ⟨0, by decide⟩ 'M'
      (by decide) (by decide) (by decide) (by decide)

/-! ## C1: the bed allocator can double-book a bed (code bug) -/

/-- C1 (evaluation of the code at the failing input): one home with one bed,
two initial residents whose admission dates are drawn out of order (offset 25
days for the first, 3 days for the second).  `find_available_bed` only
checks that no existing interval covers the queried date, so at day 3 it
hands out the bed whose open-ended interval starts at day 25; the resulting
ledger holds two open intervals for the same bed, for two distinct clients,
with overlapping `[start, end)` ranges — violating the pairwise
non-overlap/single-open-interval invariant the claim states. -/
theorem C1_double_open_interval_at_failing_input :
    (findAvailableBed (730 * dayLen)
        [(101, [⟨14 * dayLen + 25 * dayLen, none, 500⟩])]
        (14 * dayLen + 3 * dayLen) = some 101) ∧
    (let s2 := admitInitialClients (730 * dayLen)
        (fun k => if k == 3 then 3 else if k == 0 then 25 else 0)
        (fun j => 500 + j) 9 [7] (14 * dayLen) 2 ⟨[], [(101, [])], 0, 0⟩
     s2.bedOccupancy = [(101,
        [⟨14 * dayLen + 25 * dayLen, none, 500⟩,
         ⟨14 * dayLen + 3 * dayLen, none, 501⟩])] ∧
     s2.clients.length = 2 ∧
     ∃ bed ∈ s2.bedOccupancy, openIntervalCount bed.2 = 2 ∧
       ∃ a ∈ bed.2, ∃ b ∈ bed.2, a.clientId ≠ b.clientId ∧
         intervalsOverlap (730 * dayLen) a b = true) := by
  decide

/-! ## C2: timestamp horizon bounds -/

theorem generatePhotos_createdAt (g u : Rand) (k uk : Nat)
    (incidentId homeId uploaderId : Id) (occurredAt : Int) :
    ∀ p ∈ generatePhotos g u k uk incidentId homeId uploaderId occurredAt,
      p.createdAt = occurredAt := by
  intro p hp
  simp only [generatePhotos] at hp
  rcases List.mem_map.mp hp with ⟨q, _, rfl⟩
  rfl

theorem incidentGenerate_timestamps (st : IncidentGenState) (g u : Rand)
    (k uk : Nat) (homeId : Id) (clientId : Option Id) (reporterId : Id)
    (occurredAt : Int) (homeSeq : Option Nat) (adminIds : List Id) :
    (incidentGenerate st g u k uk homeId clientId reporterId occurredAt homeSeq
        adminIds).1.occurredAt = occurredAt ∧
    (incidentGenerate st g u k uk homeId clientId reporterId occurredAt homeSeq
        adminIds).1.createdAt = occurredAt ∧
    (∀ t, (incidentGenerate st g u k uk homeId clientId reporterId occurredAt homeSeq
        adminIds).1.updatedAt = some t →
      occurredAt < t ∧ t ≤ occurredAt + 7 * dayLen) ∧
    (∀ t, (incidentGenerate st g u k uk homeId clientId reporterId occurredAt homeSeq
        adminIds).1.closedAt = some t →
      occurredAt < t ∧ t ≤ occurredAt + 7 * dayLen) ∧
    (∀ p ∈ (incidentGenerate st g u k uk homeId clientId reporterId occurredAt homeSeq
        adminIds).1.photos, p.createdAt = occurredAt) := by
  have hupd := randInt_bounds g (k + 4) 1 24 (by omega)
  have hclose := randInt_bounds g (k + 5) 1 7 (by omega)
  have hph := generatePhotos_createdAt g u (k + 7) (uk + 1) (u uk) homeId
    reporterId occurredAt
  have hub : ∀ t : Int, t = occurredAt + randInt g (k + 4) 1 24 * hourLen →
      occurredAt < t ∧ t ≤ occurredAt + 7 * dayLen := by
    intro t ht
    obtain ⟨h, hh1, hh2, hhdef⟩ : ∃ h : Int, 1 ≤ h ∧ h ≤ 24 ∧
        randInt g (k + 4) 1 24 = h := ⟨_, hupd.1, hupd.2, rfl⟩
    rw [hhdef] at ht
    subst ht
    simp only [hourLen, dayLen]
    omega
  have hcb : ∀ t : Int, t = occurredAt + randInt g (k + 5) 1 7 * dayLen →
      occurredAt < t ∧ t ≤ occurredAt + 7 * dayLen := by
    intro t ht
    obtain ⟨d, hd1, hd2, hddef⟩ : ∃ d : Int, 1 ≤ d ∧ d ≤ 7 ∧
        randInt g (k + 5) 1 7 = d := ⟨_, hclose.1, hclose.2, rfl⟩
    rw [hddef] at ht
    subst ht
    simp only [dayLen]
    omega
  simp only [incidentGenerate]
  generalize weightedChoice INCIDENT_STATUS_WEIGHTS "Closed" g (k + 3) = status0
  by_cases hC : status0 = "Closed"
  · subst hC
    by_cases hA : adminIds = []
    · subst hA
      refine ⟨by simp, by simp, ?_, ?_, ?_⟩
      · intro t ht
        simp at ht
        exact hcb t ht.symm
      · intro t ht
        simp at ht
        exact hcb t ht.symm
      · intro p hp
        exact hph p hp
    · simp only [hA]
      refine ⟨by simp, by simp, ?_, ?_, ?_⟩
      · intro t ht
        simp [hA] at ht
        exact hcb t ht.symm
      · intro t ht
        simp [hA] at ht
        exact hcb t ht.symm
      · intro p hp
        exact hph p hp
  · by_cases hD : status0 = "Draft"
    · subst hD
      refine ⟨by simp, by simp, ?_, ?_, ?_⟩
      · intro t ht
        simp at ht
      · intro t ht
        simp at ht
      · intro p hp
        exact hph p hp
    · refine ⟨by simp [hC, hD], by simp [hC, hD], ?_, ?_, ?_⟩
      · intro t ht
        simp [hC, hD] at ht
        exact hub t ht.symm
      · intro t ht
        simp [hC, hD] at ht
      · intro p hp
        exact hph p hp

theorem incidentGenerate_stream_bounds (now : Int) (st : IncidentGenState)
    (g u : Rand) (k uk : Nat) (homeId : Id) (cid : Option Id) (rep : Id)
    (current : Int) (homeSeq : Option Nat) (adminIds : List Id)
    (hlt : current < endDate now) :
    current ≤ (incidentGenerate st g u k uk homeId cid rep current homeSeq
        adminIds).1.occurredAt ∧
    (incidentGenerate st g u k uk homeId cid rep current homeSeq
        adminIds).1.occurredAt < endDate now ∧
    (incidentGenerate st g u k uk homeId cid rep current homeSeq
        adminIds).1.createdAt =
      (incidentGenerate st g u k uk homeId cid rep current homeSeq
        adminIds).1.occurredAt ∧
    (∀ t, (incidentGenerate st g u k uk homeId cid rep current homeSeq
        adminIds).1.updatedAt = some t →
      (incidentGenerate st g u k uk homeId cid rep current homeSeq
        adminIds).1.occurredAt < t ∧
      t ≤ (incidentGenerate st g u k uk homeId cid rep current homeSeq
        adminIds).1.occurredAt + 7 * dayLen) ∧
    (∀ t, (incidentGenerate st g u k uk homeId cid rep current homeSeq
        adminIds).1.closedAt = some t →
      (incidentGenerate st g u k uk homeId cid rep current homeSeq
        adminIds).1.occurredAt < t ∧
      t ≤ (incidentGenerate st g u k uk homeId cid rep current homeSeq
        adminIds).1.occurredAt + 7 * dayLen) ∧
    (∀ p ∈ (incidentGenerate st g u k uk homeId cid rep current homeSeq
        adminIds).1.photos,
      p.createdAt = (incidentGenerate st g u k uk homeId cid rep current homeSeq
        adminIds).1.occurredAt) := by
  have hts := incidentGenerate_timestamps st g u k uk homeId cid rep current
    homeSeq adminIds
  rw [hts.1, hts.2.1]
  exact ⟨le_refl _, hlt, rfl, hts.2.2.1, hts.2.2.2.1, hts.2.2.2.2⟩

theorem phase6Home_timestamps (now : Int) (g u : Rand) (homeId : Id)
    (caregivers : List Id) (clients : List Client) (homeSequence : Nat)
    (adminUserIds : List Id) :
    ∀ (fuel : Nat) (current : Int) (st : IncidentGenState) (k uk : Nat),
      ∀ inc ∈ (phase6Home now g u homeId caregivers clients homeSequence
          adminUserIds fuel current st k uk).1,
        current ≤ inc.occurredAt ∧ inc.occurredAt < endDate now ∧
        inc.createdAt = inc.occurredAt ∧
        (∀ t, inc.updatedAt = some t →
          inc.occurredAt < t ∧ t ≤ inc.occurredAt + 7 * dayLen) ∧
        (∀ t, inc.closedAt = some t →
          inc.occurredAt < t ∧ t ≤ inc.occurredAt + 7 * dayLen) ∧
        (∀ p ∈ inc.photos, p.createdAt = inc.occurredAt) := by
  intro fuel
  induction fuel with
  | zero => intro current st k uk inc hinc; simp [phase6Home] at hinc
  | succ fuel ih =>
    intro current st k uk inc hinc
    simp only [phase6Home] at hinc
    split at hinc
    · rename_i hlt
      split at hinc
      · rcases List.mem_cons.mp hinc with rfl | hinc
        · exact incidentGenerate_stream_bounds now st g u (k + 4) uk homeId _ _
            current (some homeSequence) adminUserIds hlt
        · have hmono : ∀ pos : Nat, current ≤ current + randInt g pos 10 30 * dayLen := by
            intro pos
            have h := randInt_bounds g pos 10 30 (by omega)
            exact le_add_of_nonneg_right
              (mul_nonneg (by omega) (by norm_num [dayLen]))
          have hrec := ih _ _ _ _ inc hinc
          exact ⟨le_trans (hmono _) hrec.1, hrec.2⟩
      · have hmono : ∀ pos : Nat, current ≤ current + randInt g pos 10 30 * dayLen := by
          intro pos
          have h := randInt_bounds g pos 10 30 (by omega)
          exact le_add_of_nonneg_right
            (mul_nonneg (by omega) (by norm_num [dayLen]))
        have hrec := ih _ _ _ _ inc hinc
        exact ⟨le_trans (hmono _) hrec.1, hrec.2⟩
    · simp at hinc

theorem appointmentGenerate_upcoming_fields (g u : Rand) (k uk : Nat)
    (clientId homeId createdById : Id) (scheduledAt : Int) :
    (appointmentGenerate g u k uk clientId homeId createdById scheduledAt
        false).1.scheduledAt = scheduledAt ∧
    (appointmentGenerate g u k uk clientId homeId createdById scheduledAt
        false).1.status = "Scheduled" ∧
    (appointmentGenerate g u k uk clientId homeId createdById scheduledAt
        false).1.completedAt = none ∧
    (appointmentGenerate g u k uk clientId homeId createdById scheduledAt
        false).1.createdAt = scheduledAt - randInt g (k + 8) 3 21 * dayLen :=
  ⟨rfl, rfl, rfl, rfl⟩

theorem upcomingForClient_spec (now : Int) (g u : Rand)
    (caregivers : List Id) (c : Client) :
    ∀ (n k uk : Nat),
      ∀ a ∈ (upcomingForClient now g u caregivers c n k uk).1,
        endDate now < a.scheduledAt ∧ a.scheduledAt < endDate now + 31 * dayLen ∧
        a.status = "Scheduled" ∧ a.completedAt = none ∧
        a.scheduledAt - 21 * dayLen ≤ a.createdAt ∧
        a.createdAt ≤ a.scheduledAt - 3 * dayLen := by
  intro n
  induction n with
  | zero => intro k uk a ha; simp [upcomingForClient] at ha
  | succ n ih =>
    intro k uk a ha
    simp only [upcomingForClient] at ha
    rcases List.mem_cons.mp ha with rfl | ha
    · have hd := randInt_bounds g (k + 1) 1 30 (by omega)
      have hh := randInt_bounds g (k + 2) 8 17 (by omega)
      have hcr := randInt_bounds g (k + 4 + 8) 3 21 (by omega)
      have hmm := choiceD_mem ([0, 15, 30, 45] : List Nat) 0 g (k + 3) (by decide)
      obtain ⟨cg, hcgeq⟩ : ∃ x : Id, choiceD caregivers 0 g k = x := ⟨_, rfl⟩
      obtain ⟨d, hdeq⟩ : ∃ x : Int, randInt g (k + 1) 1 30 = x := ⟨_, rfl⟩
      obtain ⟨hr, hreq⟩ : ∃ x : Int, randInt g (k + 2) 8 17 = x := ⟨_, rfl⟩
      obtain ⟨cr, hcreq⟩ : ∃ x : Int, randInt g (k + 4 + 8) 3 21 = x := ⟨_, rfl⟩
      obtain ⟨m, hmeq⟩ : ∃ x : Nat,
          choiceD ([0, 15, 30, 45] : List Nat) 0 g (k + 3) = x := ⟨_, rfl⟩
      rw [hdeq] at hd
      rw [hreq] at hh
      rw [hcreq] at hcr
      rw [hmeq] at hmm
      rw [hcgeq, hdeq, hreq, hmeq]
      have hm : (m : Int) ≤ 45 := by
        simp only [List.mem_cons, List.not_mem_nil, or_false] at hmm
        rcases hmm with h | h | h | h <;> subst h <;> omega
      have hfields := appointmentGenerate_upcoming_fields g u (k + 4) uk c.id
        c.homeId cg (dateFloor (now + d * dayLen) + hr * hourLen + (m : Int))
      refine ⟨?_, ?_, hfields.2.1, hfields.2.2.1, ?_, ?_⟩
      · rw [hfields.1]
        simp only [endDate, dateFloor, dayLen, hourLen]
        omega
      · rw [hfields.1]
        simp only [endDate, dateFloor, dayLen, hourLen]
        omega
      · rw [hfields.1, hfields.2.2.2, hcreq]
        simp only [dateFloor, dayLen, hourLen]
        omega
      · rw [hfields.1, hfields.2.2.2, hcreq]
        simp only [dateFloor, dayLen, hourLen]
        omega
    · exact ih _ _ a ha

theorem upcomingAppointments_spec (now : Int) (g u : Rand)
    (caregivers : List Id) :
    ∀ (clients : List Client) (k uk : Nat),
      ∀ a ∈ (upcomingAppointments now g u caregivers clients k uk).1,
        endDate now < a.scheduledAt ∧ a.scheduledAt < endDate now + 31 * dayLen ∧
        a.status = "Scheduled" ∧ a.completedAt = none ∧
        a.scheduledAt - 21 * dayLen ≤ a.createdAt ∧
        a.createdAt ≤ a.scheduledAt - 3 * dayLen := by
  intro clients
  induction clients with
  | nil => intro k uk a ha; simp [upcomingAppointments] at ha
  | cons c rest ih =>
    intro k uk a ha
    simp only [upcomingAppointments] at ha
    split at ha
    · rcases List.mem_append.mp ha with ha | ha
      · exact upcomingForClient_spec now g u caregivers c _ _ _ a ha
      · exact ih _ _ a ha
    · exact ih _ _ a ha

/-! ## C5: activity participants and the week-anchor active list -/

theorem activeClientIds_spec (clients : List Client) (current : Int) :
    ∀ pid ∈ activeClientIds clients current, ∃ c ∈ clients,
      c.id = pid ∧ c.admissionDate ≤ current ∧
      (c.dischargeDate = none ∨ ∃ d, c.dischargeDate = some d ∧ current < d) := by
  intro pid hpid
  unfold activeClientIds at hpid
  rcases List.mem_map.mp hpid with ⟨c, hc, rfl⟩
  have hf := List.mem_filter.mp hc
  refine ⟨c, hf.1, rfl, ?_, ?_⟩
  · have h2 := hf.2
    unfold isActiveOn at h2
    rw [Bool.and_eq_true] at h2
    exact of_decide_eq_true h2.1
  · have h2 := hf.2
    unfold isActiveOn at h2
    rw [Bool.and_eq_true] at h2
    rcases hd : c.dischargeDate with _ | d
    · exact Or.inl rfl
    · right
      refine ⟨d, rfl, ?_⟩
      have h3 := h2.2
      rw [hd] at h3
      exact of_decide_eq_true h3

theorem activityGenerate_spec (g u : Rand) (k uk : Nat) (homeId : Id)
    (caregiverId : Id) (activityDate : Int) (clientIds : List Id)
    (hne : clientIds ≠ []) :
    (activityGenerate g u k uk homeId caregiverId activityDate clientIds).1.createdAt =
      activityDate ∧
    (activityGenerate g u k uk homeId caregiverId activityDate clientIds).1.date =
      dateFloor activityDate ∧
    ∀ p ∈ (activityGenerate g u k uk homeId caregiverId activityDate
        clientIds).1.participants, p.clientId ∈ clientIds := by
  refine ⟨rfl, rfl, ?_⟩
  intro p hp
  simp only [activityGenerate] at hp
  rcases List.mem_map.mp hp with ⟨q, hq, rfl⟩
  have hq2 := List.mem_map_of_mem Prod.snd hq
  rw [enum_map_snd] at hq2
  split at hq2
  · exact randSample_subset g _ _ _ _ hq2
  · rw [List.mem_singleton] at hq2
    exact hq2 ▸ choiceD_mem clientIds 0 g (k + 1) hne

theorem phase5Activities_spec (now : Int) (g u : Rand) (homeId : Id)
    (caregivers : List Id) (active : List Id) (current : Int)
    (hne : active ≠ []) :
    ∀ (j k uk : Nat),
      ∀ a ∈ (phase5Activities now g u homeId caregivers active current j k uk).1,
        current ≤ a.createdAt ∧ a.createdAt ≤ current + 6 * dayLen ∧
        a.createdAt < endDate now ∧ a.date = dateFloor a.createdAt ∧
        ∀ p ∈ a.participants, p.clientId ∈ active := by
  intro j
  induction j with
  | zero => intro k uk a ha; simp [phase5Activities] at ha
  | succ j ih =>
    intro k uk a ha
    simp only [phase5Activities] at ha
    split at ha
    · rename_i hlt
      rcases List.mem_cons.mp ha with rfl | ha
      · have hoff := randInt_bounds g k 0 6 (by omega)
        have hspec := activityGenerate_spec g u (k + 2) uk homeId
          (choiceD caregivers 0 g (k + 1)) (current + randInt g k 0 6 * dayLen)
          active hne
        refine ⟨?_, ?_, ?_, hspec.2.1, hspec.2.2⟩
        · rw [hspec.1]
          exact le_add_of_nonneg_right
            (mul_nonneg hoff.1 (by norm_num [dayLen]))
        · rw [hspec.1]
          exact add_le_add_left
            (mul_le_mul_of_nonneg_right hoff.2 (by norm_num [dayLen])) current
        · rw [hspec.1]
          exact hlt
      · exact ih _ _ a ha
    · exact ih _ _ a ha

/-- C5 amended: every participant of an activity generated in a Phase 5 week
is a listed client who is active at the week anchor from which the activity
was scheduled (admission on or before the anchor, discharge — if any —
strictly after the anchor); the activity itself is dated 0-6 days after the
anchor and inside the horizon.  (The participant need not still be resident
on the activity's own date: see the counterexample.) -/
theorem C5_amended_participants_active_at_week_anchor (now : Int)
    (g u : Rand) (homeId : Id) (caregivers : List Id) (clients : List Client)
    (current : Int) (k uk : Nat) :
    ∀ a ∈ (phase5Week now g u homeId caregivers clients current k uk).1,
      (current ≤ a.createdAt ∧ a.createdAt ≤ current + 6 * dayLen ∧
        a.createdAt < endDate now ∧ a.date = dateFloor a.createdAt) ∧
      ∀ p ∈ a.participants, ∃ c ∈ clients,
        c.id = p.clientId ∧ c.admissionDate ≤ current ∧
        (c.dischargeDate = none ∨ ∃ d, c.dischargeDate = some d ∧ current < d) := by
  intro a ha
  simp only [phase5Week] at ha
  split at ha
  · simp at ha
  · rename_i hactive
    have hne : activeClientIds clients current ≠ [] := by
      intro h
      rw [h] at hactive
      simp at hactive
    have hspec := phase5Activities_spec now g u homeId caregivers
      (activeClientIds clients current) current hne _ _ _ a ha
    refine ⟨⟨hspec.1, hspec.2.1, hspec.2.2.1, hspec.2.2.2.1⟩, ?_⟩
    intro p hp
    exact activeClientIds_spec clients current p.clientId
      (hspec.2.2.2.2 p hp)

/-- Witness for the amended C5 at a concrete input (the head activity of a
concrete week). -/
theorem C5_amended_participants_active_at_week_anchor_witness :
    100 * dayLen ≤ ((phase5Week (730 * dayLen)
        (fun k => if k == 1 then 5 else if k == 3 then 4 else 0) (fun j => j)
        9 [7] [⟨5, 9, 101, 0, some (102 * dayLen), none, false, 0, 7, [], []⟩]
        (100 * dayLen) 0 0).1.headI).createdAt ∧
    ((phase5Week (730 * dayLen)
        (fun k => if k == 1 then 5 else if k == 3 then 4 else 0) (fun j => j)
        9 [7] [⟨5, 9, 101, 0, some (102 * dayLen), none, false, 0, 7, [], []⟩]
        (100 * dayLen) 0 0).1.headI).createdAt ≤ 100 * dayLen + 6 * dayLen ∧
    ((phase5Week (730 * dayLen)
        (fun k => if k == 1 then 5 else if k == 3 then 4 else 0) (fun j => j)
        9 [7] [⟨5, 9, 101, 0, some (102 * dayLen), none, false, 0, 7, [], []⟩]
        (100 * dayLen) 0 0).1.headI).createdAt < endDate (730 * dayLen) ∧
    ((phase5Week (730 * dayLen)
        (fun k => if k == 1 then 5 else if k == 3 then 4 else 0) (fun j => j)
        9 [7] [⟨5, 9, 101, 0, some (102 * dayLen), none, false, 0, 7, [], []⟩]
        (100 * dayLen) 0 0).1.headI).date =
      dateFloor (((phase5Week (730 * dayLen)
        (fun k => if k == 1 then 5 else if k == 3 then 4 else 0) (fun j => j)
        9 [7] [⟨5, 9, 101, 0, some (102 * dayLen), none, false, 0, 7, [], []⟩]
        (100 * dayLen) 0 0).1.headI).createdAt) :=
  (C5_amended_participants_active_at_week_anchor (730 * dayLen)
    (fun k => if k == 1 then 5 else if k == 3 then 4 else 0) (fun j => j)
    9 [7] [⟨5, 9, 101, 0, some (102 * dayLen), none, false, 0, 7, [], []⟩]
    (100 * dayLen) 0 0
    ((phase5Week (730 * dayLen)
        (fun k => if k == 1 then 5 else if k == 3 then 4 else 0) (fun j => j)
        9 [7] [⟨5, 9, 101, 0, some (102 * dayLen), none, false, 0, 7, [], []⟩]
        (100 * dayLen) 0 0).1.headI) (by decide)).1

/-- C5 counterexample: with a resident admitted at day 0 and discharged at
day 102, a week anchored at day 100 schedules an activity on day 105 with
that resident as participant — the participant is not an active resident on
the activity's date (the date is not strictly before the discharge date), so
the claim as stated fails on the code. -/
theorem C5_counterexample :
    ∃ a ∈ (phase5Week (730 * dayLen)
        (fun k => if k == 1 then 5 else if k == 3 then 4 else 0) (fun j => j)
        9 [7] [⟨5, 9, 101, 0, some (102 * dayLen), none, false, 0, 7, [], []⟩]
        (100 * dayLen) 0 0).1,
      ∃ p ∈ a.participants,
        ∃ c ∈ [(⟨5, 9, 101, 0, some (102 * dayLen), none, false, 0, 7, [], []⟩ : Client)],
          c.id = p.clientId ∧
          ¬(a.date < c.dischargeDate.getD (endDate (730 * dayLen))) := by
  decide

/-! ## C9: per-home incident counter and sequence monotonicity -/

theorem lookup_setAssoc_self {β : Type} :
    ∀ (m : List (Id × β)) (h : Id) (v : β), (setAssoc m h v).lookup h = some v := by
  intro m
  induction m with
  | nil => intro h v; simp [setAssoc]
  | cons p rest ih =>
    intro h v
    rcases p with ⟨a, b⟩
    unfold setAssoc
    by_cases hah : a = h
    · simp [hah]
    · have hba : (h == a) = false := beq_eq_false_iff_ne.mpr (fun he => hah he.symm)
      simp only [hah, ite_false, List.lookup, hba]
      exact ih h v

theorem lookup_setAssoc_other {β : Type} :
    ∀ (m : List (Id × β)) (h : Id) (v : β) (h2 : Id), h2 ≠ h →
      (setAssoc m h v).lookup h2 = m.lookup h2 := by
  intro m
  induction m with
  | nil =>
    intro h v h2 hne
    have hba : (h2 == h) = false := beq_eq_false_iff_ne.mpr hne
    simp [setAssoc, List.lookup, hba]
  | cons p rest ih =>
    intro h v h2 hne
    rcases p with ⟨a, b⟩
    unfold setAssoc
    by_cases hah : a = h
    · subst hah
      have hba : (h2 == a) = false := beq_eq_false_iff_ne.mpr hne
      simp only [if_pos rfl, List.lookup, hba]
    · simp only [hah, ite_false]
      by_cases h2a : h2 = a
      · subst h2a
        simp [List.lookup]
      · have hba : (h2 == a) = false := beq_eq_false_iff_ne.mpr h2a
        simp only [List.lookup, hba]
        exact ih h v h2 hne

/-- The counter map after a generate call (projection of the returned state). -/
theorem incidentGenerate_counter (st : IncidentGenState) (g u : Rand)
    (k uk : Nat) (homeId : Id) (clientId : Option Id) (reporterId : Id)
    (occurredAt : Int) (homeSeq : Option Nat) (adminIds : List Id) :
    (incidentGenerate st g u k uk homeId clientId reporterId occurredAt homeSeq
        adminIds).2.1.incidentCounterByHome =
      setAssoc st.incidentCounterByHome homeId
        (lookupCount st.incidentCounterByHome homeId + 1) := by
  simp only [incidentGenerate]

/-- The incident number of a generate call, in terms of the updated state. -/
theorem incidentGenerate_number (st : IncidentGenState) (g u : Rand)
    (k uk : Nat) (homeId : Id) (clientId : Option Id) (reporterId : Id)
    (occurredAt : Int) (homeSeq : Option Nat) (adminIds : List Id) :
    (incidentGenerate st g u k uk homeId clientId reporterId occurredAt homeSeq
        adminIds).1.incidentNumber =
      generateIncidentNumber
        (((incidentGenerate st g u k uk homeId clientId reporterId occurredAt homeSeq
            adminIds).2.1.homeSequenceMap.lookup homeId).getD 1)
        (weightedChoice INCIDENT_TYPES "Other" g k)
        (lookupCount st.incidentCounterByHome homeId + 1) := by
  simp only [incidentGenerate]
  split_ifs <;> rfl

/-- Extraction of the Sequence component from an in-range incident number. -/
theorem sequenceComponent_generateIncidentNumber (s c : Nat) (ty : String)
    (hs : s < 36 ^ 2) (hc : c < 36 ^ 4) :
    sequenceComponent (generateIncidentNumber s ty c) = zfill 4 (toBase36 c) := by
  have h1 : (zfill 2 (toBase36 s)).length = 2 := by
    rw [zfill_length]
    have := toBase36_length_le s 2 (by omega) hs
    omega
  have h2 : (zfill 4 (toBase36 c)).length = 4 := by
    rw [zfill_length]
    have := toBase36_length_le c 4 (by omega) hc
    omega
  simp only [generateIncidentNumber, sequenceComponent]
  rw [show (incidentTypeCodeOf ty :: 'I' :: 'R' ::
        (zfill 2 (toBase36 s) ++ zfill 4 (toBase36 c))) ++
        [luhnChecksumChar (incidentTypeCodeOf ty :: 'I' :: 'R' ::
          (zfill 2 (toBase36 s) ++ zfill 4 (toBase36 c)))] =
      incidentTypeCodeOf ty :: 'I' :: 'R' ::
        (zfill 2 (toBase36 s) ++ (zfill 4 (toBase36 c) ++
          [luhnChecksumChar (incidentTypeCodeOf ty :: 'I' :: 'R' ::
            (zfill 2 (toBase36 s) ++ zfill 4 (toBase36 c)))])) from by simp]
  show (List.drop 2 (zfill 2 (toBase36 s) ++
    (zfill 4 (toBase36 c) ++ [luhnChecksumChar (incidentTypeCodeOf ty :: 'I' :: 'R' ::
      (zfill 2 (toBase36 s) ++ zfill 4 (toBase36 c)))]))).take 4 = _
  rw [List.drop_left' h1, List.take_left' h2]

/-- Strict lexicographic growth of the zero-padded 4-character base-36
encodings. -/
theorem zfill4_lex (m n : Nat) (hmn : m < n) (hn : n < 36 ^ 4) :
    List.Lex (· < ·) (zfill 4 (toBase36 m)) (zfill 4 (toBase36 n)) := by
  have hm : m < 36 ^ 4 := Nat.lt_trans hmn hn
  have hlm : (zfill 4 (toBase36 m)).length = 4 := by
    rw [zfill_length]
    have := toBase36_length_le m 4 (by omega) hm
    omega
  have hln : (zfill 4 (toBase36 n)).length = 4 := by
    rw [zfill_length]
    have := toBase36_length_le n 4 (by omega) hn
    omega
  apply (base36_lex_iff _ _ (by rw [hlm, hln])
    (zfill_chars _ _ (toBase36_chars m)) (zfill_chars _ _ (toBase36_chars n))).mpr
  rw [base36Val_zfill, base36Val_zfill, base36Val_toBase36, base36Val_toBase36]
  exact hmn

/-- C9: the per-home incident counter starts at 0 (so the first call yields
sequence value 1) and increments by exactly one on every generate call for
that home, leaving other homes untouched; the emitted Sequence component
encodes the new counter value zero-padded to 4 base-36 characters; and those
components grow strictly (lexicographically and in numeric value) with the
counter, so successive incident numbers of one home have strictly increasing
Sequence components. -/
theorem C9_sequence_monotonicity :
    (∀ (st : IncidentGenState) (g u : Rand) (k uk : Nat) (homeId : Id)
        (clientId : Option Id) (reporterId : Id) (occurredAt : Int)
        (homeSeq : Option Nat) (adminIds : List Id),
      lookupCount (incidentGenerate st g u k uk homeId clientId reporterId
          occurredAt homeSeq adminIds).2.1.incidentCounterByHome homeId =
        lookupCount st.incidentCounterByHome homeId + 1 ∧
      (∀ other : Id, other ≠ homeId →
        lookupCount (incidentGenerate st g u k uk homeId clientId reporterId
            occurredAt homeSeq adminIds).2.1.incidentCounterByHome other =
          lookupCount st.incidentCounterByHome other) ∧
      lookupCount IncidentGenState.init.incidentCounterByHome homeId = 0 ∧
      ((((incidentGenerate st g u k uk homeId clientId reporterId occurredAt
            homeSeq adminIds).2.1.homeSequenceMap.lookup homeId).getD 1 < 36 ^ 2) →
        lookupCount st.incidentCounterByHome homeId + 1 < 36 ^ 4 →
        sequenceComponent (incidentGenerate st g u k uk homeId clientId reporterId
            occurredAt homeSeq adminIds).1.incidentNumber =
          zfill 4 (toBase36 (lookupCount st.incidentCounterByHome homeId + 1)))) ∧
    (∀ m n : Nat, m < n → n < 36 ^ 4 →
      base36Val (zfill 4 (toBase36 m)) < base36Val (zfill 4 (toBase36 n)) ∧
      List.Lex (· < ·) (zfill 4 (toBase36 m)) (zfill 4 (toBase36 n))) := by
  constructor
  · intro st g u k uk homeId clientId reporterId occurredAt homeSeq adminIds
    refine ⟨?_, ?_, rfl, ?_⟩
    · unfold lookupCount
      rw [incidentGenerate_counter, lookup_setAssoc_self]
      rfl
    · intro other hne
      unfold lookupCount
      rw [incidentGenerate_counter, lookup_setAssoc_other _ _ _ _ hne]
    · intro hs hc
      rw [incidentGenerate_number]
      exact sequenceComponent_generateIncidentNumber _ _ _ hs hc
  · intro m n hmn hn
    constructor
    · rw [base36Val_zfill, base36Val_zfill, base36Val_toBase36, base36Val_toBase36]
      exact hmn
    · exact zfill4_lex m n hmn hn

/-- Witness for C9 at a concrete input. -/
theorem C9_sequence_monotonicity_witness :
    lookupCount (incidentGenerate IncidentGenState.init (fun _ => 0) (fun j => j)
        0 0 1 none 5 0 (some 1) []).2.1.incidentCounterByHome 1 =
      lookupCount IncidentGenState.init.incidentCounterByHome 1 + 1 ∧
    sequenceComponent (incidentGenerate IncidentGenState.init (fun _ => 0)
        (fun j => j) 0 0 1 none 5 0 (some 1) []).1.incidentNumber =
      zfill 4 (toBase36 1) ∧
    List.Lex (· < ·) (zfill 4 (toBase36 1)) (zfill 4 (toBase36 2)) := by
  refine ⟨?_, ?_, ?_⟩
  · exact (C9_sequence_monotonicity.1 IncidentGenState.init (fun _ => 0)
      (fun j => j) 0 0 1 none 5 0 (some 1) []).1
  · have h := (C9_sequence_monotonicity.1 IncidentGenState.init (fun _ => 0)
      (fun j => j) 0 0 1 none 5 0 (some 1) []).2.2.2
    have h1 := h (by decide) (by decide)
    simpa using h1
  · exact (C9_sequence_monotonicity.2 1 2 (by omega) (by decide)).2

/-! ## C6: incident status field coherence -/

/-- C6: for every generated incident, `updatedAt` is present iff the status
is not Draft (for statuses short of closure it is 1-24 hours after
occurrence); `closedAt`, `closedById` and `closureNotes` are present iff the
status is Closed, with `closedAt` 1-7 days after occurrence; when Closed,
`updatedAt` equals `closedAt`; and with an empty admin pool the closer
degrades to the reporter, while a nonempty pool supplies the closer. -/
theorem C6_incident_status_coherence (st : IncidentGenState) (g u : Rand)
    (k uk : Nat) (homeId : Id) (clientId : Option Id) (reporterId : Id)
    (occurredAt : Int) (homeSeq : Option Nat) (adminIds : List Id) :
    ((incidentGenerate st g u k uk homeId clientId reporterId occurredAt homeSeq
        adminIds).1.updatedAt.isSome ↔
      (incidentGenerate st g u k uk homeId clientId reporterId occurredAt homeSeq
        adminIds).1.status ≠ "Draft") ∧
    ((incidentGenerate st g u k uk homeId clientId reporterId occurredAt homeSeq
        adminIds).1.closedAt.isSome ↔
      (incidentGenerate st g u k uk homeId clientId reporterId occurredAt homeSeq
        adminIds).1.status = "Closed") ∧
    ((incidentGenerate st g u k uk homeId clientId reporterId occurredAt homeSeq
        adminIds).1.closedById.isSome ↔
      (incidentGenerate st g u k uk homeId clientId reporterId occurredAt homeSeq
        adminIds).1.status = "Closed") ∧
    ((incidentGenerate st g u k uk homeId clientId reporterId occurredAt homeSeq
        adminIds).1.closureNotes.isSome ↔
      (incidentGenerate st g u k uk homeId clientId reporterId occurredAt homeSeq
        adminIds).1.status = "Closed") ∧
    ((incidentGenerate st g u k uk homeId clientId reporterId occurredAt homeSeq
        adminIds).1.status = "Closed" →
      (incidentGenerate st g u k uk homeId clientId reporterId occurredAt homeSeq
        adminIds).1.updatedAt =
        (incidentGenerate st g u k uk homeId clientId reporterId occurredAt homeSeq
          adminIds).1.closedAt ∧
      ∃ d : Nat, 1 ≤ d ∧ d ≤ 7 ∧
        (incidentGenerate st g u k uk homeId clientId reporterId occurredAt homeSeq
          adminIds).1.closedAt = some (occurredAt + (d : Int) * dayLen)) ∧
    ((incidentGenerate st g u k uk homeId clientId reporterId occurredAt homeSeq
        adminIds).1.status ≠ "Draft" →
      (incidentGenerate st g u k uk homeId clientId reporterId occurredAt homeSeq
        adminIds).1.status ≠ "Closed" →
      ∃ h : Nat, 1 ≤ h ∧ h ≤ 24 ∧
        (incidentGenerate st g u k uk homeId clientId reporterId occurredAt homeSeq
          adminIds).1.updatedAt = some (occurredAt + (h : Int) * hourLen)) ∧
    (adminIds = [] →
      (incidentGenerate st g u k uk homeId clientId reporterId occurredAt homeSeq
        adminIds).1.status = "Closed" →
      (incidentGenerate st g u k uk homeId clientId reporterId occurredAt homeSeq
        adminIds).1.closedById = some reporterId) ∧
    (adminIds ≠ [] →
      (incidentGenerate st g u k uk homeId clientId reporterId occurredAt homeSeq
        adminIds).1.status = "Closed" →
      ∃ a ∈ adminIds,
        (incidentGenerate st g u k uk homeId clientId reporterId occurredAt homeSeq
          adminIds).1.closedById = some a) := by
  have hupd := randNat_bounds g (k + 4) 1 24 (by omega)
  have hclose := randNat_bounds g (k + 5) 1 7 (by omega)
  simp only [incidentGenerate]
  generalize weightedChoice INCIDENT_STATUS_WEIGHTS "Closed" g (k + 3) = status0
  by_cases hC : status0 = "Closed"
  · subst hC
    by_cases hA : adminIds = []
    · subst hA
      simp
      exact ⟨randNat g (k + 5) 1 7, hclose.1, hclose.2, Or.inl rfl⟩
    · simp [hA]
      refine ⟨⟨randNat g (k + 5) 1 7, hclose.1, hclose.2, Or.inl rfl⟩, ?_⟩
      exact choiceD_mem adminIds reporterId g (k + 6) hA
  · by_cases hD : status0 = "Draft"
    · subst hD
      simp
    · simp [hC, hD]
      exact ⟨randNat g (k + 4) 1 24, hupd.1, hupd.2, Or.inl rfl⟩

/-- Witness for C6 at a concrete input (empty admin pool). -/
theorem C6_incident_status_coherence_witness :
    ((incidentGenerate IncidentGenState.init (fun _ => 0) (fun j => j) 0 0 1 none 5 0
        (some 1) []).1.updatedAt.isSome ↔
      (incidentGenerate IncidentGenState.init (fun _ => 0) (fun j => j) 0 0 1 none 5 0
        (some 1) []).1.status ≠ "Draft") ∧
    ((incidentGenerate IncidentGenState.init (fun _ => 0) (fun j => j) 0 0 1 none 5 0
        (some 1) []).1.closedAt.isSome ↔
      (incidentGenerate IncidentGenState.init (fun _ => 0) (fun j => j) 0 0 1 none 5 0
        (some 1) []).1.status = "Closed") ∧
    ((incidentGenerate IncidentGenState.init (fun _ => 0) (fun j => j) 0 0 1 none 5 0
        (some 1) []).1.closedById.isSome ↔
      (incidentGenerate IncidentGenState.init (fun _ => 0) (fun j => j) 0 0 1 none 5 0
        (some 1) []).1.status = "Closed") ∧
    ((incidentGenerate IncidentGenState.init (fun _ => 0) (fun j => j) 0 0 1 none 5 0
        (some 1) []).1.closureNotes.isSome ↔
      (incidentGenerate IncidentGenState.init (fun _ => 0) (fun j => j) 0 0 1 none 5 0
        (some 1) []).1.status = "Closed") ∧
    ((incidentGenerate IncidentGenState.init (fun _ => 0) (fun j => j) 0 0 1 none 5 0
        (some 1) []).1.status = "Closed" →
      (incidentGenerate IncidentGenState.init (fun _ => 0) (fun j => j) 0 0 1 none 5 0
        (some 1) []).1.updatedAt =
        (incidentGenerate IncidentGenState.init (fun _ => 0) (fun j => j) 0 0 1 none 5 0
          (some 1) []).1.closedAt ∧
      ∃ d : Nat, 1 ≤ d ∧ d ≤ 7 ∧
        (incidentGenerate IncidentGenState.init (fun _ => 0) (fun j => j) 0 0 1 none 5 0
          (some 1) []).1.closedAt = some ((0 : Int) + (d : Int) * dayLen)) ∧
    ((incidentGenerate IncidentGenState.init (fun _ => 0) (fun j => j) 0 0 1 none 5 0
        (some 1) []).1.status ≠ "Draft" →
      (incidentGenerate IncidentGenState.init (fun _ => 0) (fun j => j) 0 0 1 none 5 0
        (some 1) []).1.status ≠ "Closed" →
      ∃ h : Nat, 1 ≤ h ∧ h ≤ 24 ∧
        (incidentGenerate IncidentGenState.init (fun _ => 0) (fun j => j) 0 0 1 none 5 0
          (some 1) []).1.updatedAt = some ((0 : Int) + (h : Int) * hourLen)) ∧
    (([] : List Id) = [] →
      (incidentGenerate IncidentGenState.init (fun _ => 0) (fun j => j) 0 0 1 none 5 0
        (some 1) []).1.status = "Closed" →
      (incidentGenerate IncidentGenState.init (fun _ => 0) (fun j => j) 0 0 1 none 5 0
        (some 1) []).1.closedById = some 5) ∧
    (([] : List Id) ≠ [] →
      (incidentGenerate IncidentGenState.init (fun _ => 0) (fun j => j) 0 0 1 none 5 0
        (some 1) []).1.status = "Closed" →
      ∃ a ∈ ([] : List Id),
        (incidentGenerate IncidentGenState.init (fun _ => 0) (fun j => j) 0 0 1 none 5 0
          (some 1) []).1.closedById = some a) :=
  C6_incident_status_coherence IncidentGenState.init (fun _ => 0) (fun j => j) 0 0 1
    none 5 0 (some 1) []

/-- Witness for C10 at a concrete input. -/
theorem C10_photo_attachments_witness :
    1 ≤ (generatePhotos (fun _ => 0) (fun j => j) 0 0 1 2 3 0).length ∧
    (generatePhotos (fun _ => 0) (fun j => j) 0 0 1 2 3 0).length ≤ 3 ∧
    (generatePhotos (fun _ => 0) (fun j => j) 0 0 1 2 3 0).map
        (fun p => p.displayOrder) =
      List.range (generatePhotos (fun _ => 0) (fun j => j) 0 0 1 2 3 0).length ∧
    ((generatePhotos (fun _ => 0) (fun j => j) 0 0 1 2 3 0).map
        (fun p => p.fileName)).Nodup ∧
    ∀ p ∈ generatePhotos (fun _ => 0) (fun j => j) 0 0 1 2 3 0,
      p.fileName ∈ INCIDENT_IMAGES ∧ p.sourceFile = p.fileName :=
  C10_photo_attachments (fun _ => 0) (fun j => j) 0 0 1 2 3 0


/-! ## C7: Phase 3 invariant machinery -/

theorem clientGenerate_fields (g : Rand) (k : Nat) (uid homeId bedId : Id)
    (adm : Int) (cg : Id) (disch : Bool) (D : Int) :
    (clientGenerate g k uid homeId bedId adm cg disch
        (if disch then some D else none)).id = uid ∧
    (clientGenerate g k uid homeId bedId adm cg disch
        (if disch then some D else none)).dischargeDate =
      (if disch then some (dateFloor D) else none) ∧
    (clientGenerate g k uid homeId bedId adm cg disch
        (if disch then some D else none)).isActive = !disch := by
  cases disch <;> simp [clientGenerate]

theorem appendInterval_keys (occ : List (Id × List Interval)) (b : Id)
    (iv : Interval) :
    (appendInterval occ b iv).map Prod.fst = occ.map Prod.fst := by
  induction occ with
  | nil => rfl
  | cons p rest ih =>
    show ((if p.1 = b then (p.1, p.2 ++ [iv]) else p) ::
      appendInterval rest b iv).map Prod.fst = _
    by_cases h : p.1 = b <;> simp [h, ih]

theorem appendInterval_of_not_mem (b : Id) (iv : Interval) :
    ∀ occ : List (Id × List Interval), b ∉ occ.map Prod.fst →
      appendInterval occ b iv = occ := by
  intro occ
  induction occ with
  | nil => intro _; rfl
  | cons p rest ih =>
    intro h
    simp only [List.map_cons, List.mem_cons] at h
    push_neg at h
    show (if p.1 = b then (p.1, p.2 ++ [iv]) else p) ::
      appendInterval rest b iv = p :: rest
    rw [if_neg (fun hh => h.1 hh.symm), ih h.2]

theorem findAvailableBed_mem (now : Int) (occ : List (Id × List Interval))
    (date : Int) (b : Id) (h : findAvailableBed now occ date = some b) :
    b ∈ occ.map Prod.fst := by
  unfold findAvailableBed at h
  obtain ⟨p, hp, rfl⟩ := Option.map_eq_some'.mp h
  exact List.mem_map_of_mem _ (List.mem_of_find?_eq_some hp)

theorem allIntervals_cons (p : Id × List Interval)
    (rest : List (Id × List Interval)) :
    allIntervals (p :: rest) = p.2 ++ allIntervals rest := rfl

theorem allIntervals_nil_beds (beds : List Id) :
    allIntervals (beds.map (fun b => (b, ([] : List Interval)))) = [] := by
  induction beds with
  | nil => rfl
  | cons b rest ih => simp [allIntervals]

theorem allIntervals_appendInterval (b : Id) (iv : Interval) :
    ∀ occ : List (Id × List Interval), (occ.map Prod.fst).Nodup →
      b ∈ occ.map Prod.fst →
      (allIntervals (appendInterval occ b iv)).Perm
        (allIntervals occ ++ [iv]) := by
  intro occ
  induction occ with
  | nil => intro _ hb; simp at hb
  | cons p rest ih =>
    intro hnd hb
    simp only [List.map_cons, List.nodup_cons] at hnd
    by_cases h : p.1 = b
    · have hni : b ∉ rest.map Prod.fst := by
        rw [← h]; exact hnd.1
      have he : appendInterval (p :: rest) b iv = (p.1, p.2 ++ [iv]) :: rest := by
        show (if p.1 = b then (p.1, p.2 ++ [iv]) else p) ::
          appendInterval rest b iv = _
        rw [if_pos h, appendInterval_of_not_mem b iv rest hni]
      rw [he, allIntervals_cons, allIntervals_cons]
      have hp2 : (p.2 ++ ([iv] ++ allIntervals rest)).Perm
          (p.2 ++ (allIntervals rest ++ [iv])) :=
        List.Perm.append_left _ (@List.perm_append_comm _ [iv] (allIntervals rest))
      simpa [List.append_assoc] using hp2
    · have hb2 : b ∈ rest.map Prod.fst := by
        simp only [List.map_cons, List.mem_cons] at hb
        rcases hb with hb | hb
        · exact absurd hb.symm h
        · exact hb
      have he : appendInterval (p :: rest) b iv = p :: appendInterval rest b iv := by
        show (if p.1 = b then (p.1, p.2 ++ [iv]) else p) ::
          appendInterval rest b iv = _
        rw [if_neg h]
      rw [he, allIntervals_cons, allIntervals_cons]
      have hp2 : (p.2 ++ allIntervals (appendInterval rest b iv)).Perm
          (p.2 ++ (allIntervals rest ++ [iv])) :=
        List.Perm.append_left _ (ih hnd.2 hb2)
      simpa [List.append_assoc] using hp2

theorem dischargeClient_ids (g : Rand) (k : Nat) (current : Int) (cid : Id) :
    ∀ cs : List Client,
      (dischargeClient g k current cid cs).map Client.id =
        cs.map Client.id := by
  intro cs
  induction cs with
  | nil => rfl
  | cons c rest ih =>
    unfold dischargeClient
    by_cases h : c.id = cid
    · rw [if_pos h]; simp
    · rw [if_neg h]; simp [ih]

theorem dischargeClient_mem (g : Rand) (k : Nat) (current : Int) (cid : Id) :
    ∀ cs : List Client, (cs.map Client.id).Nodup →
      ∀ c2 ∈ dischargeClient g k current cid cs,
        (¬ c2.id = cid ∧ c2 ∈ cs) ∨
        (c2.id = cid ∧ c2.dischargeDate = some (dateFloor current) ∧
          c2.isActive = false) := by
  intro cs
  induction cs with
  | nil => intro _ c2 h; simp [dischargeClient] at h
  | cons c rest ih =>
    intro hnd c2 hc2
    simp only [List.map_cons, List.nodup_cons] at hnd
    unfold dischargeClient at hc2
    by_cases h : c.id = cid
    · rw [if_pos h] at hc2
      rcases List.mem_cons.mp hc2 with rfl | hc2
      · exact Or.inr ⟨h, rfl, rfl⟩
      · have hne : ¬ c2.id = cid := by
          intro he
          have hm : c2.id ∈ rest.map Client.id := List.mem_map_of_mem _ hc2
          rw [he, ← h] at hm
          exact hnd.1 hm
        exact Or.inl ⟨hne, List.mem_cons_of_mem _ hc2⟩
    · rw [if_neg h] at hc2
      rcases List.mem_cons.mp hc2 with rfl | hc2
      · exact Or.inl ⟨h, List.mem_cons_self _ _⟩
      · rcases ih hnd.2 c2 hc2 with h1 | h1
        · exact Or.inl ⟨h1.1, List.mem_cons_of_mem _ h1.2⟩
        · exact Or.inr h1

theorem append_swap_perm {α : Type} (A B C : List α) :
    (A ++ (B ++ C)).Perm (B ++ (A ++ C)) := by
  rw [← List.append_assoc, ← List.append_assoc]
  exact List.Perm.append_right C List.perm_append_comm

theorem hazardBed_spec (g : Rand) (current : Int) :
    ∀ (ivs : List Interval) (cs : List Client) (k : Nat) (R : List Interval),
      (cs.map Client.id).Nodup →
      (∀ c ∈ cs, (c.isActive = true ↔ c.dischargeDate = none)) →
      (∀ iv ∈ ivs ++ R, ∀ c ∈ cs, iv.clientId = c.id →
        iv.stop.map dateFloor = c.dischargeDate) →
      ((ivs ++ R).map Interval.clientId).Nodup →
      ((hazardBed g current ivs cs k).2.1.map Client.id = cs.map Client.id) ∧
      ((hazardBed g current ivs cs k).1.map Interval.clientId =
        ivs.map Interval.clientId) ∧
      (∀ c ∈ (hazardBed g current ivs cs k).2.1,
        (c.isActive = true ↔ c.dischargeDate = none)) ∧
      (∀ iv ∈ (hazardBed g current ivs cs k).1 ++ R,
        ∀ c ∈ (hazardBed g current ivs cs k).2.1, iv.clientId = c.id →
          iv.stop.map dateFloor = c.dischargeDate) := by
  intro ivs
  induction ivs with
  | nil =>
    intro cs k R hnd hact hagree _
    exact ⟨rfl, rfl, hact, hagree⟩
  | cons iv rest ih =>
    intro cs k R hnd hact hagree hivnd
    have hhead : iv.clientId ∉ ((rest ++ R).map Interval.clientId) := by
      simp only [List.cons_append, List.map_cons, List.nodup_cons] at hivnd
      exact hivnd.1
    have htail : ((rest ++ R).map Interval.clientId).Nodup := by
      simp only [List.cons_append, List.map_cons, List.nodup_cons] at hivnd
      exact hivnd.2
    have hkeep : ∀ k2 : Nat,
        ((hazardBed g current rest cs k2).2.1.map Client.id =
          cs.map Client.id) ∧
        ((iv :: (hazardBed g current rest cs k2).1).map Interval.clientId =
          (iv :: rest).map Interval.clientId) ∧
        (∀ c ∈ (hazardBed g current rest cs k2).2.1,
          (c.isActive = true ↔ c.dischargeDate = none)) ∧
        (∀ ivx ∈ (iv :: (hazardBed g current rest cs k2).1) ++ R,
          ∀ c ∈ (hazardBed g current rest cs k2).2.1, ivx.clientId = c.id →
            ivx.stop.map dateFloor = c.dischargeDate) := by
      intro k2
      have hagree1 : ∀ ivx ∈ rest ++ (iv :: R), ∀ c ∈ cs,
          ivx.clientId = c.id → ivx.stop.map dateFloor = c.dischargeDate := by
        intro ivx hivx c hc hid
        exact hagree ivx (List.perm_middle.mem_iff.mp hivx) c hc hid
      have hivnd1 : ((rest ++ (iv :: R)).map Interval.clientId).Nodup := by
        refine ((List.perm_middle.map Interval.clientId).nodup_iff).mpr ?_
        simp only [List.map_cons, List.nodup_cons]
        exact ⟨hhead, htail⟩
      obtain ⟨r1, rcs, rk, hr⟩ :
          ∃ x y z, hazardBed g current rest cs k2 = (x, y, z) := ⟨_, _, _, rfl⟩
      have hihres := ih cs k2 (iv :: R) hnd hact hagree1 hivnd1
      simp only [hr] at hihres
      obtain ⟨h2ids, h2cids, h2act, h2agree⟩ := hihres
      rw [hr]
      refine ⟨h2ids, ?_, h2act, ?_⟩
      · simp only [List.map_cons]
        rw [h2cids]
      · intro ivx hivx c hc hid
        refine h2agree ivx ?_ c hc hid
        rcases List.mem_append.mp hivx with hx | hx
        · rcases List.mem_cons.mp hx with rfl | hx
          · exact List.mem_append.mpr (Or.inr (List.mem_cons_self _ _))
          · exact List.mem_append.mpr (Or.inl hx)
        · exact List.mem_append.mpr (Or.inr (List.mem_cons_of_mem _ hx))
    by_cases hcond : iv.stop = none ∧ (current - iv.start) / dayLen > 180
    · by_cases hcoin : randBool g k = true
      · -- the 2% discharge coin fired: close the interval, discharge the owner
        obtain ⟨cs1, hcs1⟩ :
            ∃ x, dischargeClient g (k + 1) current iv.clientId cs = x :=
          ⟨_, rfl⟩
        have hnd1 : (cs1.map Client.id).Nodup := by
          rw [← hcs1, dischargeClient_ids]; exact hnd
        have hact1 : ∀ c ∈ cs1,
            (c.isActive = true ↔ c.dischargeDate = none) := by
          intro c hc
          rw [← hcs1] at hc
          rcases dischargeClient_mem g (k + 1) current iv.clientId cs hnd c hc
            with h1 | h1
          · exact hact c h1.2
          · rw [h1.2.1, h1.2.2]; simp
        have hagree1 : ∀ ivx ∈ rest ++ ({ iv with stop := some current } :: R),
            ∀ c ∈ cs1, ivx.clientId = c.id →
              ivx.stop.map dateFloor = c.dischargeDate := by
          intro ivx hivx c hc hid
          rw [← hcs1] at hc
          have hmem : ivx = { iv with stop := some current } ∨
              ivx ∈ rest ++ R := by
            rcases List.mem_append.mp hivx with hx | hx
            · exact Or.inr (List.mem_append.mpr (Or.inl hx))
            · rcases List.mem_cons.mp hx with h | hx
              · exact Or.inl h
              · exact Or.inr (List.mem_append.mpr (Or.inr hx))
          rcases dischargeClient_mem g (k + 1) current iv.clientId cs hnd c hc
            with h1 | h1
          · rcases hmem with rfl | hx
            · exact absurd hid.symm h1.1
            · refine hagree ivx ?_ c h1.2 hid
              rcases List.mem_append.mp hx with h | h
              · exact List.mem_append.mpr (Or.inl (List.mem_cons_of_mem _ h))
              · exact List.mem_append.mpr (Or.inr h)
          · rcases hmem with rfl | hx
            · rw [h1.2.1]; rfl
            · exact absurd (List.mem_map.mpr ⟨ivx, hx, hid.trans h1.1⟩) hhead
        have hivnd1 : ((rest ++ ({ iv with stop := some current } :: R)).map
            Interval.clientId).Nodup := by
          refine ((List.perm_middle.map Interval.clientId).nodup_iff).mpr ?_
          simp only [List.map_cons, List.nodup_cons]
          exact ⟨hhead, htail⟩
        obtain ⟨r1, rcs, rk, hr⟩ :
            ∃ x y z, hazardBed g current rest cs1 (k + 2) = (x, y, z) :=
          ⟨_, _, _, rfl⟩
        have hihres := ih cs1 (k + 2) ({ iv with stop := some current } :: R)
          hnd1 hact1 hagree1 hivnd1
        simp only [hr] at hihres
        obtain ⟨h2ids, h2cids, h2act, h2agree⟩ := hihres
        have hred : hazardBed g current (iv :: rest) cs k =
            ({ iv with stop := some current } :: r1, rcs, rk) := by
          simp only [hazardBed]
          rw [if_pos hcond, if_pos hcoin, hcs1, hr]
        rw [hred]
        refine ⟨?_, ?_, h2act, ?_⟩
        · show rcs.map Client.id = cs.map Client.id
          rw [h2ids, ← hcs1, dischargeClient_ids]
        · simp only [List.map_cons]
          rw [h2cids]
        · intro ivx hivx c hc hid
          refine h2agree ivx ?_ c hc hid
          rcases List.mem_append.mp hivx with hx | hx
          · rcases List.mem_cons.mp hx with rfl | hx
            · exact List.mem_append.mpr (Or.inr (List.mem_cons_self _ _))
            · exact List.mem_append.mpr (Or.inl hx)
          · exact List.mem_append.mpr (Or.inr (List.mem_cons_of_mem _ hx))
      · have hred : hazardBed g current (iv :: rest) cs k =
            (iv :: (hazardBed g current rest cs (k + 1)).1,
             (hazardBed g current rest cs (k + 1)).2.1,
             (hazardBed g current rest cs (k + 1)).2.2) := by
          simp only [hazardBed]
          rw [if_pos hcond, if_neg hcoin]
        rw [hred]
        exact hkeep (k + 1)
    · have hred : hazardBed g current (iv :: rest) cs k =
          (iv :: (hazardBed g current rest cs k).1,
           (hazardBed g current rest cs k).2.1,
           (hazardBed g current rest cs k).2.2) := by
        simp only [hazardBed]
        rw [if_neg hcond]
      rw [hred]
      exact hkeep k

theorem hazardBeds_spec (g : Rand) (current : Int) :
    ∀ (occ : List (Id × List Interval)) (cs : List Client) (k : Nat)
        (R : List Interval),
      (cs.map Client.id).Nodup →
      (∀ c ∈ cs, (c.isActive = true ↔ c.dischargeDate = none)) →
      (∀ iv ∈ allIntervals occ ++ R, ∀ c ∈ cs, iv.clientId = c.id →
        iv.stop.map dateFloor = c.dischargeDate) →
      ((allIntervals occ ++ R).map Interval.clientId).Nodup →
      ((hazardBeds g current occ cs k).2.1.map Client.id =
        cs.map Client.id) ∧
      ((hazardBeds g current occ cs k).1.map Prod.fst = occ.map Prod.fst) ∧
      ((allIntervals (hazardBeds g current occ cs k).1).map Interval.clientId =
        (allIntervals occ).map Interval.clientId) ∧
      (∀ c ∈ (hazardBeds g current occ cs k).2.1,
        (c.isActive = true ↔ c.dischargeDate = none)) ∧
      (∀ iv ∈ allIntervals (hazardBeds g current occ cs k).1 ++ R,
        ∀ c ∈ (hazardBeds g current occ cs k).2.1, iv.clientId = c.id →
          iv.stop.map dateFloor = c.dischargeDate) := by
  intro occ
  induction occ with
  | nil =>
    intro cs k R hnd hact hagree _
    exact ⟨rfl, rfl, rfl, hact, hagree⟩
  | cons p rest ih =>
    obtain ⟨b, ivs⟩ := p
    intro cs k R hnd hact hagree hivnd
    simp only [allIntervals_cons, List.append_assoc] at hagree hivnd
    obtain ⟨one1, onecs, onek, hone⟩ :
        ∃ x y z, hazardBed g current ivs cs k = (x, y, z) := ⟨_, _, _, rfl⟩
    have hbs := hazardBed_spec g current ivs cs k (allIntervals rest ++ R)
      hnd hact hagree hivnd
    simp only [hone] at hbs
    obtain ⟨h1ids, h1cids, h1act, h1agree⟩ := hbs
    have hnd2 : (onecs.map Client.id).Nodup := by rw [h1ids]; exact hnd
    have hagree2 : ∀ iv ∈ allIntervals rest ++ (one1 ++ R), ∀ c ∈ onecs,
        iv.clientId = c.id → iv.stop.map dateFloor = c.dischargeDate := by
      intro iv hiv c hc hid
      refine h1agree iv ?_ c hc hid
      exact (append_swap_perm _ _ _).mem_iff.mp hiv
    have hivnd2 : ((allIntervals rest ++ (one1 ++ R)).map
        Interval.clientId).Nodup := by
      refine (((append_swap_perm (allIntervals rest) one1 R).map
        Interval.clientId).nodup_iff).mpr ?_
      rw [List.map_append, List.map_append, h1cids,
        ← List.map_append, ← List.map_append]
      exact hivnd
    obtain ⟨more1, morecs, morek, hmore⟩ :
        ∃ x y z, hazardBeds g current rest onecs onek = (x, y, z) :=
      ⟨_, _, _, rfl⟩
    have hihres := ih onecs onek (one1 ++ R) hnd2 h1act hagree2 hivnd2
    simp only [hmore] at hihres
    obtain ⟨h2ids, h2keys, h2cids, h2act, h2agree⟩ := hihres
    have hred : hazardBeds g current ((b, ivs) :: rest) cs k =
        ((b, one1) :: more1, morecs, morek) := by
      simp only [hazardBeds]
      rw [hone]
      simp only [hmore]
    rw [hred]
    refine ⟨?_, ?_, ?_, h2act, ?_⟩
    · show morecs.map Client.id = cs.map Client.id
      rw [h2ids, h1ids]
    · simp only [List.map_cons]
      rw [h2keys]
    · simp only [allIntervals_cons, List.map_append]
      rw [h2cids, h1cids]
    · intro iv hiv c hc hid
      refine h2agree iv ?_ c hc hid
      simp only [allIntervals_cons] at hiv
      refine (append_swap_perm one1 (allIntervals more1) R).mem_iff.mp ?_
      rw [← List.append_assoc]
      exact hiv

theorem admit_step_inv (u : Rand) (hu : Function.Injective u)
    (s : Phase3State) (hInv : phase3Inv u s) (bedId : Id) (client : Client)
    (iv : Interval) (k2 : Nat)
    (hbed : bedId ∈ s.bedOccupancy.map Prod.fst)
    (hcid : client.id = u s.uk) (hivcid : iv.clientId = u s.uk)
    (hnew : iv.stop.map dateFloor = client.dischargeDate)
    (hactnew : client.isActive = true ↔ client.dischargeDate = none) :
    phase3Inv u
      { clients := s.clients ++ [client]
        bedOccupancy := appendInterval s.bedOccupancy bedId iv
        k := k2
        uk := s.uk + 1 } := by
  simp only [phase3Inv] at hInv
  obtain ⟨I1, I2, I3, I4, I5, I6, I7, I8⟩ := hInv
  have hfresh : u s.uk ∉ s.clients.map Client.id := by
    intro hmem
    obtain ⟨j, hj, hje⟩ := I3 _ hmem
    have := hu hje
    omega
  have hperm := allIntervals_appendInterval bedId iv s.bedOccupancy I8 hbed
  have hmemiff : ∀ x, x ∈ allIntervals (appendInterval s.bedOccupancy bedId iv) ↔
      x ∈ allIntervals s.bedOccupancy ∨ x = iv := by
    intro x
    rw [hperm.mem_iff, List.mem_append, List.mem_singleton]
  simp only [phase3Inv]
  refine ⟨?_, ?_, ?_, ?_, ?_, ?_, ?_, ?_⟩
  · intro c hc
    rcases List.mem_append.mp hc with h | h
    · exact I1 c h
    · rw [List.mem_singleton] at h; subst h; exact hactnew
  · rw [List.map_append]
    refine List.Nodup.append I2 (by simp) ?_
    intro a ha hb
    simp only [List.map_cons, List.map_nil, List.mem_singleton] at hb
    subst hb
    rw [hcid] at ha
    exact hfresh ha
  · intro i hi
    rw [List.map_append] at hi
    rcases List.mem_append.mp hi with h | h
    · obtain ⟨j, hj, hje⟩ := I3 i h
      exact ⟨j, by omega, hje⟩
    · simp only [List.map_cons, List.map_nil, List.mem_singleton] at h
      exact ⟨s.uk, by omega, h.trans hcid⟩
  · intro i hi
    rw [List.mem_map] at hi
    obtain ⟨x, hx, rfl⟩ := hi
    rw [hmemiff] at hx
    rcases hx with hx | rfl
    · have hold := I4 _ (List.mem_map_of_mem _ hx)
      rw [List.map_append]
      exact List.mem_append.mpr (Or.inl hold)
    · rw [List.map_append, hivcid, ← hcid]
      refine List.mem_append.mpr (Or.inr ?_)
      simp
  · intro i hi
    rw [List.map_append] at hi
    rcases List.mem_append.mp hi with h | h
    · have hold := I5 i h
      rw [List.mem_map] at hold
      obtain ⟨x, hx, rfl⟩ := hold
      exact List.mem_map.mpr ⟨x, (hmemiff x).mpr (Or.inl hx), rfl⟩
    · simp only [List.map_cons, List.map_nil, List.mem_singleton] at h
      subst h
      exact List.mem_map.mpr
        ⟨iv, (hmemiff iv).mpr (Or.inr rfl), hivcid.trans hcid.symm⟩
  · intro ivx hivx c hc hid
    rw [hmemiff] at hivx
    rcases List.mem_append.mp hc with hcm | hcm
    · rcases hivx with hx | rfl
      · exact I6 ivx hx c hcm hid
      · exfalso
        apply hfresh
        have h2 : c.id ∈ s.clients.map Client.id := List.mem_map_of_mem _ hcm
        rw [← hid, hivcid] at h2
        exact h2
    · rw [List.mem_singleton] at hcm
      subst hcm
      rcases hivx with hx | rfl
      · exfalso
        apply hfresh
        have h2 := I4 _ (List.mem_map_of_mem Interval.clientId hx)
        rw [hid, hcid] at h2
        exact h2
      · exact hnew
  · refine ((hperm.map Interval.clientId).nodup_iff).mpr ?_
    rw [List.map_append]
    refine List.Nodup.append I7 (by simp) ?_
    intro a ha hb
    simp only [List.map_cons, List.map_nil, List.mem_singleton] at hb
    subst hb
    apply hfresh
    have h2 := I4 _ ha
    rw [hivcid] at h2
    exact h2
  · rw [appendInterval_keys]
    exact I8

theorem admitInitialClients_inv (now : Int) (g u : Rand) (homeId : Id)
    (caregivers : List Id) (homeOpen : Int) (hu : Function.Injective u) :
    ∀ (n : Nat) (s : Phase3State), phase3Inv u s →
      phase3Inv u (admitInitialClients now g u homeId caregivers homeOpen n s) := by
  intro n
  induction n with
  | zero => intro s hInv; exact hInv
  | succ n ih =>
    intro s hInv
    simp only [admitInitialClients]
    rcases hfb : findAvailableBed now s.bedOccupancy
        (homeOpen + randInt g s.k 0 30 * dayLen) with _ | bedId
    · exact ih _ hInv
    · refine ih _ ?_
      have hcf := clientGenerate_fields g (s.k + 2) (u s.uk) homeId bedId
        (homeOpen + randInt g s.k 0 30 * dayLen)
        (choiceD caregivers 0 g (s.k + 1)) false 0
      refine admit_step_inv u hu s hInv bedId _ _ (s.k + 3)
        (findAvailableBed_mem now s.bedOccupancy _ bedId hfb)
        hcf.1 rfl ?_ ?_
      · simp [clientGenerate]
      · simp [clientGenerate]

theorem gradualAdmit_inv (now : Int) (g u : Rand) (homeId : Id)
    (caregivers : List Id) (current : Int) (s : Phase3State)
    (hu : Function.Injective u) (hInv : phase3Inv u s) :
    phase3Inv u (gradualAdmit now g u homeId caregivers current s) := by
  unfold gradualAdmit
  by_cases h1 : occupiedBeds now current s.bedOccupancy < s.bedOccupancy.length
  · rw [if_pos h1]
    by_cases h2 : randBool g s.k = true
    · rw [if_pos h2]
      rcases hfb : findAvailableBed now s.bedOccupancy current with _ | bedId
      · exact hInv
      · have hcf := clientGenerate_fields g (s.k + 5) (u s.uk) homeId bedId
          current (choiceD caregivers 0 g (s.k + 2))
          (decide (current + randInt g (s.k + 3) 60 700 * dayLen < endDate now)
            && randBool g (s.k + 4))
          (current + randInt g (s.k + 3) 60 700 * dayLen)
        refine admit_step_inv u hu s hInv bedId _ _ (s.k + 6)
          (findAvailableBed_mem now s.bedOccupancy current bedId hfb)
          hcf.1 rfl ?_ ?_
        · rw [hcf.2.1]
          cases (decide (current + randInt g (s.k + 3) 60 700 * dayLen <
            endDate now) && randBool g (s.k + 4)) <;> rfl
        · rw [hcf.2.2, hcf.2.1]
          cases (decide (current + randInt g (s.k + 3) 60 700 * dayLen <
            endDate now) && randBool g (s.k + 4)) <;> simp
    · rw [if_neg h2]; exact hInv
  · rw [if_neg h1]; exact hInv

theorem phase3Loop_inv (now : Int) (g u : Rand) (homeId : Id)
    (caregivers : List Id) (hu : Function.Injective u) :
    ∀ (fuel : Nat) (current : Int) (s : Phase3State), phase3Inv u s →
      phase3Inv u (phase3Loop now g u homeId caregivers fuel current s) := by
  intro fuel
  induction fuel with
  | zero => intro current s hInv; exact hInv
  | succ fuel ih =>
    intro current s hInv
    simp only [phase3Loop]
    by_cases hlt : current < endDate now
    · rw [if_pos hlt]
      have hInv1 := gradualAdmit_inv now g u homeId caregivers current s hu hInv
      simp only [phase3Inv] at hInv1
      obtain ⟨I1, I2, I3, I4, I5, I6, I7, I8⟩ := hInv1
      obtain ⟨haz1, hazcs, hazk, hhaz⟩ :
          ∃ x y z, hazardBeds g current
            (gradualAdmit now g u homeId caregivers current s).bedOccupancy
            (gradualAdmit now g u homeId caregivers current s).clients
            (gradualAdmit now g u homeId caregivers current s).k = (x, y, z) :=
        ⟨_, _, _, rfl⟩
      have hbs := hazardBeds_spec g current
        (gradualAdmit now g u homeId caregivers current s).bedOccupancy
        (gradualAdmit now g u homeId caregivers current s).clients
        (gradualAdmit now g u homeId caregivers current s).k []
        I2 I1 (by simpa using I6) (by simpa using I7)
      simp only [hhaz] at hbs
      obtain ⟨h2ids, h2keys, h2cids, h2act, h2agree⟩ := hbs
      refine ih _ _ ?_
      simp only [phase3Inv, hhaz]
      refine ⟨h2act, ?_, ?_, ?_, ?_, ?_, ?_, ?_⟩
      · rw [h2ids]; exact I2
      · intro i hi
        rw [h2ids] at hi
        exact I3 i hi
      · intro i hi
        rw [h2cids] at hi
        rw [h2ids]
        exact I4 i hi
      · intro i hi
        rw [h2ids] at hi
        rw [h2cids]
        exact I5 i hi
      · intro ivx hx c hc hid
        exact h2agree ivx (by simpa using hx) c hc hid
      · rw [h2cids]; exact I7
      · rw [h2keys]; exact I8
    · rw [if_neg hlt]; exact hInv

theorem phase3Home_inv (now : Int) (g u : Rand) (homeId : Id) (beds : List Id)
    (caregivers : List Id) (homeOpen : Int) (fuel k uk : Nat)
    (hu : Function.Injective u) (hbeds : beds.Nodup) :
    phase3Inv u (phase3Home now g u homeId beds caregivers homeOpen fuel k uk) := by
  unfold phase3Home
  refine phase3Loop_inv now g u homeId caregivers hu fuel _ _ ?_
  refine admitInitialClients_inv now g u homeId caregivers homeOpen hu _ _ ?_
  simp only [phase3Inv]
  refine ⟨?_, ?_, ?_, ?_, ?_, ?_, ?_, ?_⟩
  · intro c hc; simp at hc
  · simp
  · intro i hi; simp at hi
  · intro i hi
    rw [allIntervals_nil_beds] at hi
    simp at hi
  · intro i hi; simp at hi
  · intro iv hiv
    rw [allIntervals_nil_beds] at hiv
    simp at hiv
  · rw [allIntervals_nil_beds]; simp
  · rw [List.map_map]
    have hcomp : (Prod.fst ∘ fun b : Id => (b, ([] : List Interval))) = id := rfl
    rw [hcomp, List.map_id]
    exact hbeds

/-- C7: for every client produced by the Phase 3 lifecycle of a home (under
the modelling hypotheses that the uuid stream is injective and the bed ids
are distinct, both true of real uuids), `isActive` holds iff `dischargeDate`
is absent, and the client owns exactly one occupancy interval, which is
closed iff the client is inactive, its end timestamp carrying the discharge
date (the client field storing the date-truncated value). -/
theorem C7_active_flag_consistency (now : Int) (g u : Rand) (homeId : Id)
    (beds : List Id) (caregivers : List Id) (homeOpen : Int) (fuel k uk : Nat)
    (hu : Function.Injective u) (hbeds : beds.Nodup) :
    ∀ c ∈ (phase3Home now g u homeId beds caregivers homeOpen fuel k uk).clients,
      (c.isActive = true ↔ c.dischargeDate = none) ∧
      ∃ iv ∈ allIntervals
          (phase3Home now g u homeId beds caregivers homeOpen fuel k uk).bedOccupancy,
        iv.clientId = c.id ∧
        (c.isActive = false ↔ ∃ d, iv.stop = some d) ∧
        (∀ d, iv.stop = some d → c.dischargeDate = some (dateFloor d)) ∧
        (∀ iv2 ∈ allIntervals
            (phase3Home now g u homeId beds caregivers homeOpen fuel k uk).bedOccupancy,
          iv2.clientId = c.id → iv2 = iv) := by
  intro c hc
  have hInv := phase3Home_inv now g u homeId beds caregivers homeOpen fuel k uk
    hu hbeds
  simp only [phase3Inv] at hInv
  obtain ⟨I1, I2, I3, I4, I5, I6, I7, I8⟩ := hInv
  have hcid : c.id ∈ (phase3Home now g u homeId beds caregivers homeOpen fuel
      k uk).clients.map Client.id := List.mem_map_of_mem _ hc
  have hex := I5 _ hcid
  rw [List.mem_map] at hex
  obtain ⟨iv, hiv, hivc⟩ := hex
  have hagree := I6 iv hiv c hc hivc
  refine ⟨I1 c hc, iv, hiv, hivc, ?_, ?_, ?_⟩
  · constructor
    · intro hFalse
      have h3 : ¬ c.dischargeDate = none := by
        intro hn
        have h4 := (I1 c hc).mpr hn
        rw [h4] at hFalse
        simp at hFalse
      rcases hstop : iv.stop with _ | d
      · rw [hstop] at hagree
        exact absurd hagree.symm h3
      · exact ⟨d, rfl⟩
    · rintro ⟨d, hd⟩
      rw [hd] at hagree
      cases hact : c.isActive
      · rfl
      · have hnone := (I1 c hc).mp hact
        rw [hnone] at hagree
        simp at hagree
  · intro d hd
    rw [hd] at hagree
    exact hagree.symm
  · intro iv2 hiv2 hc2
    exact List.inj_on_of_nodup_map I7 hiv2 hiv (hc2.trans hivc.symm)

/-- Witness for C7 at a concrete input: the first client of a two-bed home
simulated over a short horizon with the identity uuid stream. -/
theorem C7_active_flag_consistency_witness :
    ((phase3Home (730 * dayLen) (fun _ => 1) (fun j => j) 9 [500, 501] [7]
        (14 * dayLen) 3 0 10).clients.headI.isActive = true ↔
      (phase3Home (730 * dayLen) (fun _ => 1) (fun j => j) 9 [500, 501] [7]
        (14 * dayLen) 3 0 10).clients.headI.dischargeDate = none) :=
  (C7_active_flag_consistency (730 * dayLen) (fun _ => 1) (fun j => j) 9
    [500, 501] [7] (14 * dayLen) 3 0 10 (fun a b h => h) (by decide)
    ((phase3Home (730 * dayLen) (fun _ => 1) (fun j => j) 9 [500, 501] [7]
        (14 * dayLen) 3 0 10).clients.headI) (by decide)).1

/-! ## C4: relabelling the uuid-drawn identifiers -/

theorem map_eraseIdx {α β : Type} (F : α → β) :
    ∀ (l : List α) (i : Nat), (l.map F).eraseIdx i = (l.eraseIdx i).map F := by
  intro l
  induction l with
  | nil => intro i; rfl
  | cons a rest ih =>
    intro i
    cases i with
    | zero => rfl
    | succ i =>
      show F a :: (rest.map F).eraseIdx i = F a :: (rest.eraseIdx i).map F
      rw [ih]

theorem isEmpty_map {α β : Type} (F : α → β) (l : List α) :
    (l.map F).isEmpty = l.isEmpty := by
  cases l <;> rfl

theorem choiceD_map {α β : Type} (F : α → β) (l : List α) (d : α) (d2 : β)
    (g : Rand) (k : Nat) (hl : l ≠ []) :
    choiceD (l.map F) d2 g k = F (choiceD l d g k) := by
  unfold choiceD
  rw [List.length_map]
  have hlt : g k % l.length < l.length :=
    Nat.mod_lt _ (List.length_pos.mpr hl)
  rw [List.getD_eq_getElem?_getD, List.getD_eq_getElem?_getD,
    List.getElem?_map, List.getElem?_eq_getElem hlt]
  rfl

theorem choiceD_map_mapped {α β : Type} (F : α → β) (l : List α) (d : α)
    (g : Rand) (k : Nat) :
    choiceD (l.map F) (F d) g k = F (choiceD l d g k) := by
  unfold choiceD
  rw [List.length_map, List.getD_map]

theorem randSample_map {α β : Type} (F : α → β) (g : Rand) :
    ∀ (n : Nat) (l : List α) (k : Nat),
      randSample g (l.map F) n k = (randSample g l n k).map F := by
  intro n
  induction n with
  | zero => intro l k; rfl
  | succ n ih =>
    intro l k
    simp only [randSample]
    rw [List.length_map, List.get?_map]
    rcases hg : l.get? (g k % l.length) with _ | x
    · rfl
    · show F x :: randSample g ((l.map F).eraseIdx (g k % l.length)) n (k + 1) =
        (x :: randSample g (l.eraseIdx (g k % l.length)) n (k + 1)).map F
      rw [map_eraseIdx, ih, List.map_cons]

theorem bedFree_map (f : Nat → Nat) (now date : Int) (ivs : List Interval) :
    bedFree now date (ivs.map (mapIntervalIds f)) = bedFree now date ivs := by
  unfold bedFree
  rw [List.all_map]
  rfl

theorem findAvailableBed_map (f : Nat → Nat) (now : Int)
    (occ : List (Id × List Interval)) (date : Int) :
    findAvailableBed now (mapOccIds f occ) date =
      (findAvailableBed now occ date).map f := by
  unfold findAvailableBed mapOccIds
  rw [List.find?_map]
  have hpred : ((fun p : Id × List Interval => bedFree now date p.2) ∘
      (fun p : Id × List Interval => (f p.1, p.2.map (mapIntervalIds f)))) =
      (fun p : Id × List Interval => bedFree now date p.2) := by
    funext p
    exact bedFree_map f now date p.2
  rw [hpred, Option.map_map, Option.map_map]
  rfl

theorem appendInterval_map (f : Nat → Nat) (hf : Function.Injective f)
    (b : Id) (iv : Interval) :
    ∀ occ : List (Id × List Interval),
      appendInterval (mapOccIds f occ) (f b) (mapIntervalIds f iv) =
        mapOccIds f (appendInterval occ b iv) := by
  intro occ
  induction occ with
  | nil => rfl
  | cons p rest ih =>
    by_cases h : p.1 = b
    · show (if f p.1 = f b then
            (f p.1, p.2.map (mapIntervalIds f) ++ [mapIntervalIds f iv])
          else (f p.1, p.2.map (mapIntervalIds f))) ::
          appendInterval (mapOccIds f rest) (f b) (mapIntervalIds f iv) =
        (fun q : Id × List Interval => (f q.1, q.2.map (mapIntervalIds f)))
            (if p.1 = b then (p.1, p.2 ++ [iv]) else p) ::
          mapOccIds f (appendInterval rest b iv)
      rw [if_pos (congrArg f h), if_pos h, ih]
      simp [List.map_append]
    · show (if f p.1 = f b then
            (f p.1, p.2.map (mapIntervalIds f) ++ [mapIntervalIds f iv])
          else (f p.1, p.2.map (mapIntervalIds f))) ::
          appendInterval (mapOccIds f rest) (f b) (mapIntervalIds f iv) =
        (fun q : Id × List Interval => (f q.1, q.2.map (mapIntervalIds f)))
            (if p.1 = b then (p.1, p.2 ++ [iv]) else p) ::
          mapOccIds f (appendInterval rest b iv)
      rw [if_neg (fun hh => h (hf hh)), if_neg h, ih]

theorem occupiedBeds_map (f : Nat → Nat) (now current : Int)
    (occ : List (Id × List Interval)) :
    occupiedBeds now current (mapOccIds f occ) = occupiedBeds now current occ := by
  unfold occupiedBeds mapOccIds
  rw [List.filter_map, List.length_map]
  refine congrArg List.length (List.filter_congr ?_)
  intro p hp
  show ((p.2.map (mapIntervalIds f)).any fun iv => intervalCovers now current iv) =
    (p.2.any fun iv => intervalCovers now current iv)
  rw [List.any_map]
  rfl

theorem lookup_mapKeys (f : Nat → Nat) (hf : Function.Injective f) (h : Id) :
    ∀ m : List (Id × Nat),
      (m.map (fun p => (f p.1, p.2))).lookup (f h) = m.lookup h := by
  intro m
  induction m with
  | nil => rfl
  | cons p rest ih =>
    show List.lookup (f h) ((f p.1, p.2) :: rest.map (fun p => (f p.1, p.2))) = _
    by_cases he : h = p.1
    · subst he
      simp [List.lookup]
    · simp only [List.lookup]
      rw [beq_eq_false_iff_ne.mpr (fun hh => he (hf hh)),
        beq_eq_false_iff_ne.mpr he]
      exact ih

theorem setAssoc_mapKeys (f : Nat → Nat) (hf : Function.Injective f)
    (h : Id) (v : Nat) :
    ∀ m : List (Id × Nat),
      setAssoc (m.map (fun p => (f p.1, p.2))) (f h) v =
        (setAssoc m h v).map (fun p => (f p.1, p.2)) := by
  intro m
  induction m with
  | nil => rfl
  | cons p rest ih =>
    obtain ⟨a, b⟩ := p
    show (if f a = f h then (f h, v) :: rest.map (fun p => (f p.1, p.2))
        else (f a, b) :: setAssoc (rest.map (fun p => (f p.1, p.2))) (f h) v) =
      ((if a = h then (h, v) :: rest else (a, b) :: setAssoc rest h v).map
        (fun p => (f p.1, p.2)))
    by_cases he : a = h
    · rw [if_pos (congrArg f he), if_pos he]
      rfl
    · rw [if_neg (fun hh => he (hf hh)), if_neg he]
      simp only [List.map_cons]
      rw [ih]

theorem activeClientIds_map (f : Nat → Nat) (clients : List Client)
    (current : Int) :
    activeClientIds (clients.map (mapClientIds f)) current =
      (activeClientIds clients current).map f := by
  unfold activeClientIds
  rw [List.filter_map, List.map_map, List.map_map]
  rfl

theorem clientGenerate_map (f : Nat → Nat) (g : Rand) (k : Nat)
    (uid homeId bedId : Id) (adm : Int) (cg : Id) (disch : Bool)
    (dd : Option Int) :
    clientGenerate g k (f uid) (f homeId) (f bedId) adm (f cg) disch dd =
      mapClientIds f (clientGenerate g k uid homeId bedId adm cg disch dd) := by
  cases disch <;> cases dd <;> rfl

theorem generatePhotos_map (f : Nat → Nat) (g u : Rand) (k uk : Nat)
    (incidentId homeId uploaderId : Id) (occurredAt : Int) :
    generatePhotos g (fun j => f (u j)) k uk (f incidentId) (f homeId)
        (f uploaderId) occurredAt =
      (generatePhotos g u k uk incidentId homeId uploaderId occurredAt).map
        (mapPhotoIds f) := by
  unfold generatePhotos
  rw [List.map_map]
  rfl

theorem lookupCount_mapKeys (f : Nat → Nat) (hf : Function.Injective f)
    (m : List (Id × Nat)) (h : Id) :
    lookupCount (m.map (fun p => (f p.1, p.2))) (f h) = lookupCount m h := by
  unfold lookupCount
  rw [lookup_mapKeys f hf h m]

theorem incidentGenerate_map (f : Nat → Nat) (hf : Function.Injective f)
    (st : IncidentGenState) (g u : Rand) (k uk : Nat) (homeId : Id)
    (clientId : Option Id) (reporterId : Id) (occurredAt : Int)
    (homeSequence : Option Nat) (adminUserIds : List Id) :
    incidentGenerate (mapIncStateIds f st) g (fun j => f (u j)) k uk (f homeId)
        (clientId.map f) (f reporterId) occurredAt homeSequence
        (adminUserIds.map f) =
      (mapIncidentIds f (incidentGenerate st g u k uk homeId clientId
          reporterId occurredAt homeSequence adminUserIds).1,
       mapIncStateIds f (incidentGenerate st g u k uk homeId clientId
          reporterId occurredAt homeSequence adminUserIds).2.1,
       (incidentGenerate st g u k uk homeId clientId reporterId occurredAt
          homeSequence adminUserIds).2.2.1,
       (incidentGenerate st g u k uk homeId clientId reporterId occurredAt
          homeSequence adminUserIds).2.2.2) := by
  obtain ⟨stat, hstat⟩ :
      ∃ x, weightedChoice INCIDENT_STATUS_WEIGHTS "Closed" g (k + 3) = x :=
    ⟨_, rfl⟩
  simp only [incidentGenerate, mapIncStateIds, mapIncidentIds, hstat,
    lookupCount_mapKeys f hf, lookup_mapKeys f hf, setAssoc_mapKeys f hf,
    generatePhotos_map, isEmpty_map, choiceD_map_mapped, List.length_map]
  by_cases hD : stat ≠ "Draft"
  · by_cases hC : stat = "Closed"
    · cases homeSequence <;>
        by_cases hA : adminUserIds = [] <;>
        by_cases hS : (List.lookup homeId st.homeSequenceMap).isSome = true <;>
        simp [hD, hC, hA, hS, mapIncStateIds, lookup_mapKeys f hf,
          setAssoc_mapKeys f hf]
    · cases homeSequence <;>
        by_cases hS : (List.lookup homeId st.homeSequenceMap).isSome = true <;>
        simp [hD, hC, hS, mapIncStateIds, lookup_mapKeys f hf,
          setAssoc_mapKeys f hf]
  · have hC : ¬ stat = "Closed" := by
      rw [not_not.mp hD]
      decide
    cases homeSequence <;>
      by_cases hS : (List.lookup homeId st.homeSequenceMap).isSome = true <;>
      simp [hD, hC, hS, mapIncStateIds, lookup_mapKeys f hf,
        setAssoc_mapKeys f hf]

theorem dischargeClient_map (f : Nat → Nat) (hf : Function.Injective f)
    (g : Rand) (k : Nat) (current : Int) (cid : Id) :
    ∀ cs : List Client,
      dischargeClient g k current (f cid) (cs.map (mapClientIds f)) =
        (dischargeClient g k current cid cs).map (mapClientIds f) := by
  intro cs
  induction cs with
  | nil => rfl
  | cons c rest ih =>
    simp only [dischargeClient, List.map_cons]
    by_cases h : c.id = cid
    · rw [if_pos (show (mapClientIds f c).id = f cid from congrArg f h),
        if_pos h]
      rfl
    · rw [if_neg (show ¬ (mapClientIds f c).id = f cid from
        fun hh => h (hf hh)), if_neg h, ih]
      rfl

theorem hazardBed_map (f : Nat → Nat) (hf : Function.Injective f) (g : Rand)
    (current : Int) :
    ∀ (ivs : List Interval) (cs : List Client) (k : Nat),
      hazardBed g current (ivs.map (mapIntervalIds f))
          (cs.map (mapClientIds f)) k =
        ((hazardBed g current ivs cs k).1.map (mapIntervalIds f),
         (hazardBed g current ivs cs k).2.1.map (mapClientIds f),
         (hazardBed g current ivs cs k).2.2) := by
  intro ivs
  induction ivs with
  | nil => intro cs k; rfl
  | cons iv rest ih =>
    intro cs k
    simp only [hazardBed, List.map_cons, mapIntervalIds]
    by_cases hcond : iv.stop = none ∧ (current - iv.start) / dayLen > 180
    · rw [if_pos hcond, if_pos hcond]
      by_cases hcoin : randBool g k = true
      · rw [if_pos hcoin, if_pos hcoin,
          dischargeClient_map f hf g (k + 1) current iv.clientId cs, ih]
        rfl
      · rw [if_neg hcoin, if_neg hcoin, ih]
        rfl
    · rw [if_neg hcond, if_neg hcond, ih]
      rfl

theorem hazardBeds_map (f : Nat → Nat) (hf : Function.Injective f) (g : Rand)
    (current : Int) :
    ∀ (occ : List (Id × List Interval)) (cs : List Client) (k : Nat),
      hazardBeds g current (mapOccIds f occ) (cs.map (mapClientIds f)) k =
        (mapOccIds f (hazardBeds g current occ cs k).1,
         (hazardBeds g current occ cs k).2.1.map (mapClientIds f),
         (hazardBeds g current occ cs k).2.2) := by
  intro occ
  induction occ with
  | nil => intro cs k; rfl
  | cons p rest ih =>
    obtain ⟨b, ivs⟩ := p
    intro cs k
    show hazardBeds g current
        ((f b, ivs.map (mapIntervalIds f)) :: mapOccIds f rest)
        (cs.map (mapClientIds f)) k = _
    simp only [hazardBeds]
    simp only [hazardBed_map f hf g current, ih]
    rfl

theorem admitInitialClients_map (f : Nat → Nat) (hf : Function.Injective f)
    (now : Int) (g u : Rand) (homeId : Id) (caregivers : List Id)
    (homeOpen : Int) (hcg : caregivers ≠ []) :
    ∀ (n : Nat) (cs : List Client) (occ : List (Id × List Interval)) (k uk : Nat),
      admitInitialClients now g (fun j => f (u j)) (f homeId)
          (caregivers.map f) homeOpen n
          ⟨cs.map (mapClientIds f), mapOccIds f occ, k, uk⟩ =
        mapPhase3State f (admitInitialClients now g u homeId caregivers
          homeOpen n ⟨cs, occ, k, uk⟩) := by
  intro n
  induction n with
  | zero => intro cs occ k uk; rfl
  | succ n ih =>
    intro cs occ k uk
    simp only [admitInitialClients]
    rw [findAvailableBed_map f now occ (homeOpen + randInt g k 0 30 * dayLen)]
    rcases hfb : findAvailableBed now occ (homeOpen + randInt g k 0 30 * dayLen)
      with _ | bedId
    · exact ih cs occ (k + 1) uk
    · simp only [Option.map_some']
      have hstate :
          (⟨cs.map (mapClientIds f) ++ [clientGenerate g (k + 2) (f (u uk))
              (f homeId) (f bedId) (homeOpen + randInt g k 0 30 * dayLen)
              (choiceD (caregivers.map f) 0 g (k + 1)) false none],
            appendInterval (mapOccIds f occ) (f bedId)
              ⟨homeOpen + randInt g k 0 30 * dayLen, none, f (u uk)⟩,
            k + 3, uk + 1⟩ : Phase3State) =
          ⟨(cs ++ [clientGenerate g (k + 2) (u uk) homeId bedId
              (homeOpen + randInt g k 0 30 * dayLen)
              (choiceD caregivers 0 g (k + 1)) false none]).map (mapClientIds f),
            mapOccIds f (appendInterval occ bedId
              ⟨homeOpen + randInt g k 0 30 * dayLen, none, u uk⟩),
            k + 3, uk + 1⟩ := by
        rw [choiceD_map f caregivers 0 0 g (k + 1) hcg,
          clientGenerate_map, List.map_append,
          show (⟨homeOpen + randInt g k 0 30 * dayLen, none,
              f (u uk)⟩ : Interval) =
            mapIntervalIds f ⟨homeOpen + randInt g k 0 30 * dayLen, none, u uk⟩
            from rfl,
          appendInterval_map f hf bedId _ occ]
        rfl
      rw [hstate]
      exact ih (cs ++ [clientGenerate g (k + 2) (u uk) homeId bedId
          (homeOpen + randInt g k 0 30 * dayLen)
          (choiceD caregivers 0 g (k + 1)) false none])
        (appendInterval occ bedId
          ⟨homeOpen + randInt g k 0 30 * dayLen, none, u uk⟩)
        (k + 3) (uk + 1)

theorem gradualAdmit_map (f : Nat → Nat) (hf : Function.Injective f)
    (now : Int) (g u : Rand) (homeId : Id) (caregivers : List Id)
    (current : Int) (hcg : caregivers ≠ []) (cs : List Client)
    (occ : List (Id × List Interval)) (k uk : Nat) :
    gradualAdmit now g (fun j => f (u j)) (f homeId) (caregivers.map f)
        current ⟨cs.map (mapClientIds f), mapOccIds f occ, k, uk⟩ =
      mapPhase3State f (gradualAdmit now g u homeId caregivers current
        ⟨cs, occ, k, uk⟩) := by
  have hlen : (mapOccIds f occ).length = occ.length := List.length_map ..
  simp only [gradualAdmit]
  rw [occupiedBeds_map f now current occ, hlen]
  by_cases h1 : occupiedBeds now current occ < occ.length
  · rw [if_pos h1, if_pos h1]
    by_cases h2 : randBool g k = true
    · rw [if_pos h2, if_pos h2]
      rw [findAvailableBed_map f now occ current]
      rcases hfb : findAvailableBed now occ current with _ | bedId
      · rfl
      · simp only [Option.map_some']
        rw [choiceD_map f caregivers 0 0 g (k + 2) hcg, clientGenerate_map,
          show (⟨current,
              if (decide (current + randInt g (k + 3) 60 700 * dayLen <
                    endDate now) && randBool g (k + 4)) = true then
                some (current + randInt g (k + 3) 60 700 * dayLen)
              else none, f (u uk)⟩ : Interval) =
            mapIntervalIds f ⟨current,
              if (decide (current + randInt g (k + 3) 60 700 * dayLen <
                    endDate now) && randBool g (k + 4)) = true then
                some (current + randInt g (k + 3) 60 700 * dayLen)
              else none, u uk⟩ from rfl,
          appendInterval_map f hf bedId _ occ]
        simp [mapPhase3State, List.map_append]
    · rw [if_neg h2, if_neg h2]; rfl
  · rw [if_neg h1, if_neg h1]; rfl

theorem phase3Loop_map (f : Nat → Nat) (hf : Function.Injective f)
    (now : Int) (g u : Rand) (homeId : Id) (caregivers : List Id)
    (hcg : caregivers ≠ []) :
    ∀ (fuel : Nat) (current : Int) (cs : List Client)
        (occ : List (Id × List Interval)) (k uk : Nat),
      phase3Loop now g (fun j => f (u j)) (f homeId) (caregivers.map f) fuel
          current ⟨cs.map (mapClientIds f), mapOccIds f occ, k, uk⟩ =
        mapPhase3State f (phase3Loop now g u homeId caregivers fuel current
          ⟨cs, occ, k, uk⟩) := by
  intro fuel
  induction fuel with
  | zero => intro current cs occ k uk; rfl
  | succ fuel ih =>
    intro current cs occ k uk
    simp only [phase3Loop]
    by_cases hlt : current < endDate now
    · rw [if_pos hlt, if_pos hlt]
      rw [gradualAdmit_map f hf now g u homeId caregivers current hcg cs occ k uk]
      simp only [mapPhase3State]
      rw [hazardBeds_map f hf g current
        (gradualAdmit now g u homeId caregivers current ⟨cs, occ, k, uk⟩).bedOccupancy
        (gradualAdmit now g u homeId caregivers current ⟨cs, occ, k, uk⟩).clients
        (gradualAdmit now g u homeId caregivers current ⟨cs, occ, k, uk⟩).k]
      exact ih _
        (hazardBeds g current
          (gradualAdmit now g u homeId caregivers current ⟨cs, occ, k, uk⟩).bedOccupancy
          (gradualAdmit now g u homeId caregivers current ⟨cs, occ, k, uk⟩).clients
          (gradualAdmit now g u homeId caregivers current ⟨cs, occ, k, uk⟩).k).2.1
        (hazardBeds g current
          (gradualAdmit now g u homeId caregivers current ⟨cs, occ, k, uk⟩).bedOccupancy
          (gradualAdmit now g u homeId caregivers current ⟨cs, occ, k, uk⟩).clients
          (gradualAdmit now g u homeId caregivers current ⟨cs, occ, k, uk⟩).k).1
        ((hazardBeds g current
          (gradualAdmit now g u homeId caregivers current ⟨cs, occ, k, uk⟩).bedOccupancy
          (gradualAdmit now g u homeId caregivers current ⟨cs, occ, k, uk⟩).clients
          (gradualAdmit now g u homeId caregivers current ⟨cs, occ, k, uk⟩).k).2.2 + 1)
        (gradualAdmit now g u homeId caregivers current ⟨cs, occ, k, uk⟩).uk
    · rw [if_neg hlt, if_neg hlt]; rfl

theorem phase3Home_map (f : Nat → Nat) (hf : Function.Injective f)
    (now : Int) (g u : Rand) (homeId : Id) (beds : List Id)
    (caregivers : List Id) (homeOpen : Int) (fuel k uk : Nat)
    (hcg : caregivers ≠ []) :
    phase3Home now g (fun j => f (u j)) (f homeId) (beds.map f)
        (caregivers.map f) homeOpen fuel k uk =
      mapPhase3State f (phase3Home now g u homeId beds caregivers homeOpen
        fuel k uk) := by
  simp only [phase3Home]
  have h0 : (beds.map f).map (fun b => (b, ([] : List Interval))) =
      mapOccIds f (beds.map (fun b => (b, ([] : List Interval)))) := by
    unfold mapOccIds
    rw [List.map_map, List.map_map]
    rfl
  rw [h0]
  have hA : admitInitialClients now g (fun j => f (u j)) (f homeId)
      (caregivers.map f) homeOpen (randNat g k 1 2)
      ⟨[], mapOccIds f (beds.map (fun b => (b, ([] : List Interval)))),
        k + 1, uk⟩ =
      mapPhase3State f (admitInitialClients now g u homeId caregivers homeOpen
        (randNat g k 1 2)
        ⟨[], beds.map (fun b => (b, ([] : List Interval))), k + 1, uk⟩) :=
    admitInitialClients_map f hf now g u homeId caregivers homeOpen hcg
      (randNat g k 1 2) [] (beds.map (fun b => (b, []))) (k + 1) uk
  rw [hA]
  exact phase3Loop_map f hf now g u homeId caregivers hcg fuel
    (homeOpen + 45 * dayLen)
    (admitInitialClients now g u homeId caregivers homeOpen (randNat g k 1 2)
      ⟨[], beds.map (fun b => (b, ([] : List Interval))), k + 1, uk⟩).clients
    (admitInitialClients now g u homeId caregivers homeOpen (randNat g k 1 2)
      ⟨[], beds.map (fun b => (b, ([] : List Interval))), k + 1, uk⟩).bedOccupancy
    (admitInitialClients now g u homeId caregivers homeOpen (randNat g k 1 2)
      ⟨[], beds.map (fun b => (b, ([] : List Interval))), k + 1, uk⟩).k
    (admitInitialClients now g u homeId caregivers homeOpen (randNat g k 1 2)
      ⟨[], beds.map (fun b => (b, ([] : List Interval))), k + 1, uk⟩).uk

theorem activityGenerate_map (f : Nat → Nat) (g u : Rand) (k uk : Nat)
    (homeId caregiverId : Id) (activityDate : Int) (clientIds : List Id)
    (hcl : clientIds ≠ []) :
    activityGenerate g (fun j => f (u j)) k uk (f homeId) (f caregiverId)
        activityDate (clientIds.map f) =
      (mapActivityIds f (activityGenerate g u k uk homeId caregiverId
          activityDate clientIds).1,
       (activityGenerate g u k uk homeId caregiverId activityDate
          clientIds).2.1,
       (activityGenerate g u k uk homeId caregiverId activityDate
          clientIds).2.2) := by
  simp only [activityGenerate]
  by_cases hgrp : (choiceD ACTIVITIES ⟨"Bingo Night", "Recreational", true⟩
      g k).group = true
  · rw [if_pos hgrp, if_pos hgrp, List.length_map, randSample_map]
    simp [mapActivityIds, mapParticipationIds, List.enum_map, List.map_map,
      Prod.map]
  · rw [if_neg hgrp, if_neg hgrp, choiceD_map f clientIds 0 0 g (k + 1) hcl]
    simp [mapActivityIds, mapParticipationIds, List.enum_map, List.map_map,
      Prod.map]

theorem phase5Activities_map (f : Nat → Nat) (now : Int) (g u : Rand)
    (homeId : Id) (caregivers : List Id) (active : List Id) (current : Int)
    (hcg : caregivers ≠ []) (hac : active ≠ []) :
    ∀ (j k uk : Nat),
      phase5Activities now g (fun j2 => f (u j2)) (f homeId)
          (caregivers.map f) (active.map f) current j k uk =
        ((phase5Activities now g u homeId caregivers active current
            j k uk).1.map (mapActivityIds f),
         (phase5Activities now g u homeId caregivers active current
            j k uk).2.1,
         (phase5Activities now g u homeId caregivers active current
            j k uk).2.2) := by
  intro j
  induction j with
  | zero => intro k uk; rfl
  | succ j ih =>
    intro k uk
    simp only [phase5Activities]
    by_cases hd : current + randInt g k 0 6 * dayLen < endDate now
    · rw [if_pos hd, if_pos hd,
        choiceD_map f caregivers 0 0 g (k + 1) hcg,
        activityGenerate_map f g u (k + 2) uk homeId
          (choiceD caregivers 0 g (k + 1))
          (current + randInt g k 0 6 * dayLen) active hac]
      obtain ⟨A1, Ak, Auk, hA⟩ : ∃ x y z,
          activityGenerate g u (k + 2) uk homeId
            (choiceD caregivers 0 g (k + 1))
            (current + randInt g k 0 6 * dayLen) active = (x, y, z) :=
        ⟨_, _, _, rfl⟩
      simp only [hA]
      rw [ih Ak Auk]
      rfl
    · rw [if_neg hd, if_neg hd]
      exact ih (k + 1) uk

theorem phase5Week_map (f : Nat → Nat) (now : Int) (g u : Rand) (homeId : Id)
    (caregivers : List Id) (clients : List Client) (current : Int) (k uk : Nat)
    (hcg : caregivers ≠ []) :
    phase5Week now g (fun j => f (u j)) (f homeId) (caregivers.map f)
        (clients.map (mapClientIds f)) current k uk =
      ((phase5Week now g u homeId caregivers clients current k uk).1.map
          (mapActivityIds f),
       (phase5Week now g u homeId caregivers clients current k uk).2.1,
       (phase5Week now g u homeId caregivers clients current k uk).2.2) := by
  simp only [phase5Week]
  rw [activeClientIds_map, isEmpty_map]
  by_cases he : (activeClientIds clients current).isEmpty = true
  · rw [if_pos he, if_pos he]; rfl
  · rw [if_neg he, if_neg he]
    have hac : activeClientIds clients current ≠ [] := by
      intro hnil
      rw [hnil] at he
      exact he rfl
    exact phase5Activities_map f now g u homeId caregivers
      (activeClientIds clients current) current hcg hac
      (randNat g k 2 5) (k + 1) uk

theorem phase5Home_map (f : Nat → Nat) (now : Int) (g u : Rand) (homeId : Id)
    (caregivers : List Id) (clients : List Client) (hcg : caregivers ≠ []) :
    ∀ (fuel : Nat) (current : Int) (k uk : Nat),
      phase5Home now g (fun j => f (u j)) (f homeId) (caregivers.map f)
          (clients.map (mapClientIds f)) fuel current k uk =
        ((phase5Home now g u homeId caregivers clients fuel current
            k uk).1.map (mapActivityIds f),
         (phase5Home now g u homeId caregivers clients fuel current k uk).2.1,
         (phase5Home now g u homeId caregivers clients fuel current
            k uk).2.2) := by
  intro fuel
  induction fuel with
  | zero => intro current k uk; rfl
  | succ fuel ih =>
    intro current k uk
    simp only [phase5Home]
    by_cases hlt : current < endDate now
    · rw [if_pos hlt, if_pos hlt,
        phase5Week_map f now g u homeId caregivers clients current k uk hcg]
      obtain ⟨W1, Wk, Wuk, hW⟩ : ∃ x y z,
          phase5Week now g u homeId caregivers clients current k uk =
            (x, y, z) := ⟨_, _, _, rfl⟩
      simp only [hW]
      rw [ih (current + 7 * dayLen) Wk Wuk]
      simp [List.map_append]
    · rw [if_neg hlt, if_neg hlt]; rfl

theorem phase6Home_map (f : Nat → Nat) (hf : Function.Injective f)
    (now : Int) (g u : Rand) (homeId : Id) (caregivers : List Id)
    (clients : List Client) (homeSequence : Nat) (adminUserIds : List Id)
    (hcg : caregivers ≠ []) :
    ∀ (fuel : Nat) (current : Int) (st : IncidentGenState) (k uk : Nat),
      phase6Home now g (fun j => f (u j)) (f homeId) (caregivers.map f)
          (clients.map (mapClientIds f)) homeSequence (adminUserIds.map f)
          fuel current (mapIncStateIds f st) k uk =
        ((phase6Home now g u homeId caregivers clients homeSequence
            adminUserIds fuel current st k uk).1.map (mapIncidentIds f),
         mapIncStateIds f (phase6Home now g u homeId caregivers clients
            homeSequence adminUserIds fuel current st k uk).2.1,
         (phase6Home now g u homeId caregivers clients homeSequence
            adminUserIds fuel current st k uk).2.2.1,
         (phase6Home now g u homeId caregivers clients homeSequence
            adminUserIds fuel current st k uk).2.2.2) := by
  intro fuel
  induction fuel with
  | zero => intro current st k uk; rfl
  | succ fuel ih =>
    intro current st k uk
    simp only [phase6Home]
    by_cases hlt : current < endDate now
    case neg => rw [if_neg hlt, if_neg hlt]; rfl
    rw [if_pos hlt, if_pos hlt]
    rw [activeClientIds_map, isEmpty_map]
    by_cases hcond :
        (!(activeClientIds clients current).isEmpty && randBool g k) = true
    · rw [if_pos hcond, if_pos hcond]
      have hne : activeClientIds clients current ≠ [] := by
        intro hnil
        rw [hnil] at hcond
        simp at hcond
      rw [choiceD_map f (activeClientIds clients current) 0 0 g (k + 2) hne,
        choiceD_map f caregivers 0 0 g (k + 3) hcg]
      have hopt : (if randBool g (k + 1) = true then
            some (f (choiceD (activeClientIds clients current) 0 g (k + 2)))
          else none) =
          (if randBool g (k + 1) = true then
            some (choiceD (activeClientIds clients current) 0 g (k + 2))
          else none).map f := by
        cases randBool g (k + 1) <;> rfl
      rw [hopt,
        incidentGenerate_map f hf st g u (k + 4) uk homeId _ _ current
          (some homeSequence) adminUserIds]
      obtain ⟨I1, Ist, Ik, Iuk, hI⟩ : ∃ w x y z,
          incidentGenerate st g u (k + 4) uk homeId
            (if randBool g (k + 1) = true then
              some (choiceD (activeClientIds clients current) 0 g (k + 2))
            else none)
            (choiceD caregivers 0 g (k + 3)) current (some homeSequence)
            adminUserIds = (w, x, y, z) := ⟨_, _, _, _, rfl⟩
      simp only [hI]
      rw [ih (current + randInt g Ik 10 30 * dayLen) Ist (Ik + 1) Iuk]
      rfl
    · rw [if_neg hcond, if_neg hcond]
      exact ih _ st _ uk

theorem appointmentGenerate_map (f : Nat → Nat) (g u : Rand) (k uk : Nat)
    (clientId homeId createdById : Id) (scheduledAt : Int) (isPast : Bool) :
    appointmentGenerate g (fun j => f (u j)) k uk (f clientId) (f homeId)
        (f createdById) scheduledAt isPast =
      (mapAppointmentIds f (appointmentGenerate g u k uk clientId homeId
          createdById scheduledAt isPast).1,
       (appointmentGenerate g u k uk clientId homeId createdById scheduledAt
          isPast).2.1,
       (appointmentGenerate g u k uk clientId homeId createdById scheduledAt
          isPast).2.2) := by
  simp only [appointmentGenerate]
  cases isPast
  · simp [mapAppointmentIds]
  · obtain ⟨stat, hstat⟩ :
        ∃ x, weightedChoice APPOINTMENT_STATUSES "Completed" g (k + 9) = x :=
      ⟨_, rfl⟩
    simp only [hstat]
    by_cases hC : stat = "Completed"
    · simp [hC, mapAppointmentIds]
    · by_cases hR : stat = "Cancelled" ∨ stat = "NoShow" ∨ stat = "Rescheduled"
      · simp [hC, hR, mapAppointmentIds]
      · simp [hC, hR, mapAppointmentIds]

theorem upcomingForClient_map (f : Nat → Nat) (now : Int) (g u : Rand)
    (caregivers : List Id) (c : Client) (hcg : caregivers ≠ []) :
    ∀ (n k uk : Nat),
      upcomingForClient now g (fun j => f (u j)) (caregivers.map f)
          (mapClientIds f c) n k uk =
        ((upcomingForClient now g u caregivers c n k uk).1.map
            (mapAppointmentIds f),
         (upcomingForClient now g u caregivers c n k uk).2.1,
         (upcomingForClient now g u caregivers c n k uk).2.2) := by
  intro n
  induction n with
  | zero => intro k uk; rfl
  | succ n ih =>
    intro k uk
    simp only [upcomingForClient]
    have hid : (mapClientIds f c).id = f c.id := rfl
    have hhid : (mapClientIds f c).homeId = f c.homeId := rfl
    obtain ⟨m, hm⟩ : ∃ x : Nat,
        choiceD ([0, 15, 30, 45] : List Nat) 0 g (k + 3) = x := ⟨_, rfl⟩
    rw [hid, hhid, hm, choiceD_map f caregivers 0 0 g k hcg,
      appointmentGenerate_map f g u (k + 4) uk c.id c.homeId
        (choiceD caregivers 0 g k)
        (dateFloor (now + randInt g (k + 1) 1 30 * dayLen) +
          randInt g (k + 2) 8 17 * hourLen + (m : Int)) false]
    obtain ⟨A1, Ak, Auk, hA⟩ : ∃ x y z,
        appointmentGenerate g u (k + 4) uk c.id c.homeId
          (choiceD caregivers 0 g k)
          (dateFloor (now + randInt g (k + 1) 1 30 * dayLen) +
            randInt g (k + 2) 8 17 * hourLen + (m : Int)) false =
          (x, y, z) := ⟨_, _, _, rfl⟩
    simp only [hA]
    rw [ih Ak Auk]
    rfl

theorem upcomingAppointments_map (f : Nat → Nat) (now : Int) (g u : Rand)
    (caregivers : List Id) (hcg : caregivers ≠ []) :
    ∀ (clients : List Client) (k uk : Nat),
      upcomingAppointments now g (fun j => f (u j)) (caregivers.map f)
          (clients.map (mapClientIds f)) k uk =
        ((upcomingAppointments now g u caregivers clients k uk).1.map
            (mapAppointmentIds f),
         (upcomingAppointments now g u caregivers clients k uk).2.1,
         (upcomingAppointments now g u caregivers clients k uk).2.2) := by
  intro clients
  induction clients with
  | nil => intro k uk; rfl
  | cons c rest ih =>
    intro k uk
    simp only [upcomingAppointments, List.map_cons]
    by_cases ha : c.isActive = true
    · rw [if_pos (show (mapClientIds f c).isActive = true from ha),
        if_pos ha,
        upcomingForClient_map f now g u caregivers c hcg (randNat g k 0 2)
          (k + 1) uk]
      obtain ⟨U1, Uk, Uuk, hU⟩ : ∃ x y z,
          upcomingForClient now g u caregivers c (randNat g k 0 2) (k + 1)
            uk = (x, y, z) := ⟨_, _, _, rfl⟩
      simp only [hU]
      rw [ih Uk Uuk]
      simp [List.map_append]
    · rw [if_neg (show ¬ (mapClientIds f c).isActive = true from ha),
        if_neg ha]
      exact ih k uk

/-! ## C2: horizon bounds of the generated timestamps -/

theorem randInt_nonneg (g : Rand) (k a b : Nat) : 0 ≤ randInt g k a b :=
  Int.ofNat_nonneg _

theorem randIntNeg_bounds (g : Rand) (k : Nat) (a b : Int) (h : a ≤ b) :
    a ≤ randIntNeg g k a b ∧ randIntNeg g k a b ≤ b := by
  unfold randIntNeg
  have hm : g k % (b - a + 1).toNat < (b - a + 1).toNat :=
    Nat.mod_lt _ (by omega)
  omega

theorem dateFloor_le (t : Int) : dateFloor t ≤ t := by
  simp only [dateFloor, dayLen]
  omega

theorem dateFloor_gt (t : Int) : t - dayLen < dateFloor t := by
  simp only [dateFloor, dayLen]
  omega

theorem dateFloor_idem (t : Int) : dateFloor (dateFloor t) = dateFloor t := by
  simp only [dateFloor, dayLen]
  omega

theorem dateFloor_add_days (t n : Int) (h : dateFloor t = t) :
    dateFloor (t + n * dayLen) = t + n * dayLen := by
  simp only [dateFloor, dayLen] at h ⊢
  omega

theorem dateFloor_add_small (t x : Int) (h : dateFloor t = t) (h0 : 0 ≤ x)
    (h1 : x < dayLen) : dateFloor (t + x) = t := by
  simp only [dateFloor, dayLen] at h h1 ⊢
  omega

theorem workingHourTime_bounds (g : Rand) (k : Nat) (t : Int) :
    dateFloor t + 6 * hourLen ≤ workingHourTime g k t ∧
    workingHourTime g k t < dateFloor t + dayLen := by
  unfold workingHourTime
  have h1 := randInt_bounds g k 6 22 (by omega)
  have h2 := randInt_bounds g (k + 1) 0 59 (by omega)
  obtain ⟨a2, ha, hae⟩ : ∃ x, (6 ≤ x ∧ x ≤ 22) ∧ randInt g k 6 22 = x :=
    ⟨_, h1, rfl⟩
  obtain ⟨b2, hb, hbe⟩ : ∃ x, (0 ≤ x ∧ x ≤ 59) ∧ randInt g (k + 1) 0 59 = x :=
    ⟨_, h2, rfl⟩
  rw [hae, hbe]
  simp only [hourLen, dayLen]
  omega

theorem workingHourTime_floor (g : Rand) (k : Nat) (t : Int) :
    dateFloor (workingHourTime g k t) = dateFloor t := by
  have hb := workingHourTime_bounds g k t
  have h6 : (0 : Int) ≤ workingHourTime g k t - dateFloor t := by
    have := hb.1
    simp only [hourLen] at this
    omega
  have h7 : workingHourTime g k t - dateFloor t < dayLen := by
    have := hb.2
    omega
  have hx : workingHourTime g k t =
      dateFloor t + (workingHourTime g k t - dateFloor t) := by ring
  rw [hx, dateFloor_add_small (dateFloor t) _ (dateFloor_idem t) h6 h7]

theorem clientGenerate_fixed (g : Rand) (k : Nat) (uid homeId bedId : Id)
    (adm : Int) (cg : Id) (disch : Bool) (dd : Option Int) :
    (clientGenerate g k uid homeId bedId adm cg disch dd).homeId = homeId ∧
    (clientGenerate g k uid homeId bedId adm cg disch dd).admissionDate =
      dateFloor adm ∧
    (clientGenerate g k uid homeId bedId adm cg disch dd).createdAt = adm := by
  cases disch <;> cases dd <;> simp [clientGenerate]

theorem admitInitialClients_horizon (now : Int) (g u : Rand) (homeId : Id)
    (caregivers : List Id) (homeOpen : Int)
    (h1 : startDate now + 14 * dayLen ≤ homeOpen)
    (h2 : homeOpen + 30 * dayLen < endDate now) :
    ∀ (n : Nat) (s : Phase3State),
      (∀ c ∈ s.clients, clientInHorizon now homeId c) →
      ∀ c ∈ (admitInitialClients now g u homeId caregivers homeOpen
          n s).clients,
        clientInHorizon now homeId c := by
  intro n
  induction n with
  | zero => intro s hs; exact hs
  | succ n ih =>
    intro s hs
    simp only [admitInitialClients]
    rcases hfb : findAvailableBed now s.bedOccupancy
        (homeOpen + randInt g s.k 0 30 * dayLen) with _ | bedId
    · exact ih _ hs
    · refine ih _ ?_
      intro c hc
      rcases List.mem_append.mp hc with hc | hc
      · exact hs c hc
      · rw [List.mem_singleton] at hc
        subst hc
        have hr := randInt_bounds g s.k 0 30 (by omega)
        obtain ⟨o, ho, hoe⟩ : ∃ x, (0 ≤ x ∧ x ≤ 30) ∧
            randInt g s.k 0 30 = x := ⟨_, hr, rfl⟩
        rw [hoe]
        have hfix := clientGenerate_fixed g (s.k + 2) (u s.uk) homeId bedId
          (homeOpen + o * dayLen) (choiceD caregivers 0 g (s.k + 1)) false none
        refine ⟨hfix.1, ?_, ?_, ?_, ?_, ?_, ?_⟩
        · rw [hfix.2.1]
          have := dateFloor_gt (homeOpen + o * dayLen)
          simp only [dayLen] at *
          omega
        · rw [hfix.2.1]
          have := dateFloor_le (homeOpen + o * dayLen)
          simp only [dayLen] at *
          omega
        · rw [hfix.2.1, hfix.2.2]
          exact dateFloor_le _
        · rw [hfix.2.2]
          simp only [dayLen] at *
          omega
        · rw [hfix.2.1]
          exact (dateFloor_idem _).symm
        · intro d hd
          exact Option.noConfusion hd

theorem gradualAdmit_horizon (now : Int) (g u : Rand) (homeId : Id)
    (caregivers : List Id) (current : Int) (s : Phase3State)
    (hc1 : startDate now + 14 * dayLen ≤ current)
    (hc2 : current < endDate now)
    (hs : ∀ c ∈ s.clients, clientInHorizon now homeId c) :
    ∀ c ∈ (gradualAdmit now g u homeId caregivers current s).clients,
      clientInHorizon now homeId c := by
  unfold gradualAdmit
  by_cases h1 : occupiedBeds now current s.bedOccupancy < s.bedOccupancy.length
  case neg => rw [if_neg h1]; exact hs
  rw [if_pos h1]
  by_cases h2 : randBool g s.k = true
  case neg => rw [if_neg h2]; exact hs
  rw [if_pos h2]
  rcases hfb : findAvailableBed now s.bedOccupancy current with _ | bedId
  · exact hs
  · intro c hc
    rcases List.mem_append.mp hc with hc | hc
    · exact hs c hc
    · rw [List.mem_singleton] at hc
      subst hc
      have hst := randInt_bounds g (s.k + 3) 60 700 (by omega)
      obtain ⟨st2, hstb, hste⟩ : ∃ x, (60 ≤ x ∧ x ≤ 700) ∧
          randInt g (s.k + 3) 60 700 = x := ⟨_, hst, rfl⟩
      rw [hste]
      have hcf := clientGenerate_fields g (s.k + 5) (u s.uk) homeId bedId
        current (choiceD caregivers 0 g (s.k + 2))
        (decide (current + st2 * dayLen < endDate now) && randBool g (s.k + 4))
        (current + st2 * dayLen)
      have hfix := clientGenerate_fixed g (s.k + 5) (u s.uk) homeId bedId
        current (choiceD caregivers 0 g (s.k + 2))
        (decide (current + st2 * dayLen < endDate now) && randBool g (s.k + 4))
        (if (decide (current + st2 * dayLen < endDate now) &&
            randBool g (s.k + 4)) = true
         then some (current + st2 * dayLen) else none)
      refine ⟨hfix.1, ?_, ?_, ?_, ?_, ?_, ?_⟩
      · rw [hfix.2.1]
        have := dateFloor_gt current
        simp only [dayLen] at *
        omega
      · rw [hfix.2.1]
        have := dateFloor_le current
        omega
      · rw [hfix.2.1, hfix.2.2]
        exact dateFloor_le _
      · rw [hfix.2.2]
        exact hc2
      · rw [hfix.2.1]
        exact (dateFloor_idem _).symm
      · intro d hd
        rw [hcf.2.1] at hd
        rcases hB : (decide (current + st2 * dayLen < endDate now) &&
            randBool g (s.k + 4)) with _ | _
        · rw [hB] at hd
          exact Option.noConfusion hd
        · rw [hB] at hd
          have hdd := Option.some.inj hd
          have hlt : current + st2 * dayLen < endDate now := by
            have := (Bool.and_eq_true _ _).mp hB
            exact of_decide_eq_true this.1
          have hle := dateFloor_le (current + st2 * dayLen)
          have hgt := dateFloor_gt (current + st2 * dayLen)
          subst hdd
          constructor
          · simp only [dayLen] at *
            omega
          · omega

theorem dischargeClient_horizon (now : Int) (g : Rand) (k : Nat)
    (current : Int) (cid homeId : Id)
    (hc1 : startDate now + dayLen ≤ current) (hc2 : current < endDate now) :
    ∀ cs, (∀ c ∈ cs, clientInHorizon now homeId c) →
      ∀ c ∈ dischargeClient g k current cid cs,
        clientInHorizon now homeId c := by
  intro cs
  induction cs with
  | nil => intro hs c hc; cases hc
  | cons c0 rest ih =>
    intro hs c hc
    simp only [dischargeClient] at hc
    by_cases he : c0.id = cid
    · rw [if_pos he] at hc
      rcases List.mem_cons.mp hc with rfl | hc
      · have h0 := hs c0 (List.mem_cons_self _ _)
        refine ⟨h0.1, h0.2.1, h0.2.2.1, h0.2.2.2.1, h0.2.2.2.2.1,
          h0.2.2.2.2.2.1, ?_⟩
        intro d hd
        have hdd := Option.some.inj hd
        have hle := dateFloor_le current
        have hgt := dateFloor_gt current
        subst hdd
        constructor
        · simp only [dayLen] at *
          omega
        · omega
      · exact hs c (List.mem_cons_of_mem _ hc)
    · rw [if_neg he] at hc
      rcases List.mem_cons.mp hc with rfl | hc
      · exact hs c (List.mem_cons_self _ _)
      · exact ih (fun x hx => hs x (List.mem_cons_of_mem _ hx)) c hc

theorem hazardBed_horizon (now : Int) (g : Rand) (current : Int)
    (homeId : Id) (hc1 : startDate now + dayLen ≤ current)
    (hc2 : current < endDate now) :
    ∀ (ivs : List Interval) (cs : List Client) (k : Nat),
      (∀ c ∈ cs, clientInHorizon now homeId c) →
      ∀ c ∈ (hazardBed g current ivs cs k).2.1,
        clientInHorizon now homeId c := by
  intro ivs
  induction ivs with
  | nil => intro cs k hs c hc; exact hs c hc
  | cons iv rest ih =>
    intro cs k hs c hc
    simp only [hazardBed] at hc
    split at hc
    · split at hc
      · exact ih _ _ (dischargeClient_horizon now g (k + 1) current
          iv.clientId homeId hc1 hc2 cs hs) c hc
      · exact ih _ _ hs c hc
    · exact ih _ _ hs c hc

theorem hazardBeds_horizon (now : Int) (g : Rand) (current : Int)
    (homeId : Id) (hc1 : startDate now + dayLen ≤ current)
    (hc2 : current < endDate now) :
    ∀ (occ : List (Id × List Interval)) (cs : List Client) (k : Nat),
      (∀ c ∈ cs, clientInHorizon now homeId c) →
      ∀ c ∈ (hazardBeds g current occ cs k).2.1,
        clientInHorizon now homeId c := by
  intro occ
  induction occ with
  | nil => intro cs k hs c hc; exact hs c hc
  | cons p rest ih =>
    intro cs k hs c hc
    obtain ⟨b, ivs⟩ := p
    simp only [hazardBeds] at hc
    exact ih _ _ (hazardBed_horizon now g current homeId hc1 hc2 ivs cs k hs)
      c hc

theorem phase3Loop_horizon (now : Int) (g u : Rand) (homeId : Id)
    (caregivers : List Id) :
    ∀ (fuel : Nat) (current : Int) (s : Phase3State),
      startDate now + 14 * dayLen ≤ current →
      (∀ c ∈ s.clients, clientInHorizon now homeId c) →
      ∀ c ∈ (phase3Loop now g u homeId caregivers fuel current s).clients,
        clientInHorizon now homeId c := by
  intro fuel
  induction fuel with
  | zero => intro current s hcur hs; exact hs
  | succ fuel ih =>
    intro current s hcur hs
    simp only [phase3Loop]
    by_cases hlt : current < endDate now
    · rw [if_pos hlt]
      have hga := gradualAdmit_horizon now g u homeId caregivers current s
        hcur hlt hs
      have hc1 : startDate now + dayLen ≤ current := by
        simp only [dayLen] at *
        omega
      have hhz := hazardBeds_horizon now g current homeId hc1 hlt
        (gradualAdmit now g u homeId caregivers current s).bedOccupancy
        (gradualAdmit now g u homeId caregivers current s).clients
        (gradualAdmit now g u homeId caregivers current s).k hga
      refine ih _ _ ?_ hhz
      have hnn : (0 : Int) ≤ randInt g (hazardBeds g current
          (gradualAdmit now g u homeId caregivers current s).bedOccupancy
          (gradualAdmit now g u homeId caregivers current s).clients
          (gradualAdmit now g u homeId caregivers current s).k).2.2 7 21 *
          dayLen :=
        mul_nonneg (randInt_nonneg _ _ _ _) (by norm_num [dayLen])
      omega
    · rw [if_neg hlt]; exact hs

theorem phase3Home_horizon (now : Int) (g u : Rand) (homeId : Id)
    (beds : List Id) (caregivers : List Id) (homeOpen : Int) (fuel k uk : Nat)
    (h1 : startDate now + 14 * dayLen ≤ homeOpen)
    (h2 : homeOpen + 30 * dayLen < endDate now) :
    ∀ c ∈ (phase3Home now g u homeId beds caregivers homeOpen
        fuel k uk).clients,
      clientInHorizon now homeId c := by
  simp only [phase3Home]
  refine phase3Loop_horizon now g u homeId caregivers fuel
    (homeOpen + 45 * dayLen) _ ?_ ?_
  · simp only [dayLen] at *
    omega
  · exact admitInitialClients_horizon now g u homeId caregivers homeOpen h1 h2
      (randNat g k 1 2) _ (fun c hc => nomatch hc)

theorem phase3All_horizon (now : Int) (g u : Rand)
    (pools : List (Id × List Id)) :
    ∀ (hbs : List (Home × List Bed)) (k uk : Nat),
      (∀ hb ∈ hbs, startDate now + 14 * dayLen ≤ hb.1.createdAt ∧
        hb.1.createdAt + 30 * dayLen < endDate now) →
      ∀ p ∈ (phase3All now g u pools hbs k uk).1, ∀ c ∈ p.2,
        clientInHorizon now p.1 c := by
  intro hbs
  induction hbs with
  | nil => intro k uk hh p hp; cases hp
  | cons hb rest ih =>
    intro k uk hh p hp
    simp only [phase3All] at hp
    rcases List.mem_cons.mp hp with rfl | hp
    · intro c hc
      exact phase3Home_horizon now g u hb.1.id (hb.2.map Bed.id)
        ((pools.lookup hb.1.id).getD []) hb.1.createdAt runFuel k uk
        (hh hb (List.mem_cons_self _ _)).1
        (hh hb (List.mem_cons_self _ _)).2 c hc
    · exact ih _ _ (fun x hx => hh x (List.mem_cons_of_mem _ hx)) p hp

theorem phase3All_horizon_flat (now : Int) (g u : Rand)
    (pools : List (Id × List Id)) (hbs : List (Home × List Bed)) (k uk : Nat)
    (hh : ∀ hb ∈ hbs, startDate now + 14 * dayLen ≤ hb.1.createdAt ∧
      hb.1.createdAt + 30 * dayLen < endDate now) :
    ∀ c ∈ ((phase3All now g u pools hbs k uk).1.map Prod.snd).flatten,
      ∃ h, clientInHorizon now h c := by
  intro c hc
  rcases List.mem_flatten.mp hc with ⟨l, hl, hcl⟩
  rcases List.mem_map.mp hl with ⟨p, hp, rfl⟩
  exact ⟨p.1, phase3All_horizon now g u pools hbs k uk hh p hp c hcl⟩

theorem phase4Adls_bounds (g u : Rand) (cid cg : Id) (current : Int)
    (ind : String) :
    ∀ (n k uk : Nat), ∀ l ∈ (phase4Adls g u cid cg current ind n k uk).1,
      dateFloor current + 6 * hourLen ≤ l.timestamp ∧
      l.timestamp < dateFloor current + dayLen ∧
      l.createdAt = l.timestamp := by
  intro n
  induction n with
  | zero => intro k uk l hl; cases hl
  | succ n ih =>
    intro k uk l hl
    simp only [phase4Adls] at hl
    rcases List.mem_cons.mp hl with rfl | hl
    · have hb := workingHourTime_bounds g k current
      exact ⟨hb.1, hb.2, rfl⟩
    · exact ih _ _ l hl

theorem phase4Vitals_bounds (g u : Rand) (cid cg : Id) (current : Int)
    (hy dia : Bool) :
    ∀ (n k uk : Nat), ∀ l ∈ (phase4Vitals g u cid cg current hy dia n k uk).1,
      dateFloor current + 6 * hourLen ≤ l.timestamp ∧
      l.timestamp < dateFloor current + dayLen ∧
      l.createdAt = l.timestamp := by
  intro n
  induction n with
  | zero => intro k uk l hl; cases hl
  | succ n ih =>
    intro k uk l hl
    simp only [phase4Vitals] at hl
    rcases List.mem_cons.mp hl with rfl | hl
    · have hb := workingHourTime_bounds g k current
      exact ⟨hb.1, hb.2, rfl⟩
    · exact ih _ _ l hl

theorem phase4Meds_bounds (g u : Rand) (cid cg : Id) (current : Int) :
    ∀ (meds : List (String × String × String)) (k uk : Nat),
      ∀ l ∈ (phase4Meds g u cid cg current meds k uk).1,
        dateFloor current + 6 * hourLen ≤ l.timestamp ∧
        l.timestamp < dateFloor current + dayLen ∧
        l.createdAt = l.timestamp ∧
        dateFloor current + 6 * hourLen ≤ l.scheduledTime ∧
        l.scheduledTime ≤ dateFloor current + 22 * hourLen := by
  intro meds
  induction meds with
  | nil => intro k uk l hl; cases hl
  | cons med rest ih =>
    intro k uk l hl
    simp only [phase4Meds] at hl
    split at hl
    · rcases List.mem_cons.mp hl with rfl | hl
      · have hb := workingHourTime_bounds g (k + 1) current
        have hsch : (medicationGenerate g u (k + 3) uk cid cg
            (workingHourTime g (k + 1) current) med).scheduledTime =
            dateFloor (workingHourTime g (k + 1) current) +
              ((choiceD MEDICATION_TIMES 480 g (k + 3 + 1) : Nat) : Int) := rfl
        have hmem := choiceD_mem MEDICATION_TIMES 480 g (k + 3 + 1) (by decide)
        have hall : ∀ x ∈ MEDICATION_TIMES, 360 ≤ x ∧ x ≤ 1320 := by decide
        have hmr := hall _ hmem
        obtain ⟨m, hme⟩ : ∃ x,
            choiceD MEDICATION_TIMES 480 g (k + 3 + 1) = x := ⟨_, rfl⟩
        rw [hme] at hsch hmr
        refine ⟨hb.1, hb.2, rfl, ?_, ?_⟩
        · rw [hsch, workingHourTime_floor]
          simp only [hourLen]
          omega
        · rw [hsch, workingHourTime_floor]
          simp only [hourLen]
          omega
      · exact ih _ _ l hl
    · exact ih _ _ l hl

theorem phase4Day_bounds (g u : Rand) (c : Client) (cgs : List Id)
    (ind : String) (current : Int) (k uk : Nat) :
    (∀ l ∈ (phase4Day g u c cgs ind current k uk).1.adls,
      dateFloor current + 6 * hourLen ≤ l.timestamp ∧
      l.timestamp < dateFloor current + dayLen ∧
      l.createdAt = l.timestamp) ∧
    (∀ l ∈ (phase4Day g u c cgs ind current k uk).1.vitals,
      dateFloor current + 6 * hourLen ≤ l.timestamp ∧
      l.timestamp < dateFloor current + dayLen ∧
      l.createdAt = l.timestamp) ∧
    (∀ l ∈ (phase4Day g u c cgs ind current k uk).1.meds,
      dateFloor current + 6 * hourLen ≤ l.timestamp ∧
      l.timestamp < dateFloor current + dayLen ∧
      l.createdAt = l.timestamp ∧
      dateFloor current + 6 * hourLen ≤ l.scheduledTime ∧
      l.scheduledTime ≤ dateFloor current + 22 * hourLen) ∧
    (∀ l ∈ (phase4Day g u c cgs ind current k uk).1.roms,
      dateFloor current + 6 * hourLen ≤ l.timestamp ∧
      l.timestamp < dateFloor current + dayLen ∧
      l.createdAt = l.timestamp) ∧
    (∀ l ∈ (phase4Day g u c cgs ind current k uk).1.behaviors,
      dateFloor current + 6 * hourLen ≤ l.timestamp ∧
      l.timestamp < dateFloor current + dayLen ∧
      l.createdAt = l.timestamp) := by
  simp only [phase4Day]
  obtain ⟨A, Ak, Auk, hA⟩ : ∃ x y z, (if randBool g (k + 1) = true then
      phase4Adls g u c.id (choiceD cgs 0 g k) current ind
        (randNat g (k + 2) 1 2) (k + 3) uk
    else ([], k + 2, uk)) = (x, y, z) := ⟨_, _, _, rfl⟩
  simp only [hA]
  obtain ⟨V, Vk, Vuk, hV⟩ : ∃ x y z, (if randBool g Ak = true then
      phase4Vitals g u c.id (choiceD cgs 0 g k) current (hasHypertension c)
        (hasDiabetes c) (randNat g (Ak + 1) 1 2) (Ak + 2) Auk
    else ([], Ak + 1, Auk)) = (x, y, z) := ⟨_, _, _, rfl⟩
  simp only [hV]
  obtain ⟨M, Mk, Muk, hM⟩ : ∃ x y z,
      phase4Meds g u c.id (choiceD cgs 0 g k) current c.medications Vk Vuk =
        (x, y, z) := ⟨_, _, _, rfl⟩
  simp only [hM]
  obtain ⟨R, Rk, Ruk, hR⟩ : ∃ x y z, (if randBool g Mk = true then
      ([romGenerate g u (Mk + 3) Muk c.id (choiceD cgs 0 g k)
          (workingHourTime g (Mk + 1) current)], Mk + 5, Muk + 1)
    else ([], Mk + 1, Muk)) = (x, y, z) := ⟨_, _, _, rfl⟩
  simp only [hR]
  refine ⟨?_, ?_, ?_, ?_, ?_⟩
  · intro l hl
    by_cases hcoin : randBool g (k + 1) = true
    · rw [if_pos hcoin] at hA
      have hA1 : A = (phase4Adls g u c.id (choiceD cgs 0 g k) current ind
          (randNat g (k + 2) 1 2) (k + 3) uk).1 :=
        (congrArg (fun p => p.1) hA).symm
      rw [hA1] at hl
      exact phase4Adls_bounds g u c.id (choiceD cgs 0 g k) current ind
        _ _ _ l hl
    · rw [if_neg hcoin] at hA
      have hA1 : A = [] := (congrArg (fun p => p.1) hA).symm
      rw [hA1] at hl
      cases hl
  · intro l hl
    by_cases hcoin : randBool g Ak = true
    · rw [if_pos hcoin] at hV
      have hV1 : V = (phase4Vitals g u c.id (choiceD cgs 0 g k) current
          (hasHypertension c) (hasDiabetes c) (randNat g (Ak + 1) 1 2)
          (Ak + 2) Auk).1 :=
        (congrArg (fun p => p.1) hV).symm
      rw [hV1] at hl
      exact phase4Vitals_bounds g u c.id (choiceD cgs 0 g k) current
        (hasHypertension c) (hasDiabetes c) _ _ _ l hl
    · rw [if_neg hcoin] at hV
      have hV1 : V = [] := (congrArg (fun p => p.1) hV).symm
      rw [hV1] at hl
      cases hl
  · intro l hl
    have hM1 : M = (phase4Meds g u c.id (choiceD cgs 0 g k) current
        c.medications Vk Vuk).1 :=
      (congrArg (fun p => p.1) hM).symm
    rw [hM1] at hl
    exact phase4Meds_bounds g u c.id (choiceD cgs 0 g k) current
      c.medications _ _ l hl
  · intro l hl
    by_cases hcoin : randBool g Mk = true
    · rw [if_pos hcoin] at hR
      have hR1 : R = [romGenerate g u (Mk + 3) Muk c.id (choiceD cgs 0 g k)
          (workingHourTime g (Mk + 1) current)] :=
        (congrArg (fun p => p.1) hR).symm
      rw [hR1] at hl
      rw [List.mem_singleton] at hl
      subst hl
      have hb := workingHourTime_bounds g (Mk + 1) current
      exact ⟨hb.1, hb.2, rfl⟩
    · rw [if_neg hcoin] at hR
      have hR1 : R = [] := (congrArg (fun p => p.1) hR).symm
      rw [hR1] at hl
      cases hl
  · intro l hl
    by_cases hcoin : randBool g Rk = true
    · rw [if_pos hcoin] at hl
      rw [List.mem_singleton] at hl
      subst hl
      have hb := workingHourTime_bounds g (Rk + 1) current
      exact ⟨hb.1, hb.2, rfl⟩
    · rw [if_neg hcoin] at hl
      cases hl

theorem phase4Days_bounds (now : Int) (g u : Rand) (c : Client)
    (cgs : List Id) (ind : String)
    (hdis : c.dischargeDate.getD (endDate now) ≤ endDate now) :
    ∀ (fuel : Nat) (current : Int) (k uk : Nat),
      dateFloor current = current → startDate now ≤ current →
      (∀ l ∈ (phase4Days now g u c cgs ind fuel current k uk).1.adls,
        startDate now ≤ l.timestamp ∧ l.timestamp < endDate now + dayLen ∧
        l.createdAt = l.timestamp) ∧
      (∀ l ∈ (phase4Days now g u c cgs ind fuel current k uk).1.vitals,
        startDate now ≤ l.timestamp ∧ l.timestamp < endDate now + dayLen ∧
        l.createdAt = l.timestamp) ∧
      (∀ l ∈ (phase4Days now g u c cgs ind fuel current k uk).1.meds,
        startDate now ≤ l.timestamp ∧ l.timestamp < endDate now + dayLen ∧
        l.createdAt = l.timestamp ∧
        startDate now ≤ l.scheduledTime ∧
        l.scheduledTime < endDate now + dayLen) ∧
      (∀ l ∈ (phase4Days now g u c cgs ind fuel current k uk).1.roms,
        startDate now ≤ l.timestamp ∧ l.timestamp < endDate now + dayLen ∧
        l.createdAt = l.timestamp) ∧
      (∀ l ∈ (phase4Days now g u c cgs ind fuel current k uk).1.behaviors,
        startDate now ≤ l.timestamp ∧ l.timestamp < endDate now + dayLen ∧
        l.createdAt = l.timestamp) := by
  intro fuel
  induction fuel with
  | zero =>
    intro current k uk hal hlo
    refine ⟨?_, ?_, ?_, ?_, ?_⟩ <;> intro l hl <;> cases hl
  | succ fuel ih =>
    intro current k uk hal hlo
    by_cases hlt : current < c.dischargeDate.getD (endDate now)
    case neg =>
      simp only [phase4Days]
      rw [if_neg hlt]
      refine ⟨?_, ?_, ?_, ?_, ?_⟩ <;> intro l hl <;> cases hl
    simp only [phase4Days]
    rw [if_pos hlt]
    obtain ⟨D, Dk, Duk, hD⟩ : ∃ x y z,
        phase4Day g u c cgs ind current k uk = (x, y, z) := ⟨_, _, _, rfl⟩
    have hday := phase4Day_bounds g u c cgs ind current k uk
    rw [hD] at hday
    simp only [hD]
    have halign2 : dateFloor (current + dayLen) = current + dayLen := by
      have h9 := dateFloor_add_days current 1 hal
      rwa [one_mul] at h9
    have hlo2 : startDate now ≤ current + dayLen := by
      simp only [dayLen] at *
      omega
    have hrec := ih (current + dayLen) Dk Duk halign2 hlo2
    obtain ⟨RT, Rk, Ruk, hRT⟩ : ∃ x y z,
        phase4Days now g u c cgs ind fuel (current + dayLen) Dk Duk =
          (x, y, z) := ⟨_, _, _, rfl⟩
    rw [hRT] at hrec
    simp only [hRT]
    have hcur2 : current < endDate now := lt_of_lt_of_le hlt hdis
    simp only [bundleAppend]
    refine ⟨?_, ?_, ?_, ?_, ?_⟩ <;> intro l hl
    · rcases List.mem_append.mp hl with hl | hl
      · have hb := hday.1 l hl
        rw [hal] at hb
        refine ⟨?_, ?_, hb.2.2⟩ <;> simp only [hourLen, dayLen] at * <;> omega
      · exact hrec.1 l hl
    · rcases List.mem_append.mp hl with hl | hl
      · have hb := hday.2.1 l hl
        rw [hal] at hb
        refine ⟨?_, ?_, hb.2.2⟩ <;> simp only [hourLen, dayLen] at * <;> omega
      · exact hrec.2.1 l hl
    · rcases List.mem_append.mp hl with hl | hl
      · have hb := hday.2.2.1 l hl
        rw [hal] at hb
        refine ⟨?_, ?_, hb.2.2.1, ?_, ?_⟩ <;>
          simp only [hourLen, dayLen] at * <;> omega
      · exact hrec.2.2.1 l hl
    · rcases List.mem_append.mp hl with hl | hl
      · have hb := hday.2.2.2.1 l hl
        rw [hal] at hb
        refine ⟨?_, ?_, hb.2.2⟩ <;> simp only [hourLen, dayLen] at * <;> omega
      · exact hrec.2.2.2.1 l hl
    · rcases List.mem_append.mp hl with hl | hl
      · have hb := hday.2.2.2.2 l hl
        rw [hal] at hb
        refine ⟨?_, ?_, hb.2.2⟩ <;> simp only [hourLen, dayLen] at * <;> omega
      · exact hrec.2.2.2.2 l hl

theorem phase4ForClient_bounds (now : Int) (g u : Rand) (cgs : List Id)
    (c : Client) (fuel k uk : Nat) (hor : ∃ h, clientInHorizon now h c) :
    (∀ l ∈ (phase4ForClient now g u cgs c fuel k uk).1.adls,
      startDate now ≤ l.timestamp ∧ l.timestamp < endDate now + dayLen ∧
      l.createdAt = l.timestamp) ∧
    (∀ l ∈ (phase4ForClient now g u cgs c fuel k uk).1.vitals,
      startDate now ≤ l.timestamp ∧ l.timestamp < endDate now + dayLen ∧
      l.createdAt = l.timestamp) ∧
    (∀ l ∈ (phase4ForClient now g u cgs c fuel k uk).1.meds,
      startDate now ≤ l.timestamp ∧ l.timestamp < endDate now + dayLen ∧
      l.createdAt = l.timestamp ∧
      startDate now ≤ l.scheduledTime ∧
      l.scheduledTime < endDate now + dayLen) ∧
    (∀ l ∈ (phase4ForClient now g u cgs c fuel k uk).1.roms,
      startDate now ≤ l.timestamp ∧ l.timestamp < endDate now + dayLen ∧
      l.createdAt = l.timestamp) ∧
    (∀ l ∈ (phase4ForClient now g u cgs c fuel k uk).1.behaviors,
      startDate now ≤ l.timestamp ∧ l.timestamp < endDate now + dayLen ∧
      l.createdAt = l.timestamp) := by
  obtain ⟨h0, hc⟩ := hor
  have hdis : c.dischargeDate.getD (endDate now) ≤ endDate now := by
    rcases hd : c.dischargeDate with _ | d
    · simp
    · have h9 := hc.2.2.2.2.2.2 d hd
      simp only [Option.getD]
      omega
  have hal : dateFloor c.admissionDate = c.admissionDate :=
    (hc.2.2.2.2.2.1).symm
  have hlo : startDate now ≤ c.admissionDate := by
    have h9 := hc.2.1
    simp only [dayLen] at *
    omega
  simp only [phase4ForClient]
  exact phase4Days_bounds now g u c cgs _ hdis fuel c.admissionDate
    (k + 1) uk hal hlo

theorem phase4All_bounds (now : Int) (g u : Rand)
    (pools : List (Id × List Id)) (fuel : Nat) :
    ∀ (clients : List Client) (k uk : Nat),
      (∀ c ∈ clients, ∃ h, clientInHorizon now h c) →
      (∀ l ∈ (phase4All now g u pools fuel clients k uk).1.adls,
        startDate now ≤ l.timestamp ∧ l.timestamp < endDate now + dayLen ∧
        l.createdAt = l.timestamp) ∧
      (∀ l ∈ (phase4All now g u pools fuel clients k uk).1.vitals,
        startDate now ≤ l.timestamp ∧ l.timestamp < endDate now + dayLen ∧
        l.createdAt = l.timestamp) ∧
      (∀ l ∈ (phase4All now g u pools fuel clients k uk).1.meds,
        startDate now ≤ l.timestamp ∧ l.timestamp < endDate now + dayLen ∧
        l.createdAt = l.timestamp ∧
        startDate now ≤ l.scheduledTime ∧
        l.scheduledTime < endDate now + dayLen) ∧
      (∀ l ∈ (phase4All now g u pools fuel clients k uk).1.roms,
        startDate now ≤ l.timestamp ∧ l.timestamp < endDate now + dayLen ∧
        l.createdAt = l.timestamp) ∧
      (∀ l ∈ (phase4All now g u pools fuel clients k uk).1.behaviors,
        startDate now ≤ l.timestamp ∧ l.timestamp < endDate now + dayLen ∧
        l.createdAt = l.timestamp) := by
  intro clients
  induction clients with
  | nil =>
    intro k uk hcl
    refine ⟨?_, ?_, ?_, ?_, ?_⟩ <;> intro l hl <;> cases hl
  | cons c rest ih =>
    intro k uk hcl
    simp only [phase4All]
    obtain ⟨O, Ok, Ouk, hO⟩ : ∃ x y z,
        phase4ForClient now g u ((pools.lookup c.homeId).getD []) c fuel
          k uk = (x, y, z) := ⟨_, _, _, rfl⟩
    have hone := phase4ForClient_bounds now g u
      ((pools.lookup c.homeId).getD []) c fuel k uk
      (hcl c (List.mem_cons_self _ _))
    rw [hO] at hone
    simp only [hO]
    obtain ⟨MO, Mk, Muk, hMO⟩ : ∃ x y z,
        phase4All now g u pools fuel rest Ok Ouk = (x, y, z) := ⟨_, _, _, rfl⟩
    have hmore := ih Ok Ouk (fun x hx => hcl x (List.mem_cons_of_mem _ hx))
    rw [hMO] at hmore
    simp only [hMO]
    simp only [bundleAppend]
    refine ⟨?_, ?_, ?_, ?_, ?_⟩ <;> intro l hl
    · rcases List.mem_append.mp hl with hl | hl
      · exact hone.1 l hl
      · exact hmore.1 l hl
    · rcases List.mem_append.mp hl with hl | hl
      · exact hone.2.1 l hl
      · exact hmore.2.1 l hl
    · rcases List.mem_append.mp hl with hl | hl
      · exact hone.2.2.1 l hl
      · exact hmore.2.2.1 l hl
    · rcases List.mem_append.mp hl with hl | hl
      · exact hone.2.2.2.1 l hl
      · exact hmore.2.2.2.1 l hl
    · rcases List.mem_append.mp hl with hl | hl
      · exact hone.2.2.2.2 l hl
      · exact hmore.2.2.2.2 l hl

theorem homeOpenDates_bounds (g : Rand) (now : Int) (k : Nat) :
    ∀ d ∈ homeOpenDates g now k,
      startDate now + 14 * dayLen ≤ d ∧ d ≤ startDate now + 600 * dayLen := by
  intro d hd
  simp only [homeOpenDates, List.mem_cons, List.not_mem_nil, or_false] at hd
  rcases hd with rfl | rfl | rfl | rfl | rfl | rfl
  · simp only [dayLen]; omega
  · have h1 := randInt_bounds g k 90 120 (by omega)
    obtain ⟨x, hx, hxe⟩ : ∃ x, (90 ≤ x ∧ x ≤ 120) ∧
        randInt g k 90 120 = x := ⟨_, h1, rfl⟩
    rw [hxe]
    simp only [dayLen]
    omega
  · have h1 := randInt_bounds g (k + 1) 180 240 (by omega)
    obtain ⟨x, hx, hxe⟩ : ∃ x, (180 ≤ x ∧ x ≤ 240) ∧
        randInt g (k + 1) 180 240 = x := ⟨_, h1, rfl⟩
    rw [hxe]
    simp only [dayLen]
    omega
  · have h1 := randInt_bounds g (k + 2) 300 360 (by omega)
    obtain ⟨x, hx, hxe⟩ : ∃ x, (300 ≤ x ∧ x ≤ 360) ∧
        randInt g (k + 2) 300 360 = x := ⟨_, h1, rfl⟩
    rw [hxe]
    simp only [dayLen]
    omega
  · have h1 := randInt_bounds g (k + 3) 420 480 (by omega)
    obtain ⟨x, hx, hxe⟩ : ∃ x, (420 ≤ x ∧ x ≤ 480) ∧
        randInt g (k + 3) 420 480 = x := ⟨_, h1, rfl⟩
    rw [hxe]
    simp only [dayLen]
    omega
  · have h1 := randInt_bounds g (k + 4) 540 600 (by omega)
    obtain ⟨x, hx, hxe⟩ : ∃ x, (540 ≤ x ∧ x ≤ 600) ∧
        randInt g (k + 4) 540 600 = x := ⟨_, h1, rfl⟩
    rw [hxe]
    simp only [dayLen]
    omega

theorem phase1_createdAt (g u : Rand) (adminId : Id) :
    ∀ (ds : List Int) (k uk : Nat),
      ∀ hb ∈ (phase1 g u adminId ds k uk).1, hb.1.createdAt ∈ ds := by
  intro ds
  induction ds with
  | nil => intro k uk hb hhb; cases hhb
  | cons d rest ih =>
    intro k uk hb hhb
    simp only [phase1] at hhb
    rcases List.mem_cons.mp hhb with rfl | hhb
    · exact List.mem_cons_self _ _
    · exact List.mem_cons_of_mem _ (ih _ _ hb hhb)

theorem activityGenerate_times (g u : Rand) (k uk : Nat) (homeId : Id)
    (cg : Id) (activityDate : Int) (clientIds : List Id) :
    (activityGenerate g u k uk homeId cg activityDate
        clientIds).1.createdAt = activityDate ∧
    (activityGenerate g u k uk homeId cg activityDate clientIds).1.date =
      dateFloor activityDate ∧
    dateFloor activityDate + 9 * hourLen ≤
      (activityGenerate g u k uk homeId cg activityDate
        clientIds).1.startTime ∧
    (activityGenerate g u k uk homeId cg activityDate
        clientIds).1.startTime ≤ dateFloor activityDate + 16 * hourLen ∧
    (activityGenerate g u k uk homeId cg activityDate
        clientIds).1.startTime ≤
      (activityGenerate g u k uk homeId cg activityDate
        clientIds).1.endTime ∧
    (activityGenerate g u k uk homeId cg activityDate clientIds).1.endTime ≤
      (activityGenerate g u k uk homeId cg activityDate
        clientIds).1.startTime + 90 ∧
    (activityGenerate g u k uk homeId cg activityDate
        clientIds).1.updatedAt = none := by
  have hsh := randInt_bounds g (k + 8) 9 16 (by omega)
  obtain ⟨h2, hhb, hhe⟩ : ∃ x, (9 ≤ x ∧ x ≤ 16) ∧
      randInt g (k + 8) 9 16 = x := ⟨_, hsh, rfl⟩
  have hdm := choiceD_mem ([30, 45, 60, 90] : List Nat) 30 g (k + 9)
    (by decide)
  have hdall : ∀ x ∈ ([30, 45, 60, 90] : List Nat), 30 ≤ x ∧ x ≤ 90 := by
    decide
  have hdb := hdall _ hdm
  obtain ⟨dur, hde⟩ : ∃ x,
      choiceD ([30, 45, 60, 90] : List Nat) 30 g (k + 9) = x := ⟨_, rfl⟩
  rw [hde] at hdb
  have hst : (activityGenerate g u k uk homeId cg activityDate
      clientIds).1.startTime =
      dateFloor activityDate + randInt g (k + 8) 9 16 * hourLen := rfl
  have het : (activityGenerate g u k uk homeId cg activityDate
      clientIds).1.endTime =
      dateFloor activityDate + randInt g (k + 8) 9 16 * hourLen +
        ((choiceD ([30, 45, 60, 90] : List Nat) 30 g (k + 9) : Nat) : Int) :=
    rfl
  refine ⟨rfl, rfl, ?_, ?_, ?_, ?_, rfl⟩
  · rw [hst, hhe]
    simp only [hourLen]
    omega
  · rw [hst, hhe]
    simp only [hourLen]
    omega
  · rw [hst, het, hde]
    omega
  · rw [hst, het, hde]
    omega

theorem phase5Activities_times (now : Int) (g u : Rand) (homeId : Id)
    (cgs : List Id) (active : List Id) (current : Int)
    (hcur : startDate now + dayLen ≤ current) :
    ∀ (j k uk : Nat),
      ∀ a ∈ (phase5Activities now g u homeId cgs active current j k uk).1,
        (startDate now ≤ a.date ∧ a.date < endDate now) ∧
        (startDate now ≤ a.createdAt ∧ a.createdAt < endDate now) ∧
        (startDate now ≤ a.startTime ∧ a.endTime < endDate now + dayLen ∧
          a.startTime ≤ a.endTime) ∧
        a.updatedAt = none := by
  intro j
  induction j with
  | zero => intro k uk a ha; cases ha
  | succ j ih =>
    intro k uk a ha
    simp only [phase5Activities] at ha
    split at ha
    · rename_i hd
      rcases List.mem_cons.mp ha with rfl | ha
      · have hod := randInt_bounds g k 0 6 (by omega)
        obtain ⟨o, hob, hoe⟩ : ∃ x, (0 ≤ x ∧ x ≤ 6) ∧
            randInt g k 0 6 = x := ⟨_, hod, rfl⟩
        rw [hoe] at hd ⊢
        have hts := activityGenerate_times g u (k + 2) uk homeId
          (choiceD cgs 0 g (k + 1)) (current + o * dayLen) active
        have hfle := dateFloor_le (current + o * dayLen)
        have hflg := dateFloor_gt (current + o * dayLen)
        refine ⟨⟨?_, ?_⟩, ⟨?_, ?_⟩, ⟨?_, ?_, ?_⟩, hts.2.2.2.2.2.2⟩
        · rw [hts.2.1]
          simp only [dayLen] at *
          omega
        · rw [hts.2.1]
          omega
        · rw [hts.1]
          simp only [dayLen] at *
          omega
        · rw [hts.1]
          exact hd
        · have h9 := hts.2.2.1
          simp only [hourLen, dayLen] at *
          omega
        · have h9 := hts.2.2.2.2.2.1
          have h10 := hts.2.2.2.1
          simp only [hourLen, dayLen] at *
          omega
        · exact hts.2.2.2.2.1
      · exact ih _ _ a ha
    · exact ih _ _ a ha

theorem phase5Week_times (now : Int) (g u : Rand) (homeId : Id)
    (cgs : List Id) (clients : List Client) (current : Int) (k uk : Nat)
    (hcur : startDate now + dayLen ≤ current) :
    ∀ a ∈ (phase5Week now g u homeId cgs clients current k uk).1,
      (startDate now ≤ a.date ∧ a.date < endDate now) ∧
      (startDate now ≤ a.createdAt ∧ a.createdAt < endDate now) ∧
      (startDate now ≤ a.startTime ∧ a.endTime < endDate now + dayLen ∧
        a.startTime ≤ a.endTime) ∧
      a.updatedAt = none := by
  intro a ha
  simp only [phase5Week] at ha
  split at ha
  · cases ha
  · exact phase5Activities_times now g u homeId cgs _ current hcur _ _ _ a ha

theorem phase5Home_times (now : Int) (g u : Rand) (homeId : Id)
    (cgs : List Id) (clients : List Client) :
    ∀ (fuel : Nat) (current : Int) (k uk : Nat),
      startDate now + dayLen ≤ current →
      ∀ a ∈ (phase5Home now g u homeId cgs clients fuel current k uk).1,
        (startDate now ≤ a.date ∧ a.date < endDate now) ∧
        (startDate now ≤ a.createdAt ∧ a.createdAt < endDate now) ∧
        (startDate now ≤ a.startTime ∧ a.endTime < endDate now + dayLen ∧
          a.startTime ≤ a.endTime) ∧
        a.updatedAt = none := by
  intro fuel
  induction fuel with
  | zero => intro current k uk hcur a ha; cases ha
  | succ fuel ih =>
    intro current k uk hcur a ha
    simp only [phase5Home] at ha
    split at ha
    · rcases List.mem_append.mp ha with ha | ha
      · exact phase5Week_times now g u homeId cgs clients current _ _ hcur
          a ha
      · refine ih (current + 7 * dayLen) _ _ ?_ a ha
        simp only [dayLen] at *
        omega
    · cases ha

theorem phase5All_times (now : Int) (g u : Rand)
    (pools : List (Id × List Id)) (cbh : List (Id × List Client)) :
    ∀ (homes : List Home) (k uk : Nat),
      (∀ h ∈ homes, startDate now ≤ h.createdAt) →
      ∀ a ∈ (phase5All now g u pools cbh homes k uk).1,
        (startDate now ≤ a.date ∧ a.date < endDate now) ∧
        (startDate now ≤ a.createdAt ∧ a.createdAt < endDate now) ∧
        (startDate now ≤ a.startTime ∧ a.endTime < endDate now + dayLen ∧
          a.startTime ≤ a.endTime) ∧
        a.updatedAt = none := by
  intro homes
  induction homes with
  | nil => intro k uk hh a ha; cases ha
  | cons home rest ih =>
    intro k uk hh a ha
    simp only [phase5All] at ha
    rcases List.mem_append.mp ha with ha | ha
    · refine phase5Home_times now g u home.id _ _ runFuel
        (home.createdAt + 7 * dayLen) _ _ ?_ a ha
      have h9 := hh home (List.mem_cons_self _ _)
      simp only [dayLen] at *
      omega
    · exact ih _ _ (fun x hx => hh x (List.mem_cons_of_mem _ hx)) a ha

theorem phase6All_times (now : Int) (g u : Rand)
    (pools : List (Id × List Id)) (cbh : List (Id × List Client))
    (adminIds : List Id) :
    ∀ (homes : List Home) (seq : Nat) (st : IncidentGenState) (k uk : Nat),
      (∀ h ∈ homes, startDate now ≤ h.createdAt) →
      ∀ inc ∈ (phase6All now g u pools cbh adminIds homes seq st k uk).1,
        (startDate now ≤ inc.occurredAt ∧ inc.occurredAt < endDate now) ∧
        inc.createdAt = inc.occurredAt ∧
        (∀ t, inc.updatedAt = some t →
          inc.occurredAt < t ∧ t ≤ inc.occurredAt + 7 * dayLen) ∧
        (∀ t, inc.closedAt = some t →
          inc.occurredAt < t ∧ t ≤ inc.occurredAt + 7 * dayLen) ∧
        (∀ p ∈ inc.photos, p.createdAt = inc.occurredAt) := by
  intro homes
  induction homes with
  | nil => intro seq st k uk hh inc hinc; cases hinc
  | cons home rest ih =>
    intro seq st k uk hh inc hinc
    simp only [phase6All] at hinc
    rcases List.mem_append.mp hinc with hinc | hinc
    · have hts := phase6Home_timestamps now g u home.id
        ((pools.lookup home.id).getD []) ((cbh.lookup home.id).getD [])
        seq adminIds runFuel
        (home.createdAt + randInt g k 14 45 * dayLen) st (k + 1) uk inc hinc
      have hnn : (0 : Int) ≤ randInt g k 14 45 * dayLen :=
        mul_nonneg (randInt_nonneg _ _ _ _) (by norm_num [dayLen])
      have h9 := hh home (List.mem_cons_self _ _)
      exact ⟨⟨by omega, hts.2.1⟩, hts.2.2.1, hts.2.2.2.1, hts.2.2.2.2.1,
        hts.2.2.2.2.2⟩
    · exact ih _ _ _ _ (fun x hx => hh x (List.mem_cons_of_mem _ hx))
        inc hinc

theorem pool_mem_le (ty : String) :
    ∀ x ∈ appointmentDurationPool ty, x ≤ 120 := by
  intro x hx
  unfold appointmentDurationPool at hx
  by_cases h0 : ty = "GeneralPractice"
  · rw [if_pos h0] at hx
    simp only [List.mem_cons, List.not_mem_nil, or_false] at hx
    omega
  rw [if_neg h0] at hx
  by_cases h1 : ty = "Dental"
  · rw [if_pos h1] at hx
    simp only [List.mem_cons, List.not_mem_nil, or_false] at hx
    omega
  rw [if_neg h1] at hx
  by_cases h2 : ty = "Ophthalmology"
  · rw [if_pos h2] at hx
    simp only [List.mem_cons, List.not_mem_nil, or_false] at hx
    omega
  rw [if_neg h2] at hx
  by_cases h3 : ty = "Podiatry"
  · rw [if_pos h3] at hx
    simp only [List.mem_cons, List.not_mem_nil, or_false] at hx
    omega
  rw [if_neg h3] at hx
  by_cases h4 : ty = "PhysicalTherapy"
  · rw [if_pos h4] at hx
    simp only [List.mem_cons, List.not_mem_nil, or_false] at hx
    omega
  rw [if_neg h4] at hx
  by_cases h5 : ty = "OccupationalTherapy"
  · rw [if_pos h5] at hx
    simp only [List.mem_cons, List.not_mem_nil, or_false] at hx
    omega
  rw [if_neg h5] at hx
  by_cases h6 : ty = "SpeechTherapy"
  · rw [if_pos h6] at hx
    simp only [List.mem_cons, List.not_mem_nil, or_false] at hx
    omega
  rw [if_neg h6] at hx
  by_cases h7 : ty = "Psychiatry"
  · rw [if_pos h7] at hx
    simp only [List.mem_cons, List.not_mem_nil, or_false] at hx
    omega
  rw [if_neg h7] at hx
  by_cases h8 : ty = "Dermatology"
  · rw [if_pos h8] at hx
    simp only [List.mem_cons, List.not_mem_nil, or_false] at hx
    omega
  rw [if_neg h8] at hx
  by_cases h9 : ty = "Cardiology"
  · rw [if_pos h9] at hx
    simp only [List.mem_cons, List.not_mem_nil, or_false] at hx
    omega
  rw [if_neg h9] at hx
  by_cases h10 : ty = "Neurology"
  · rw [if_pos h10] at hx
    simp only [List.mem_cons, List.not_mem_nil, or_false] at hx
    omega
  rw [if_neg h10] at hx
  by_cases h11 : ty = "LabWork"
  · rw [if_pos h11] at hx
    simp only [List.mem_cons, List.not_mem_nil, or_false] at hx
    omega
  rw [if_neg h11] at hx
  by_cases h12 : ty = "Imaging"
  · rw [if_pos h12] at hx
    simp only [List.mem_cons, List.not_mem_nil, or_false] at hx
    omega
  rw [if_neg h12] at hx
  by_cases h13 : ty = "Audiology"
  · rw [if_pos h13] at hx
    simp only [List.mem_cons, List.not_mem_nil, or_false] at hx
    omega
  rw [if_neg h13] at hx
  by_cases h14 : ty = "SocialWorker"
  · rw [if_pos h14] at hx
    simp only [List.mem_cons, List.not_mem_nil, or_false] at hx
    omega
  rw [if_neg h14] at hx
  by_cases h15 : ty = "FamilyVisit"
  · rw [if_pos h15] at hx
    simp only [List.mem_cons, List.not_mem_nil, or_false] at hx
    omega
  rw [if_neg h15] at hx
  simp only [List.mem_cons, List.not_mem_nil, or_false] at hx
  omega

theorem appointmentDuration_le (ty : String) (g : Rand) (k : Nat) :
    choiceD (appointmentDurationPool ty) 30 g k ≤ 120 := by
  rcases hp : appointmentDurationPool ty with _ | ⟨a, rest⟩
  · unfold choiceD
    simp
  · have hall := pool_mem_le ty
    rw [hp] at hall
    exact hall _ (choiceD_mem (a :: rest) 30 g k (by simp))

theorem appointmentGenerate_past_fields (g u : Rand) (k uk : Nat)
    (cid hid cg : Id) (sched : Int) (isPast : Bool) :
    (appointmentGenerate g u k uk cid hid cg sched isPast).1.scheduledAt =
      sched ∧
    sched - 21 * dayLen ≤
      (appointmentGenerate g u k uk cid hid cg sched isPast).1.createdAt ∧
    (appointmentGenerate g u k uk cid hid cg sched isPast).1.createdAt ≤
      sched - 3 * dayLen ∧
    (∀ t, (appointmentGenerate g u k uk cid hid cg sched
        isPast).1.completedAt = some t →
      isPast = true ∧ t ≤ sched + 120) ∧
    (isPast = false →
      (appointmentGenerate g u k uk cid hid cg sched isPast).1.status =
        "Scheduled" ∧
      (appointmentGenerate g u k uk cid hid cg sched isPast).1.completedAt =
        none) := by
  have hcr := randInt_bounds g (k + 8) 3 21 (by omega)
  obtain ⟨cr, hcrb, hcre⟩ : ∃ x, (3 ≤ x ∧ x ≤ 21) ∧
      randInt g (k + 8) 3 21 = x := ⟨_, hcr, rfl⟩
  have hdur := appointmentDuration_le
    (weightedChoice APPOINTMENT_TYPES "Other" g k) g (k + 4)
  have hdurZ : ((choiceD (appointmentDurationPool
      (weightedChoice APPOINTMENT_TYPES "Other" g k)) 30 g (k + 4) : Nat) :
      Int) ≤ 120 := by exact_mod_cast hdur
  have hsc : (appointmentGenerate g u k uk cid hid cg sched
      isPast).1.scheduledAt = sched := by
    simp only [appointmentGenerate]
    cases isPast
    · rfl
    · obtain ⟨stat, hstat⟩ : ∃ x,
          weightedChoice APPOINTMENT_STATUSES "Completed" g (k + 9) = x :=
        ⟨_, rfl⟩
      simp only [hstat]
      by_cases hC : stat = "Completed"
      · rw [if_pos hC]
        rfl
      · rw [if_neg hC]
        by_cases hR : stat = "Cancelled" ∨ stat = "NoShow" ∨
            stat = "Rescheduled"
        · rw [if_pos hR]
          rfl
        · rw [if_neg hR]
          rfl
  have hcb : (appointmentGenerate g u k uk cid hid cg sched
      isPast).1.createdAt = sched - randInt g (k + 8) 3 21 * dayLen := by
    simp only [appointmentGenerate]
    cases isPast
    · rfl
    · obtain ⟨stat, hstat⟩ : ∃ x,
          weightedChoice APPOINTMENT_STATUSES "Completed" g (k + 9) = x :=
        ⟨_, rfl⟩
      simp only [hstat]
      by_cases hC : stat = "Completed"
      · rw [if_pos hC]
        rfl
      · rw [if_neg hC]
        by_cases hR : stat = "Cancelled" ∨ stat = "NoShow" ∨
            stat = "Rescheduled"
        · rw [if_pos hR]
          rfl
        · rw [if_neg hR]
          rfl
  refine ⟨hsc, ?_, ?_, ?_, ?_⟩
  · rw [hcb, hcre]
    simp only [dayLen]
    omega
  · rw [hcb, hcre]
    simp only [dayLen]
    omega
  · intro t ht
    revert ht
    simp only [appointmentGenerate]
    cases isPast
    · intro ht
      exact Option.noConfusion ht
    · obtain ⟨stat, hstat⟩ : ∃ x,
          weightedChoice APPOINTMENT_STATUSES "Completed" g (k + 9) = x :=
        ⟨_, rfl⟩
      simp only [hstat]
      by_cases hC : stat = "Completed"
      · rw [if_pos hC]
        intro ht
        have hteq := Option.some.inj ht
        refine ⟨by trivial, ?_⟩
        omega
      · rw [if_neg hC]
        by_cases hR : stat = "Cancelled" ∨ stat = "NoShow" ∨
            stat = "Rescheduled"
        · rw [if_pos hR]
          intro ht
          exact Option.noConfusion ht
        · rw [if_neg hR]
          intro ht
          exact Option.noConfusion ht
  · intro hfalse
    subst hfalse
    exact ⟨rfl, rfl⟩

theorem pastForClient_bounds (now : Int) (g u : Rand) (cgs : List Id)
    (c : Client) (hadm : startDate now + 13 * dayLen ≤ c.admissionDate)
    (hdis : c.dischargeDate.getD (endDate now) ≤ endDate now) :
    ∀ (fuel : Nat) (current : Int) (k uk : Nat),
      dateFloor current = current →
      c.admissionDate + 7 * dayLen ≤ current →
      ∀ a ∈ (pastForClient now g u cgs c fuel current k uk).1,
        (startDate now - dayLen < a.createdAt ∧
          a.createdAt ≤ a.scheduledAt - 3 * dayLen) ∧
        (startDate now ≤ a.scheduledAt ∧
          a.scheduledAt < endDate now + dayLen) ∧
        (∀ t, a.completedAt = some t →
          a.scheduledAt < endDate now ∧ t ≤ a.scheduledAt + 2 * hourLen) ∧
        (endDate now ≤ a.scheduledAt →
          a.status = "Scheduled" ∧ a.completedAt = none) := by
  intro fuel
  induction fuel with
  | zero => intro current k uk hal hge a ha; cases ha
  | succ fuel ih =>
    intro current k uk hal hge a ha
    simp only [pastForClient] at ha
    split at ha
    · rename_i hlt
      rcases List.mem_cons.mp ha with rfl | ha
      · have hhr := randInt_bounds g (k + 1) 8 17 (by omega)
        obtain ⟨h2, hhb, hhe⟩ : ∃ x, (8 ≤ x ∧ x ≤ 17) ∧
            randInt g (k + 1) 8 17 = x := ⟨_, hhr, rfl⟩
        have hmm := choiceD_mem ([0, 15, 30, 45] : List Nat) 0 g (k + 2)
          (by decide)
        obtain ⟨m, hme⟩ : ∃ x,
            choiceD ([0, 15, 30, 45] : List Nat) 0 g (k + 2) = x := ⟨_, rfl⟩
        rw [hme] at hmm
        have hm : (m : Int) ≤ 45 ∧ (0 : Int) ≤ (m : Int) := by
          simp only [List.mem_cons, List.not_mem_nil, or_false] at hmm
          rcases hmm with h | h | h | h <;> subst h <;> exact ⟨by decide,
            by decide⟩
        rw [hhe, hme, hal]
        have hf := appointmentGenerate_past_fields g u (k + 3) uk c.id
          c.homeId (choiceD cgs 0 g k)
          (current + h2 * hourLen + (m : Int))
          (decide (current + h2 * hourLen + (m : Int) < endDate now))
        have hsched := hf.1
        have hcr1 := hf.2.1
        have hcr2 := hf.2.2.1
        have hcur2 : current < endDate now := lt_of_lt_of_le hlt hdis
        refine ⟨⟨?_, ?_⟩, ⟨?_, ?_⟩, ?_, ?_⟩
        · simp only [hourLen, dayLen] at *
          omega
        · simp only [hourLen, dayLen] at *
          omega
        · simp only [hourLen, dayLen] at *
          omega
        · simp only [hourLen, dayLen] at *
          omega
        · intro t ht
          have h9 := hf.2.2.2.1 t ht
          have hp : current + h2 * hourLen + (m : Int) < endDate now :=
            of_decide_eq_true h9.1
          have h10 := h9.2
          constructor
          · simp only [hourLen, dayLen] at *
            omega
          · simp only [hourLen, dayLen] at *
            omega
        · intro hge2
          rw [hsched] at hge2
          exact hf.2.2.2.2 (decide_eq_false (not_lt.mpr hge2))
      · obtain ⟨P, Pk, Puk, hP⟩ : ∃ x y z,
            appointmentGenerate g u (k + 3) uk c.id c.homeId
              (choiceD cgs 0 g k)
              (dateFloor current + randInt g (k + 1) 8 17 * hourLen +
                ((choiceD ([0, 15, 30, 45] : List Nat) 0 g (k + 2) : Nat) :
                  Int))
              (decide (dateFloor current + randInt g (k + 1) 8 17 * hourLen +
                ((choiceD ([0, 15, 30, 45] : List Nat) 0 g (k + 2) : Nat) :
                  Int) < endDate now)) = (x, y, z) := ⟨_, _, _, rfl⟩
        rw [hP] at ha
        have hal2 : dateFloor (current + randInt g Pk 14 42 * dayLen) =
            current + randInt g Pk 14 42 * dayLen :=
          dateFloor_add_days current _ hal
        have hge2 : c.admissionDate + 7 * dayLen ≤
            current + randInt g Pk 14 42 * dayLen := by
          have hnn : (0 : Int) ≤ randInt g Pk 14 42 * dayLen :=
            mul_nonneg (randInt_nonneg _ _ _ _) (by norm_num [dayLen])
          omega
        exact ih _ _ _ hal2 hge2 a ha
    · cases ha

theorem pastAppointments_bounds (now : Int) (g u : Rand)
    (pools : List (Id × List Id)) (fuel : Nat) :
    ∀ (clients : List Client) (k uk : Nat),
      (∀ c ∈ clients, ∃ h, clientInHorizon now h c) →
      ∀ a ∈ (pastAppointments now g u pools fuel clients k uk).1,
        (startDate now - dayLen < a.createdAt ∧
          a.createdAt ≤ a.scheduledAt - 3 * dayLen) ∧
        (startDate now ≤ a.scheduledAt ∧
          a.scheduledAt < endDate now + dayLen) ∧
        (∀ t, a.completedAt = some t →
          a.scheduledAt < endDate now ∧ t ≤ a.scheduledAt + 2 * hourLen) ∧
        (endDate now ≤ a.scheduledAt →
          a.status = "Scheduled" ∧ a.completedAt = none) := by
  intro clients
  induction clients with
  | nil => intro k uk hcl a ha; cases ha
  | cons c rest ih =>
    intro k uk hcl a ha
    simp only [pastAppointments] at ha
    rcases List.mem_append.mp ha with ha | ha
    · obtain ⟨h0, hc⟩ := hcl c (List.mem_cons_self _ _)
      have hdis : c.dischargeDate.getD (endDate now) ≤ endDate now := by
        rcases hd : c.dischargeDate with _ | d
        · simp
        · have h9 := hc.2.2.2.2.2.2 d hd
          simp only [Option.getD]
          omega
      have hsr := randInt_bounds g k 7 30 (by omega)
      obtain ⟨sr, hsrb, hsre⟩ : ∃ x, (7 ≤ x ∧ x ≤ 30) ∧
          randInt g k 7 30 = x := ⟨_, hsr, rfl⟩
      rw [hsre] at ha
      have hal : dateFloor (c.admissionDate + sr * dayLen) =
          c.admissionDate + sr * dayLen :=
        dateFloor_add_days _ _ (hc.2.2.2.2.2.1).symm
      have hge : c.admissionDate + 7 * dayLen ≤
          c.admissionDate + sr * dayLen := by
        simp only [dayLen]
        omega
      exact pastForClient_bounds now g u _ c hc.2.1 hdis fuel _ _ _
        hal hge a ha
    · exact ih _ _ (fun x hx => hcl x (List.mem_cons_of_mem _ hx)) a ha

theorem upcomingAll_bounds (now : Int) (g u : Rand)
    (pools : List (Id × List Id)) :
    ∀ (clients : List Client) (k uk : Nat),
      ∀ a ∈ (upcomingAll now g u pools clients k uk).1,
        endDate now < a.scheduledAt ∧
        a.scheduledAt < endDate now + 31 * dayLen ∧
        a.status = "Scheduled" ∧ a.completedAt = none ∧
        a.scheduledAt - 21 * dayLen ≤ a.createdAt ∧
        a.createdAt ≤ a.scheduledAt - 3 * dayLen := by
  intro clients
  induction clients with
  | nil => intro k uk a ha; cases ha
  | cons c rest ih =>
    intro k uk a ha
    simp only [upcomingAll] at ha
    split at ha
    · rcases List.mem_append.mp ha with ha | ha
      · exact upcomingForClient_spec now g u _ c _ _ _ a ha
      · exact ih _ _ a ha
    · exact ih _ _ a ha

/-- C2 (amended): every timestamp of the generated streams the claim names
(homes, clients, the five care-log streams, activities, incidents and
appointments) lies in the simulation horizon `[START_DATE, END_DATE)` up to
the code-driven exceptions the amended claim lists: care-log and activity
clock times on the final, partially simulated day exceed `END_DATE` by less
than one day; incident `updatedAt`/`closedAt` trail the occurrence by at
most 7 days (so at most 7 days past `END_DATE`); appointments may be
scheduled up to 31 days past `END_DATE`, a `scheduledAt` at or beyond
`END_DATE` forces status `Scheduled` with no completion, a completion
implies the appointment was scheduled before `END_DATE` and trails it by at
most two hours, and appointment `createdAt` backdating (3-21 days before a
first appointment at least 7 days after an admission at least 13 full days
into the horizon) precedes `START_DATE` by less than one day. -/
theorem C2_amended_timestamp_bounds (now : Int) (g u : Rand) :
    (∀ h ∈ (generateDataset g u now).homes,
      startDate now ≤ h.createdAt ∧ h.createdAt < endDate now) ∧
    (∀ c ∈ (generateDataset g u now).clients,
      (startDate now ≤ c.admissionDate ∧ c.admissionDate < endDate now) ∧
      (startDate now ≤ c.createdAt ∧ c.createdAt < endDate now) ∧
      (∀ d, c.dischargeDate = some d →
        startDate now ≤ d ∧ d < endDate now)) ∧
    (∀ l ∈ (generateDataset g u now).adlLogs,
      startDate now ≤ l.timestamp ∧ l.timestamp < endDate now + dayLen ∧
      l.createdAt = l.timestamp) ∧
    (∀ l ∈ (generateDataset g u now).vitalsLogs,
      startDate now ≤ l.timestamp ∧ l.timestamp < endDate now + dayLen ∧
      l.createdAt = l.timestamp) ∧
    (∀ l ∈ (generateDataset g u now).medicationLogs,
      startDate now ≤ l.timestamp ∧ l.timestamp < endDate now + dayLen ∧
      l.createdAt = l.timestamp ∧
      startDate now ≤ l.scheduledTime ∧
      l.scheduledTime < endDate now + dayLen) ∧
    (∀ l ∈ (generateDataset g u now).romLogs,
      startDate now ≤ l.timestamp ∧ l.timestamp < endDate now + dayLen ∧
      l.createdAt = l.timestamp) ∧
    (∀ l ∈ (generateDataset g u now).behaviorNotes,
      startDate now ≤ l.timestamp ∧ l.timestamp < endDate now + dayLen ∧
      l.createdAt = l.timestamp) ∧
    (∀ a ∈ (generateDataset g u now).activities,
      (startDate now ≤ a.date ∧ a.date < endDate now) ∧
      (startDate now ≤ a.createdAt ∧ a.createdAt < endDate now) ∧
      (startDate now ≤ a.startTime ∧ a.endTime < endDate now + dayLen ∧
        a.startTime ≤ a.endTime) ∧
      a.updatedAt = none) ∧
    (∀ i ∈ (generateDataset g u now).incidents,
      (startDate now ≤ i.occurredAt ∧ i.occurredAt < endDate now) ∧
      i.createdAt = i.occurredAt ∧
      (∀ t, i.updatedAt = some t →
        i.occurredAt < t ∧ t ≤ i.occurredAt + 7 * dayLen) ∧
      (∀ t, i.closedAt = some t →
        i.occurredAt < t ∧ t ≤ i.occurredAt + 7 * dayLen) ∧
      (∀ p ∈ i.photos,
        startDate now ≤ p.createdAt ∧ p.createdAt < endDate now)) ∧
    (∀ a ∈ (generateDataset g u now).appointments,
      (startDate now - dayLen < a.createdAt ∧
        a.createdAt ≤ a.scheduledAt - 3 * dayLen) ∧
      (startDate now ≤ a.scheduledAt ∧
        a.scheduledAt < endDate now + 31 * dayLen) ∧
      (∀ t, a.completedAt = some t →
        a.scheduledAt < endDate now ∧ t ≤ a.scheduledAt + 2 * hourLen) ∧
      (endDate now ≤ a.scheduledAt →
        a.status = "Scheduled" ∧ a.completedAt = none)) := by
  have hhb : ∀ hb ∈ (phase1 g u (u 0) (homeOpenDates g now 0) 5 2).1,
      startDate now + 14 * dayLen ≤ hb.1.createdAt ∧
      hb.1.createdAt + 30 * dayLen < endDate now := by
    intro hb hhb2
    have h9 := homeOpenDates_bounds g now 0 _
      (phase1_createdAt g u (u 0) _ 5 2 hb hhb2)
    refine ⟨h9.1, ?_⟩
    have h92 := h9.2
    simp only [startDate, endDate, dayLen] at h92 ⊢
    omega
  have hhS : ∀ h ∈ (phase1 g u (u 0)
        (homeOpenDates g now 0) 5 2).1.map Prod.fst,
      startDate now ≤ h.createdAt := by
    intro h hh
    rcases List.mem_map.mp hh with ⟨hb, hhb2, rfl⟩
    have h91 := (hhb hb hhb2).1
    simp only [dayLen] at h91
    omega
  simp only [generateDataset]
  refine ⟨?_, ?_, ?_, ?_, ?_, ?_, ?_, ?_, ?_, ?_⟩
  · intro h hh
    rcases List.mem_map.mp hh with ⟨hb, hhb2, rfl⟩
    have h9 := homeOpenDates_bounds g now 0 _
      (phase1_createdAt g u (u 0) _ 5 2 hb hhb2)
    have h91 := h9.1
    have h92 := h9.2
    constructor
    · simp only [dayLen] at h91
      omega
    · simp only [startDate, endDate, dayLen] at h92 ⊢
      omega
  · intro c hc
    obtain ⟨h0, hcc⟩ := phase3All_horizon_flat now g u _ _ _ _ hhb c hc
    obtain ⟨hhid, h13, hlt, hle2, hcr, hall2, hdd⟩ := hcc
    refine ⟨⟨?_, hlt⟩, ⟨?_, hcr⟩, hdd⟩
    · simp only [dayLen] at h13
      omega
    · simp only [dayLen] at h13
      omega
  · intro l hl
    exact (phase4All_bounds now g u _ dayFuel _ _ _
      (phase3All_horizon_flat now g u _ _ _ _ hhb)).1 l hl
  · intro l hl
    exact (phase4All_bounds now g u _ dayFuel _ _ _
      (phase3All_horizon_flat now g u _ _ _ _ hhb)).2.1 l hl
  · intro l hl
    exact (phase4All_bounds now g u _ dayFuel _ _ _
      (phase3All_horizon_flat now g u _ _ _ _ hhb)).2.2.1 l hl
  · intro l hl
    exact (phase4All_bounds now g u _ dayFuel _ _ _
      (phase3All_horizon_flat now g u _ _ _ _ hhb)).2.2.2.1 l hl
  · intro l hl
    exact (phase4All_bounds now g u _ dayFuel _ _ _
      (phase3All_horizon_flat now g u _ _ _ _ hhb)).2.2.2.2 l hl
  · intro a ha
    exact phase5All_times now g u _ _ _ _ _ hhS a ha
  · intro i hi
    have h9 := phase6All_times now g u _ _ _ _ _ _ _ _ hhS i hi
    refine ⟨h9.1, h9.2.1, h9.2.2.1, h9.2.2.2.1, ?_⟩
    intro p hp
    rw [h9.2.2.2.2 p hp]
    exact h9.1
  · intro a ha
    rcases List.mem_append.mp ha with ha | ha
    · have h9 := pastAppointments_bounds now g u _ runFuel _ _ _
        (phase3All_horizon_flat now g u _ _ _ _ hhb) a ha
      refine ⟨h9.1, ⟨h9.2.1.1, ?_⟩, h9.2.2.1, h9.2.2.2⟩
      have h92 := h9.2.1.2
      simp only [dayLen] at h92 ⊢
      omega
    · have h9 := upcomingAll_bounds now g u _ _ _ _ a ha
      refine ⟨⟨?_, h9.2.2.2.2.2⟩, ⟨?_, h9.2.1⟩, ?_, ?_⟩
      · have h91 := h9.1
        have h92 := h9.2.2.2.2.1
        simp only [startDate, endDate, dayLen] at h91 h92 ⊢
        omega
      · have h91 := h9.1
        simp only [startDate, endDate, dayLen] at h91 ⊢
        omega
      · intro t ht
        rw [h9.2.2.2.1] at ht
        exact Option.noConfusion ht
      · intro hge
        exact ⟨h9.2.2.1, h9.2.2.2.1⟩

/-- Witness for the amended C2: the first home of a concretely generated
dataset has its creation timestamp inside the horizon. -/
theorem C2_amended_timestamp_bounds_witness :
    startDate (730 * dayLen) ≤
      ((generateDataset (fun _ => 14) (fun j => j)
          (730 * dayLen)).homes.headI).createdAt ∧
    ((generateDataset (fun _ => 14) (fun j => j)
        (730 * dayLen)).homes.headI).createdAt < endDate (730 * dayLen) :=
  (C2_amended_timestamp_bounds (730 * dayLen) (fun _ => 14) (fun j => j)).1
    ((generateDataset (fun _ => 14) (fun j => j) (730 * dayLen)).homes.headI)
    (by decide)

/-- C2 counterexample: each departure from `[START_DATE, END_DATE)` that the
amended claim carves out is reachable in the embedded phases, so the claim
as stated fails on the code.  In order: (1) an upcoming appointment for an
active client is scheduled strictly after `END_DATE`; (2) a Phase 6 incident
occurring inside the horizon is closed (and last updated) after `END_DATE`;
(3) a Phase 4 ADL log written on the final, partially simulated day carries
a working-hours timestamp past `END_DATE`; (4) a Completed past appointment
scheduled minutes before `END_DATE` has `completedAt = scheduledAt +
duration` past `END_DATE`; (5) a past appointment for an early admission is
created (backdated 21 days) before `START_DATE`. -/
theorem C2_counterexample :
    (∃ a ∈ (upcomingAll (730 * dayLen) (fun _ => 1) (fun j => j) [(9, [7])]
        [⟨5, 9, 101, 0, none, none, true, 0, 7, [], []⟩] 0 0).1,
      ¬(a.scheduledAt < endDate (730 * dayLen))) ∧
    (∃ i ∈ (phase6Home (730 * dayLen) (fun k => if k == 0 then 1 else 0)
        (fun j => j) 9 [7] [⟨5, 9, 101, 0, none, none, true, 0, 7, [], []⟩]
        1 [3] 1 (729 * dayLen + 100) IncidentGenState.init 0 0).1,
      ∃ t1, i.updatedAt = some t1 ∧ ¬(t1 < endDate (730 * dayLen)) ∧
      ∃ t2, i.closedAt = some t2 ∧ ¬(t2 < endDate (730 * dayLen))) ∧
    (∃ l ∈ (phase4ForClient (730 * dayLen + 30) (fun _ => 1) (fun j => j)
        [7] ⟨5, 9, 101, 730 * dayLen, none, none, true, 730 * dayLen + 10,
          7, [], []⟩ 2 0 0).1.adls,
      ¬(l.timestamp < endDate (730 * dayLen + 30))) ∧
    (∃ a ∈ (pastForClient (727 * dayLen + 500) (fun _ => 0) (fun j => j)
        [7] ⟨5, 9, 101, 720 * dayLen, none, none, true, 720 * dayLen + 5,
          7, [], []⟩ 2 (727 * dayLen) 0 0).1,
      ∃ t, a.completedAt = some t ∧ ¬(t < endDate (727 * dayLen + 500))) ∧
    (∃ a ∈ (pastForClient (730 * dayLen + 1000)
        (fun k => if k == 11 then 18 else 0) (fun j => j)
        [7] ⟨5, 9, 101, 14 * dayLen, none, none, true, 14 * dayLen + 1000,
          7, [], []⟩ 1 (21 * dayLen) 0 0).1,
      a.createdAt < startDate (730 * dayLen + 1000)) := by
  refine ⟨?_, ?_, ?_, ?_, ?_⟩ <;> decide

/-! ## C4: relabelling commute for the full dataset -/

theorem lookup_map_pairs {β γ : Type} (f : Nat → Nat)
    (hf : Function.Injective f) (G : β → γ) (a : Id) :
    ∀ m : List (Id × β),
      (m.map (fun p => (f p.1, G p.2))).lookup (f a) =
        (m.lookup a).map G := by
  intro m
  induction m with
  | nil => rfl
  | cons p rest ih =>
    show List.lookup (f a) ((f p.1, G p.2) :: rest.map (fun p => (f p.1, G p.2))) = _
    by_cases he : a = p.1
    · subst he
      simp [List.lookup]
    · simp only [List.lookup]
      rw [beq_eq_false_iff_ne.mpr (fun hh => he (hf hh)),
        beq_eq_false_iff_ne.mpr he]
      exact ih

theorem poolsGetD_map (f : Nat → Nat) (hf : Function.Injective f) (a : Id)
    (pools : List (Id × List Id)) :
    ((mapPoolIds f pools).lookup (f a)).getD [] =
      ((pools.lookup a).getD []).map f := by
  unfold mapPoolIds
  rw [lookup_map_pairs f hf (List.map f) a pools]
  rcases pools.lookup a with _ | v <;> rfl

theorem cbhGetD_map (f : Nat → Nat) (hf : Function.Injective f) (a : Id)
    (m : List (Id × List Client)) :
    ((mapClientsByHome f m).lookup (f a)).getD [] =
      ((m.lookup a).getD []).map (mapClientIds f) := by
  unfold mapClientsByHome
  rw [lookup_map_pairs f hf (List.map (mapClientIds f)) a m]
  rcases m.lookup a with _ | v <;> rfl

theorem lookup_mem {β : Type} (a : Id) (b : β) :
    ∀ m : List (Id × β), m.lookup a = some b → (a, b) ∈ m := by
  intro m
  induction m with
  | nil => intro h; cases h
  | cons p rest ih =>
    intro h
    simp only [List.lookup] at h
    by_cases he : a = p.1
    · rw [beq_iff_eq.mpr he] at h
      have hb := Option.some.inj h
      rw [he, ← hb]
      exact List.mem_cons_self _ _
    · rw [beq_eq_false_iff_ne.mpr he] at h
      exact List.mem_cons_of_mem _ (ih h)

theorem lookup_some_of_key_mem {β : Type} (a : Id) :
    ∀ m : List (Id × β), a ∈ m.map Prod.fst → ∃ b, m.lookup a = some b := by
  intro m
  induction m with
  | nil => intro h; cases h
  | cons p rest ih =>
    intro h
    by_cases he : a = p.1
    · refine ⟨p.2, ?_⟩
      simp only [List.lookup, beq_iff_eq.mpr he]
    · rcases List.mem_cons.mp h with h | h
      · exact absurd h he
      · obtain ⟨b, hb⟩ := ih h
        refine ⟨b, ?_⟩
        simp only [List.lookup, beq_eq_false_iff_ne.mpr he]
        exact hb

theorem lookup_appendPool (h0 cg a : Id) :
    ∀ pools : List (Id × List Id),
      (appendPool pools h0 cg).lookup a =
        (pools.lookup a).map (fun l => if a = h0 then l ++ [cg] else l) := by
  intro pools
  induction pools with
  | nil => rfl
  | cons p rest ih =>
    show List.lookup a ((if p.1 = h0 then (p.1, p.2 ++ [cg]) else p) ::
      appendPool rest h0 cg) = _
    by_cases hp : p.1 = h0
    · rw [if_pos hp]
      by_cases ha : a = p.1
      · subst ha
        simp [List.lookup, if_pos hp]
      · simp only [List.lookup, beq_eq_false_iff_ne.mpr ha]
        exact ih
    · rw [if_neg hp]
      by_cases ha : a = p.1
      · subst ha
        simp [List.lookup, if_neg hp]
      · simp only [List.lookup, beq_eq_false_iff_ne.mpr ha]
        exact ih

theorem appendPool_map (f : Nat → Nat) (hf : Function.Injective f)
    (h0 cg : Id) :
    ∀ pools : List (Id × List Id),
      appendPool (mapPoolIds f pools) (f h0) (f cg) =
        mapPoolIds f (appendPool pools h0 cg) := by
  intro pools
  induction pools with
  | nil => rfl
  | cons p rest ih =>
    by_cases hp : p.1 = h0
    · show (if f p.1 = f h0 then (f p.1, p.2.map f ++ [f cg])
          else (f p.1, p.2.map f)) ::
          appendPool (mapPoolIds f rest) (f h0) (f cg) =
        (fun q : Id × List Id => (f q.1, q.2.map f))
            (if p.1 = h0 then (p.1, p.2 ++ [cg]) else p) ::
          mapPoolIds f (appendPool rest h0 cg)
      rw [if_pos (congrArg f hp), if_pos hp, ih]
      simp [List.map_append]
    · show (if f p.1 = f h0 then (f p.1, p.2.map f ++ [f cg])
          else (f p.1, p.2.map f)) ::
          appendPool (mapPoolIds f rest) (f h0) (f cg) =
        (fun q : Id × List Id => (f q.1, q.2.map f))
            (if p.1 = h0 then (p.1, p.2 ++ [cg]) else p) ::
          mapPoolIds f (appendPool rest h0 cg)
      rw [if_neg (fun hh => hp (hf hh)), if_neg hp, ih]

theorem bundleAppend_map (f : Nat → Nat) (a b : LogBundle) :
    mapBundleIds f (bundleAppend a b) =
      bundleAppend (mapBundleIds f a) (mapBundleIds f b) := by
  simp [mapBundleIds, bundleAppend, List.map_append]

theorem adlGenerate_map (f : Nat → Nat) (g u : Rand) (k uk : Nat)
    (cid cg : Id) (t : Int) (ind : String) :
    adlGenerate g (fun j => f (u j)) k uk (f cid) (f cg) t ind =
      mapAdlIds f (adlGenerate g u k uk cid cg t ind) := rfl

theorem vitalsGenerate_map (f : Nat → Nat) (g u : Rand) (k uk : Nat)
    (cid cg : Id) (t : Int) (hy dia : Bool) :
    vitalsGenerate g (fun j => f (u j)) k uk (f cid) (f cg) t hy dia =
      mapVitalsIds f (vitalsGenerate g u k uk cid cg t hy dia) := rfl

theorem medicationGenerate_map (f : Nat → Nat) (g u : Rand) (k uk : Nat)
    (cid cg : Id) (t : Int) (med : String × String × String) :
    medicationGenerate g (fun j => f (u j)) k uk (f cid) (f cg) t med =
      mapMedIds f (medicationGenerate g u k uk cid cg t med) := rfl

theorem romGenerate_map (f : Nat → Nat) (g u : Rand) (k uk : Nat)
    (cid cg : Id) (t : Int) :
    romGenerate g (fun j => f (u j)) k uk (f cid) (f cg) t =
      mapRomIds f (romGenerate g u k uk cid cg t) := rfl

theorem behaviorGenerate_map (f : Nat → Nat) (g u : Rand) (k uk : Nat)
    (cid cg : Id) (t : Int) :
    behaviorGenerate g (fun j => f (u j)) k uk (f cid) (f cg) t =
      mapBehaviorIds f (behaviorGenerate g u k uk cid cg t) := rfl

theorem phase4Adls_map (f : Nat → Nat) (g u : Rand) (cid cg : Id)
    (current : Int) (ind : String) :
    ∀ (n k uk : Nat),
      phase4Adls g (fun j => f (u j)) (f cid) (f cg) current ind n k uk =
        ((phase4Adls g u cid cg current ind n k uk).1.map (mapAdlIds f),
         (phase4Adls g u cid cg current ind n k uk).2.1,
         (phase4Adls g u cid cg current ind n k uk).2.2) := by
  intro n
  induction n with
  | zero => intro k uk; rfl
  | succ n ih =>
    intro k uk
    simp only [phase4Adls]
    rw [adlGenerate_map, ih (k + 8) (uk + 1)]
    rfl

theorem phase4Vitals_map (f : Nat → Nat) (g u : Rand) (cid cg : Id)
    (current : Int) (hy dia : Bool) :
    ∀ (n k uk : Nat),
      phase4Vitals g (fun j => f (u j)) (f cid) (f cg) current hy dia
          n k uk =
        ((phase4Vitals g u cid cg current hy dia n k uk).1.map
            (mapVitalsIds f),
         (phase4Vitals g u cid cg current hy dia n k uk).2.1,
         (phase4Vitals g u cid cg current hy dia n k uk).2.2) := by
  intro n
  induction n with
  | zero => intro k uk; rfl
  | succ n ih =>
    intro k uk
    simp only [phase4Vitals]
    rw [vitalsGenerate_map, ih (k + 6) (uk + 1)]
    rfl

theorem phase4Meds_map (f : Nat → Nat) (g u : Rand) (cid cg : Id)
    (current : Int) :
    ∀ (meds : List (String × String × String)) (k uk : Nat),
      phase4Meds g (fun j => f (u j)) (f cid) (f cg) current meds k uk =
        ((phase4Meds g u cid cg current meds k uk).1.map (mapMedIds f),
         (phase4Meds g u cid cg current meds k uk).2.1,
         (phase4Meds g u cid cg current meds k uk).2.2) := by
  intro meds
  induction meds with
  | nil => intro k uk; rfl
  | cons med rest ih =>
    intro k uk
    simp only [phase4Meds]
    by_cases hcoin : randBool g k = true
    · rw [if_pos hcoin, if_pos hcoin, medicationGenerate_map,
        ih (k + 5) (uk + 1)]
      rfl
    · rw [if_neg hcoin, if_neg hcoin]
      exact ih (k + 1) uk

theorem phase4Day_map (f : Nat → Nat) (g u : Rand) (c : Client)
    (cgs : List Id) (ind : String) (current : Int) (k uk : Nat)
    (hcg : cgs ≠ []) :
    phase4Day g (fun j => f (u j)) (mapClientIds f c) (cgs.map f) ind
        current k uk =
      (mapBundleIds f (phase4Day g u c cgs ind current k uk).1,
       (phase4Day g u c cgs ind current k uk).2.1,
       (phase4Day g u c cgs ind current k uk).2.2) := by
  have hid : (mapClientIds f c).id = f c.id := rfl
  have hmed : (mapClientIds f c).medications = c.medications := rfl
  have hhy : hasHypertension (mapClientIds f c) = hasHypertension c := rfl
  have hdia : hasDiabetes (mapClientIds f c) = hasDiabetes c := rfl
  have hAif : ∀ (k2 uk2 : Nat),
      (if randBool g (k2 + 1) = true then
        phase4Adls g (fun j => f (u j)) (f c.id) (f (choiceD cgs 0 g k2))
          current ind (randNat g (k2 + 2) 1 2) (k2 + 3) uk2
      else ([], k2 + 2, uk2)) =
      ((if randBool g (k2 + 1) = true then
          phase4Adls g u c.id (choiceD cgs 0 g k2) current ind
            (randNat g (k2 + 2) 1 2) (k2 + 3) uk2
        else ([], k2 + 2, uk2)).1.map (mapAdlIds f),
       (if randBool g (k2 + 1) = true then
          phase4Adls g u c.id (choiceD cgs 0 g k2) current ind
            (randNat g (k2 + 2) 1 2) (k2 + 3) uk2
        else ([], k2 + 2, uk2)).2.1,
       (if randBool g (k2 + 1) = true then
          phase4Adls g u c.id (choiceD cgs 0 g k2) current ind
            (randNat g (k2 + 2) 1 2) (k2 + 3) uk2
        else ([], k2 + 2, uk2)).2.2) := by
    intro k2 uk2
    by_cases hcoin : randBool g (k2 + 1) = true
    · simp only [if_pos hcoin]
      rw [phase4Adls_map]
    · simp only [if_neg hcoin]
      rfl
  have hVif : ∀ (k2 uk2 : Nat),
      (if randBool g k2 = true then
        phase4Vitals g (fun j => f (u j)) (f c.id) (f (choiceD cgs 0 g k))
          current (hasHypertension c) (hasDiabetes c)
          (randNat g (k2 + 1) 1 2) (k2 + 2) uk2
      else ([], k2 + 1, uk2)) =
      ((if randBool g k2 = true then
          phase4Vitals g u c.id (choiceD cgs 0 g k) current
            (hasHypertension c) (hasDiabetes c)
            (randNat g (k2 + 1) 1 2) (k2 + 2) uk2
        else ([], k2 + 1, uk2)).1.map (mapVitalsIds f),
       (if randBool g k2 = true then
          phase4Vitals g u c.id (choiceD cgs 0 g k) current
            (hasHypertension c) (hasDiabetes c)
            (randNat g (k2 + 1) 1 2) (k2 + 2) uk2
        else ([], k2 + 1, uk2)).2.1,
       (if randBool g k2 = true then
          phase4Vitals g u c.id (choiceD cgs 0 g k) current
            (hasHypertension c) (hasDiabetes c)
            (randNat g (k2 + 1) 1 2) (k2 + 2) uk2
        else ([], k2 + 1, uk2)).2.2) := by
    intro k2 uk2
    by_cases hcoin : randBool g k2 = true
    · simp only [if_pos hcoin]
      rw [phase4Vitals_map]
    · simp only [if_neg hcoin]
      rfl
  have hRif : ∀ (k2 uk2 : Nat),
      (if randBool g k2 = true then
        ([romGenerate g (fun j => f (u j)) (k2 + 3) uk2 (f c.id)
            (f (choiceD cgs 0 g k)) (workingHourTime g (k2 + 1) current)],
         k2 + 5, uk2 + 1)
      else ([], k2 + 1, uk2)) =
      ((if randBool g k2 = true then
          ([romGenerate g u (k2 + 3) uk2 c.id (choiceD cgs 0 g k)
              (workingHourTime g (k2 + 1) current)], k2 + 5, uk2 + 1)
        else ([], k2 + 1, uk2)).1.map (mapRomIds f),
       (if randBool g k2 = true then
          ([romGenerate g u (k2 + 3) uk2 c.id (choiceD cgs 0 g k)
              (workingHourTime g (k2 + 1) current)], k2 + 5, uk2 + 1)
        else ([], k2 + 1, uk2)).2.1,
       (if randBool g k2 = true then
          ([romGenerate g u (k2 + 3) uk2 c.id (choiceD cgs 0 g k)
              (workingHourTime g (k2 + 1) current)], k2 + 5, uk2 + 1)
        else ([], k2 + 1, uk2)).2.2) := by
    intro k2 uk2
    by_cases hcoin : randBool g k2 = true
    · simp only [if_pos hcoin]
      rw [romGenerate_map]
      rfl
    · simp only [if_neg hcoin]
      rfl
  have hBif : ∀ (k2 uk2 : Nat),
      (if randBool g k2 = true then
        ([behaviorGenerate g (fun j => f (u j)) (k2 + 3) uk2 (f c.id)
            (f (choiceD cgs 0 g k)) (workingHourTime g (k2 + 1) current)],
         k2 + 4, uk2 + 1)
      else ([], k2 + 1, uk2)) =
      ((if randBool g k2 = true then
          ([behaviorGenerate g u (k2 + 3) uk2 c.id (choiceD cgs 0 g k)
              (workingHourTime g (k2 + 1) current)], k2 + 4, uk2 + 1)
        else ([], k2 + 1, uk2)).1.map (mapBehaviorIds f),
       (if randBool g k2 = true then
          ([behaviorGenerate g u (k2 + 3) uk2 c.id (choiceD cgs 0 g k)
              (workingHourTime g (k2 + 1) current)], k2 + 4, uk2 + 1)
        else ([], k2 + 1, uk2)).2.1,
       (if randBool g k2 = true then
          ([behaviorGenerate g u (k2 + 3) uk2 c.id (choiceD cgs 0 g k)
              (workingHourTime g (k2 + 1) current)], k2 + 4, uk2 + 1)
        else ([], k2 + 1, uk2)).2.2) := by
    intro k2 uk2
    by_cases hcoin : randBool g k2 = true
    · simp only [if_pos hcoin]
      rw [behaviorGenerate_map]
      rfl
    · simp only [if_neg hcoin]
      rfl
  simp only [phase4Day, hid, hmed, hhy, hdia,
    choiceD_map f cgs 0 0 g k hcg]
  rw [hAif k uk]
  obtain ⟨A, Ak, Auk, hA⟩ : ∃ x y z, (if randBool g (k + 1) = true then
      phase4Adls g u c.id (choiceD cgs 0 g k) current ind
        (randNat g (k + 2) 1 2) (k + 3) uk
    else ([], k + 2, uk)) = (x, y, z) := ⟨_, _, _, rfl⟩
  simp only [hA]
  rw [hVif Ak Auk]
  obtain ⟨V, Vk, Vuk, hV⟩ : ∃ x y z, (if randBool g Ak = true then
      phase4Vitals g u c.id (choiceD cgs 0 g k) current (hasHypertension c)
        (hasDiabetes c) (randNat g (Ak + 1) 1 2) (Ak + 2) Auk
    else ([], Ak + 1, Auk)) = (x, y, z) := ⟨_, _, _, rfl⟩
  simp only [hV]
  rw [phase4Meds_map]
  obtain ⟨M, Mk, Muk, hM⟩ : ∃ x y z,
      phase4Meds g u c.id (choiceD cgs 0 g k) current c.medications Vk Vuk =
        (x, y, z) := ⟨_, _, _, rfl⟩
  simp only [hM]
  rw [hRif Mk Muk]
  obtain ⟨R, Rk, Ruk, hR⟩ : ∃ x y z, (if randBool g Mk = true then
      ([romGenerate g u (Mk + 3) Muk c.id (choiceD cgs 0 g k)
          (workingHourTime g (Mk + 1) current)], Mk + 5, Muk + 1)
    else ([], Mk + 1, Muk)) = (x, y, z) := ⟨_, _, _, rfl⟩
  simp only [hR]
  rw [hBif Rk Ruk]
  obtain ⟨B, Bk, Buk, hB⟩ : ∃ x y z, (if randBool g Rk = true then
      ([behaviorGenerate g u (Rk + 3) Ruk c.id (choiceD cgs 0 g k)
          (workingHourTime g (Rk + 1) current)], Rk + 4, Ruk + 1)
    else ([], Rk + 1, Ruk)) = (x, y, z) := ⟨_, _, _, rfl⟩
  simp only [hB]
  rfl

theorem phase4Days_map (f : Nat → Nat) (now : Int) (g u : Rand) (c : Client)
    (cgs : List Id) (ind : String) (hcg : cgs ≠ []) :
    ∀ (fuel : Nat) (current : Int) (k uk : Nat),
      phase4Days now g (fun j => f (u j)) (mapClientIds f c) (cgs.map f)
          ind fuel current k uk =
        (mapBundleIds f (phase4Days now g u c cgs ind fuel current k uk).1,
         (phase4Days now g u c cgs ind fuel current k uk).2.1,
         (phase4Days now g u c cgs ind fuel current k uk).2.2) := by
  intro fuel
  induction fuel with
  | zero => intro current k uk; rfl
  | succ fuel ih =>
    intro current k uk
    have hdd : (mapClientIds f c).dischargeDate = c.dischargeDate := rfl
    simp only [phase4Days, hdd]
    by_cases hlt : current < c.dischargeDate.getD (endDate now)
    · rw [if_pos hlt, if_pos hlt]
      rw [phase4Day_map f g u c cgs ind current k uk hcg]
      obtain ⟨D, Dk, Duk, hD⟩ : ∃ x y z,
          phase4Day g u c cgs ind current k uk = (x, y, z) := ⟨_, _, _, rfl⟩
      simp only [hD]
      rw [ih (current + dayLen) Dk Duk]
      obtain ⟨RT, Rk, Ruk, hRT⟩ : ∃ x y z,
          phase4Days now g u c cgs ind fuel (current + dayLen) Dk Duk =
            (x, y, z) := ⟨_, _, _, rfl⟩
      simp only [hRT]
      rw [bundleAppend_map]
    · rw [if_neg hlt, if_neg hlt]
      rfl

theorem phase4ForClient_map (f : Nat → Nat) (now : Int) (g u : Rand)
    (cgs : List Id) (c : Client) (fuel k uk : Nat) (hcg : cgs ≠ []) :
    phase4ForClient now g (fun j => f (u j)) (cgs.map f) (mapClientIds f c)
        fuel k uk =
      (mapBundleIds f (phase4ForClient now g u cgs c fuel k uk).1,
       (phase4ForClient now g u cgs c fuel k uk).2.1,
       (phase4ForClient now g u cgs c fuel k uk).2.2) := by
  have hadm : (mapClientIds f c).admissionDate = c.admissionDate := rfl
  simp only [phase4ForClient, hadm]
  exact phase4Days_map f now g u c cgs _ hcg fuel c.admissionDate (k + 1) uk

theorem phase4All_map (f : Nat → Nat) (hf : Function.Injective f)
    (now : Int) (g u : Rand) (pools : List (Id × List Id)) (fuel : Nat) :
    ∀ (clients : List Client) (k uk : Nat),
      (∀ c ∈ clients, ((pools.lookup c.homeId).getD []) ≠ []) →
      phase4All now g (fun j => f (u j)) (mapPoolIds f pools) fuel
          (clients.map (mapClientIds f)) k uk =
        (mapBundleIds f (phase4All now g u pools fuel clients k uk).1,
         (phase4All now g u pools fuel clients k uk).2.1,
         (phase4All now g u pools fuel clients k uk).2.2) := by
  intro clients
  induction clients with
  | nil => intro k uk hne; rfl
  | cons c rest ih =>
    intro k uk hne
    have hhid : (mapClientIds f c).homeId = f c.homeId := rfl
    simp only [phase4All, List.map_cons, hhid,
      poolsGetD_map f hf c.homeId pools]
    rw [phase4ForClient_map f now g u _ c fuel k uk
      (hne c (List.mem_cons_self _ _))]
    obtain ⟨O, Ok, Ouk, hO⟩ : ∃ x y z,
        phase4ForClient now g u ((pools.lookup c.homeId).getD []) c fuel
          k uk = (x, y, z) := ⟨_, _, _, rfl⟩
    simp only [hO]
    rw [ih Ok Ouk (fun x hx => hne x (List.mem_cons_of_mem _ hx))]
    obtain ⟨MO, Mk, Muk, hMO⟩ : ∃ x y z,
        phase4All now g u pools fuel rest Ok Ouk = (x, y, z) :=
      ⟨_, _, _, rfl⟩
    simp only [hMO]
    rw [bundleAppend_map]

theorem pastForClient_map (f : Nat → Nat) (now : Int) (g u : Rand)
    (cgs : List Id) (c : Client) (hcg : cgs ≠ []) :
    ∀ (fuel : Nat) (current : Int) (k uk : Nat),
      pastForClient now g (fun j => f (u j)) (cgs.map f) (mapClientIds f c)
          fuel current k uk =
        ((pastForClient now g u cgs c fuel current k uk).1.map
            (mapAppointmentIds f),
         (pastForClient now g u cgs c fuel current k uk).2.1,
         (pastForClient now g u cgs c fuel current k uk).2.2) := by
  intro fuel
  induction fuel with
  | zero => intro current k uk; rfl
  | succ fuel ih =>
    intro current k uk
    have hdd : (mapClientIds f c).dischargeDate = c.dischargeDate := rfl
    have hid : (mapClientIds f c).id = f c.id := rfl
    have hhid : (mapClientIds f c).homeId = f c.homeId := rfl
    simp only [pastForClient, hdd, hid, hhid]
    by_cases hlt : current < c.dischargeDate.getD (endDate now)
    · rw [if_pos hlt, if_pos hlt]
      obtain ⟨m, hm⟩ : ∃ x : Nat,
          choiceD ([0, 15, 30, 45] : List Nat) 0 g (k + 2) = x := ⟨_, rfl⟩
      rw [hm, choiceD_map f cgs 0 0 g k hcg,
        appointmentGenerate_map f g u (k + 3) uk c.id c.homeId
          (choiceD cgs 0 g k)
          (dateFloor current + randInt g (k + 1) 8 17 * hourLen + (m : Int))
          (decide (dateFloor current + randInt g (k + 1) 8 17 * hourLen +
            (m : Int) < endDate now))]
      obtain ⟨P1, Pk, Puk, hP⟩ : ∃ x y z,
          appointmentGenerate g u (k + 3) uk c.id c.homeId
            (choiceD cgs 0 g k)
            (dateFloor current + randInt g (k + 1) 8 17 * hourLen +
              (m : Int))
            (decide (dateFloor current + randInt g (k + 1) 8 17 * hourLen +
              (m : Int) < endDate now)) = (x, y, z) := ⟨_, _, _, rfl⟩
      simp only [hP]
      rw [ih (current + randInt g Pk 14 42 * dayLen) (Pk + 1) Puk]
      rfl
    · rw [if_neg hlt, if_neg hlt]
      rfl

theorem pastAppointments_map (f : Nat → Nat) (hf : Function.Injective f)
    (now : Int) (g u : Rand) (pools : List (Id × List Id)) (fuel : Nat) :
    ∀ (clients : List Client) (k uk : Nat),
      (∀ c ∈ clients, ((pools.lookup c.homeId).getD []) ≠ []) →
      pastAppointments now g (fun j => f (u j)) (mapPoolIds f pools) fuel
          (clients.map (mapClientIds f)) k uk =
        ((pastAppointments now g u pools fuel clients k uk).1.map
            (mapAppointmentIds f),
         (pastAppointments now g u pools fuel clients k uk).2.1,
         (pastAppointments now g u pools fuel clients k uk).2.2) := by
  intro clients
  induction clients with
  | nil => intro k uk hne; rfl
  | cons c rest ih =>
    intro k uk hne
    have hhid : (mapClientIds f c).homeId = f c.homeId := rfl
    have hadm : (mapClientIds f c).admissionDate = c.admissionDate := rfl
    simp only [pastAppointments, List.map_cons, hhid, hadm,
      poolsGetD_map f hf c.homeId pools]
    rw [pastForClient_map f now g u _ c (hne c (List.mem_cons_self _ _))
      fuel (c.admissionDate + randInt g k 7 30 * dayLen) (k + 1) uk]
    obtain ⟨O1, Ok, Ouk, hO⟩ : ∃ x y z,
        pastForClient now g u ((pools.lookup c.homeId).getD []) c fuel
          (c.admissionDate + randInt g k 7 30 * dayLen) (k + 1) uk =
          (x, y, z) := ⟨_, _, _, rfl⟩
    simp only [hO]
    rw [ih Ok Ouk (fun x hx => hne x (List.mem_cons_of_mem _ hx))]
    simp [List.map_append]

theorem upcomingAll_map (f : Nat → Nat) (hf : Function.Injective f)
    (now : Int) (g u : Rand) (pools : List (Id × List Id)) :
    ∀ (clients : List Client) (k uk : Nat),
      (∀ c ∈ clients, ((pools.lookup c.homeId).getD []) ≠ []) →
      upcomingAll now g (fun j => f (u j)) (mapPoolIds f pools)
          (clients.map (mapClientIds f)) k uk =
        ((upcomingAll now g u pools clients k uk).1.map
            (mapAppointmentIds f),
         (upcomingAll now g u pools clients k uk).2.1,
         (upcomingAll now g u pools clients k uk).2.2) := by
  intro clients
  induction clients with
  | nil => intro k uk hne; rfl
  | cons c rest ih =>
    intro k uk hne
    simp only [upcomingAll, List.map_cons]
    by_cases ha : c.isActive = true
    · rw [if_pos (show (mapClientIds f c).isActive = true from ha),
        if_pos ha]
      have hhid : (mapClientIds f c).homeId = f c.homeId := rfl
      rw [hhid, poolsGetD_map f hf c.homeId pools,
        upcomingForClient_map f now g u _ c
          (hne c (List.mem_cons_self _ _)) (randNat g k 0 2) (k + 1) uk]
      obtain ⟨U1, Uk, Uuk, hU⟩ : ∃ x y z,
          upcomingForClient now g u ((pools.lookup c.homeId).getD []) c
            (randNat g k 0 2) (k + 1) uk = (x, y, z) := ⟨_, _, _, rfl⟩
      simp only [hU]
      rw [ih Uk Uuk (fun x hx => hne x (List.mem_cons_of_mem _ hx))]
      simp [List.map_append]
    · rw [if_neg (show ¬ (mapClientIds f c).isActive = true from ha),
        if_neg ha]
      exact ih k uk (fun x hx => hne x (List.mem_cons_of_mem _ hx))

theorem homeGenerate_map (f : Nat → Nat) (g u : Rand) (k uk : Nat)
    (d : Int) (adminId : Id) :
    homeGenerate g (fun j => f (u j)) k uk d (f adminId) =
      mapHomeIds f (homeGenerate g u k uk d adminId) := rfl

theorem bedsGenerate_map (f : Nat → Nat) (u : Rand) (uk : Nat)
    (home : Home) :
    bedsGenerate (fun j => f (u j)) uk (mapHomeIds f home) =
      (bedsGenerate u uk home).map (mapBedIds f) := by
  unfold bedsGenerate
  have hcap : (mapHomeIds f home).capacity = home.capacity := rfl
  rw [hcap, List.map_map]
  rfl

theorem phase1_map (f : Nat → Nat) (g u : Rand) (adminId : Id) :
    ∀ (ds : List Int) (k uk : Nat),
      phase1 g (fun j => f (u j)) (f adminId) ds k uk =
        ((phase1 g u adminId ds k uk).1.map
            (fun p => (mapHomeIds f p.1, p.2.map (mapBedIds f))),
         (phase1 g u adminId ds k uk).2.1,
         (phase1 g u adminId ds k uk).2.2) := by
  intro ds
  induction ds with
  | nil => intro k uk; rfl
  | cons d rest ih =>
    intro k uk
    simp only [phase1]
    rw [homeGenerate_map, bedsGenerate_map]
    have hcap : (mapHomeIds f (homeGenerate g u k uk d adminId)).capacity =
        (homeGenerate g u k uk d adminId).capacity := rfl
    rw [hcap, ih (k + 1) (uk + 1 + (homeGenerate g u k uk d adminId).capacity)]
    rfl

theorem caregiverGenerate_map (f : Nat → Nat) (u : Rand) (uk : Nat)
    (hireDate : Int) (homeId adminId : Id) :
    caregiverGenerate (fun j => f (u j)) uk hireDate (f homeId)
        (f adminId) =
      (mapUserIds f (caregiverGenerate u uk hireDate homeId adminId).1,
       mapAssignmentIds f
        (caregiverGenerate u uk hireDate homeId adminId).2) := rfl

theorem phase2Home_map (f : Nat → Nat) (now : Int) (g u : Rand)
    (adminId : Id) (home : Home) :
    ∀ (n k uk : Nat),
      phase2Home g (fun j => f (u j)) now (f adminId) (mapHomeIds f home)
          n k uk =
        ((phase2Home g u now adminId home n k uk).1.map (mapUserIds f),
         (phase2Home g u now adminId home n k uk).2.1.map
            (mapAssignmentIds f),
         (phase2Home g u now adminId home n k uk).2.2.1.map f,
         (phase2Home g u now adminId home n k uk).2.2.2.1,
         (phase2Home g u now adminId home n k uk).2.2.2.2) := by
  intro n
  induction n with
  | zero => intro k uk; rfl
  | succ n ih =>
    intro k uk
    have hcd : (mapHomeIds f home).createdAt = home.createdAt := rfl
    have hidh : (mapHomeIds f home).id = f home.id := rfl
    simp only [phase2Home, hcd, hidh]
    rw [ih (k + 1) (uk + 2)]
    rfl

theorem phase2_map (f : Nat → Nat) (now : Int) (g u : Rand) (adminId : Id) :
    ∀ (homes : List Home) (k uk : Nat),
      phase2 g (fun j => f (u j)) now (f adminId)
          (homes.map (mapHomeIds f)) k uk =
        ((phase2 g u now adminId homes k uk).1.map (mapUserIds f),
         (phase2 g u now adminId homes k uk).2.1.map (mapAssignmentIds f),
         mapPoolIds f (phase2 g u now adminId homes k uk).2.2.1,
         (phase2 g u now adminId homes k uk).2.2.2.1,
         (phase2 g u now adminId homes k uk).2.2.2.2) := by
  intro homes
  induction homes with
  | nil => intro k uk; rfl
  | cons home rest ih =>
    intro k uk
    simp only [phase2, List.map_cons]
    rw [phase2Home_map f now g u adminId home (randNat g k 2 3) (k + 1) uk]
    obtain ⟨O1, O2, O3, Ok, Ouk, hO⟩ : ∃ v w x y z,
        phase2Home g u now adminId home (randNat g k 2 3) (k + 1) uk =
          (v, w, x, y, z) := ⟨_, _, _, _, _, rfl⟩
    simp only [hO]
    rw [ih Ok Ouk]
    obtain ⟨M1, M2, M3, Mk, Muk, hM⟩ : ∃ v w x y z,
        phase2 g u now adminId rest Ok Ouk = (v, w, x, y, z) :=
      ⟨_, _, _, _, _, rfl⟩
    simp only [hM]
    have hidh : (mapHomeIds f home).id = f home.id := rfl
    rw [hidh]
    simp [mapPoolIds, List.map_append]

theorem crossHome_map (f : Nat → Nat) (hf : Function.Injective f)
    (g : Rand) (allHomes : List Home) (adminId : Id)
    (h3 : allHomes.take 3 ≠ []) :
    ∀ (hs : List Home) (pools : List (Id × List Id)) (k : Nat),
      (∀ h ∈ allHomes.take 3, ((pools.lookup h.id).getD []) ≠ []) →
      crossHome g (allHomes.map (mapHomeIds f)) (f adminId)
          (hs.map (mapHomeIds f)) (mapPoolIds f pools) k =
        ((crossHome g allHomes adminId hs pools k).1.map
            (mapAssignmentIds f),
         mapPoolIds f (crossHome g allHomes adminId hs pools k).2.1,
         (crossHome g allHomes adminId hs pools k).2.2) := by
  intro hs
  induction hs with
  | nil => intro pools k hpl; rfl
  | cons home rest ih =>
    intro pools k hpl
    simp only [crossHome, List.map_cons]
    by_cases hcoin : randBool g k = true
    · rw [if_pos hcoin, if_pos hcoin]
      rw [← List.map_take,
        choiceD_map (mapHomeIds f) (allHomes.take 3) ⟨0, 0, false, 0, 0⟩
          ⟨0, 0, false, 0, 0⟩ g (k + 1) h3]
      have hearl : (mapHomeIds f
          (choiceD (allHomes.take 3) ⟨0, 0, false, 0, 0⟩ g (k + 1))).id =
          f (choiceD (allHomes.take 3) ⟨0, 0, false, 0, 0⟩ g (k + 1)).id :=
        rfl
      rw [hearl, poolsGetD_map f hf _ pools]
      have hpne := hpl _ (choiceD_mem (allHomes.take 3) ⟨0, 0, false, 0, 0⟩
        g (k + 1) h3)
      rw [choiceD_map f _ 0 0 g (k + 2) hpne]
      have hcd : (mapHomeIds f home).createdAt = home.createdAt := rfl
      have hidh : (mapHomeIds f home).id = f home.id := rfl
      rw [hcd, hidh, appendPool_map f hf home.id
        (choiceD ((pools.lookup (choiceD (allHomes.take 3)
          ⟨0, 0, false, 0, 0⟩ g (k + 1)).id).getD []) 0 g (k + 2)) pools]
      rw [ih (appendPool pools home.id _) (k + 4) ?_]
      · rfl
      · intro h hh
        rw [lookup_appendPool]
        rcases hlk : pools.lookup h.id with _ | v
        · exfalso
          have h9 := hpl h hh
          rw [hlk] at h9
          exact h9 rfl
        · have h9 := hpl h hh
          rw [hlk] at h9
          simp only [Option.map_some', Option.getD_some] at h9 ⊢
          by_cases he : h.id = home.id
          · rw [if_pos he]
            simp
          · rw [if_neg he]
            exact h9
    · rw [if_neg hcoin, if_neg hcoin]
      exact ih pools (k + 1) hpl

theorem lookupConsSelf {β : Type} (a : Id) (b : β) (m : List (Id × β)) :
    List.lookup a ((a, b) :: m) = some b := by
  simp [List.lookup]

theorem lookupConsNe {β : Type} (a c : Id) (b : β) (m : List (Id × β))
    (h : a ≠ c) : List.lookup a ((c, b) :: m) = List.lookup a m := by
  simp [List.lookup, beq_eq_false_iff_ne.mpr h]

theorem phase1_length (g u : Rand) (adminId : Id) :
    ∀ (ds : List Int) (k uk : Nat),
      (phase1 g u adminId ds k uk).1.length = ds.length := by
  intro ds
  induction ds with
  | nil => intro k uk; rfl
  | cons d rest ih =>
    intro k uk
    simp only [phase1, List.length_cons, ih]

theorem phase2Home_pool_len (g u : Rand) (now : Int) (adminId : Id)
    (home : Home) :
    ∀ (n k uk : Nat),
      ((phase2Home g u now adminId home n k uk).2.2.1).length = n := by
  intro n
  induction n with
  | zero => intro k uk; rfl
  | succ n ih =>
    intro k uk
    simp only [phase2Home, List.length_cons, ih]

theorem phase2_lookup_ne (g u : Rand) (now : Int) (adminId : Id) :
    ∀ (homes : List Home) (k uk : Nat) (a : Id), a ∈ homes.map Home.id →
      ((((phase2 g u now adminId homes k uk).2.2.1).lookup a).getD []) ≠
        [] := by
  intro homes
  induction homes with
  | nil => intro k uk a ha; cases ha
  | cons home rest ih =>
    intro k uk a ha
    simp only [phase2]
    by_cases he : a = home.id
    · subst he
      rw [lookupConsSelf]
      intro hnil
      simp only [Option.getD_some] at hnil
      have hlen := phase2Home_pool_len g u now adminId home
        (randNat g k 2 3) (k + 1) uk
      rw [hnil] at hlen
      simp only [List.length_nil, randNat] at hlen
      omega
    · rw [lookupConsNe a home.id _ _ he]
      have ha2 : a ∈ rest.map Home.id := by
        rcases List.mem_map.mp ha with ⟨x, hx, rfl⟩
        rcases List.mem_cons.mp hx with rfl | hx
        · exact absurd rfl he
        · exact List.mem_map.mpr ⟨x, hx, rfl⟩
      exact ih _ _ a ha2

theorem appendPool_lookup_ne (pools : List (Id × List Id)) (h0 cg a : Id)
    (h : ((pools.lookup a).getD []) ≠ []) :
    (((appendPool pools h0 cg).lookup a).getD []) ≠ [] := by
  rw [lookup_appendPool]
  rcases hlk : pools.lookup a with _ | v
  · rw [hlk] at h
    exact absurd rfl h
  · rw [hlk] at h
    simp only [Option.map_some', Option.getD_some] at h ⊢
    by_cases he : a = h0
    · rw [if_pos he]
      simp
    · rw [if_neg he]
      exact h

theorem crossHome_lookup_ne (g : Rand) (allHomes : List Home)
    (adminId : Id) :
    ∀ (hs : List Home) (pools : List (Id × List Id)) (k : Nat) (a : Id),
      ((pools.lookup a).getD []) ≠ [] →
      ((((crossHome g allHomes adminId hs pools k).2.1).lookup a).getD [])
        ≠ [] := by
  intro hs
  induction hs with
  | nil => intro pools k a h; exact h
  | cons home rest ih =>
    intro pools k a h
    simp only [crossHome]
    by_cases hcoin : randBool g k = true
    · rw [if_pos hcoin]
      exact ih _ (k + 4) a (appendPool_lookup_ne pools home.id _ a h)
    · rw [if_neg hcoin]
      exact ih pools (k + 1) a h

theorem phase3All_keys (now : Int) (g u : Rand)
    (pools : List (Id × List Id)) :
    ∀ (hbs : List (Home × List Bed)) (k uk : Nat),
      (phase3All now g u pools hbs k uk).1.map Prod.fst =
        hbs.map (fun hb => hb.1.id) := by
  intro hbs
  induction hbs with
  | nil => intro k uk; rfl
  | cons hb rest ih =>
    intro k uk
    simp only [phase3All, List.map_cons, ih]

theorem phase3All_map (f : Nat → Nat) (hf : Function.Injective f)
    (now : Int) (g u : Rand) (pools : List (Id × List Id)) :
    ∀ (hbs : List (Home × List Bed)) (k uk : Nat),
      (∀ hb ∈ hbs, ((pools.lookup hb.1.id).getD []) ≠ []) →
      phase3All now g (fun j => f (u j)) (mapPoolIds f pools)
          (hbs.map (fun p => (mapHomeIds f p.1, p.2.map (mapBedIds f))))
          k uk =
        (mapClientsByHome f (phase3All now g u pools hbs k uk).1,
         (phase3All now g u pools hbs k uk).2.1,
         (phase3All now g u pools hbs k uk).2.2) := by
  intro hbs
  induction hbs with
  | nil => intro k uk hne; rfl
  | cons hb rest ih =>
    intro k uk hne
    simp only [phase3All, List.map_cons]
    have hidh : (mapHomeIds f hb.1).id = f hb.1.id := rfl
    have hcd : (mapHomeIds f hb.1).createdAt = hb.1.createdAt := rfl
    have hbeds : (hb.2.map (mapBedIds f)).map Bed.id =
        (hb.2.map Bed.id).map f := by
      rw [List.map_map, List.map_map]
      rfl
    rw [hidh, hcd, hbeds, poolsGetD_map f hf hb.1.id pools,
      phase3Home_map f hf now g u hb.1.id (hb.2.map Bed.id) _
        hb.1.createdAt runFuel k uk (hne hb (List.mem_cons_self _ _))]
    simp only [mapPhase3State]
    rw [ih _ _ (fun x hx => hne x (List.mem_cons_of_mem _ hx))]
    rfl

theorem phase5All_map (f : Nat → Nat) (hf : Function.Injective f)
    (now : Int) (g u : Rand) (pools : List (Id × List Id))
    (cbh : List (Id × List Client)) :
    ∀ (homes : List Home) (k uk : Nat),
      (∀ h ∈ homes, ((pools.lookup h.id).getD []) ≠ []) →
      phase5All now g (fun j => f (u j)) (mapPoolIds f pools)
          (mapClientsByHome f cbh) (homes.map (mapHomeIds f)) k uk =
        ((phase5All now g u pools cbh homes k uk).1.map (mapActivityIds f),
         (phase5All now g u pools cbh homes k uk).2.1,
         (phase5All now g u pools cbh homes k uk).2.2) := by
  intro homes
  induction homes with
  | nil => intro k uk hne; rfl
  | cons home rest ih =>
    intro k uk hne
    simp only [phase5All, List.map_cons]
    have hidh : (mapHomeIds f home).id = f home.id := rfl
    have hcd : (mapHomeIds f home).createdAt = home.createdAt := rfl
    rw [hidh, hcd, poolsGetD_map f hf home.id pools,
      cbhGetD_map f hf home.id cbh,
      phase5Home_map f now g u home.id _ _
        (hne home (List.mem_cons_self _ _)) runFuel
        (home.createdAt + 7 * dayLen) k uk]
    obtain ⟨O1, Ok, Ouk, hO⟩ : ∃ x y z,
        phase5Home now g u home.id ((pools.lookup home.id).getD [])
          ((cbh.lookup home.id).getD []) runFuel
          (home.createdAt + 7 * dayLen) k uk = (x, y, z) := ⟨_, _, _, rfl⟩
    simp only [hO]
    rw [ih Ok Ouk (fun x hx => hne x (List.mem_cons_of_mem _ hx))]
    simp [List.map_append]

theorem phase6All_map (f : Nat → Nat) (hf : Function.Injective f)
    (now : Int) (g u : Rand) (pools : List (Id × List Id))
    (cbh : List (Id × List Client)) (adminUserIds : List Id) :
    ∀ (homes : List Home) (seq : Nat) (st : IncidentGenState) (k uk : Nat),
      (∀ h ∈ homes, ((pools.lookup h.id).getD []) ≠ []) →
      phase6All now g (fun j => f (u j)) (mapPoolIds f pools)
          (mapClientsByHome f cbh) (adminUserIds.map f)
          (homes.map (mapHomeIds f)) seq (mapIncStateIds f st) k uk =
        ((phase6All now g u pools cbh adminUserIds homes seq st k uk).1.map
            (mapIncidentIds f),
         mapIncStateIds f
          (phase6All now g u pools cbh adminUserIds homes seq st k uk).2.1,
         (phase6All now g u pools cbh adminUserIds homes seq st k uk).2.2.1,
         (phase6All now g u pools cbh adminUserIds homes seq st
            k uk).2.2.2) := by
  intro homes
  induction homes with
  | nil => intro seq st k uk hne; rfl
  | cons home rest ih =>
    intro seq st k uk hne
    simp only [phase6All, List.map_cons]
    have hidh : (mapHomeIds f home).id = f home.id := rfl
    have hcd : (mapHomeIds f home).createdAt = home.createdAt := rfl
    rw [hidh, hcd, poolsGetD_map f hf home.id pools,
      cbhGetD_map f hf home.id cbh,
      phase6Home_map f hf now g u home.id _ _ seq adminUserIds
        (hne home (List.mem_cons_self _ _)) runFuel
        (home.createdAt + randInt g k 14 45 * dayLen) st (k + 1) uk]
    obtain ⟨I1, Ist, Ik, Iuk, hI⟩ : ∃ w x y z,
        phase6Home now g u home.id ((pools.lookup home.id).getD [])
          ((cbh.lookup home.id).getD []) seq adminUserIds runFuel
          (home.createdAt + randInt g k 14 45 * dayLen) st (k + 1) uk =
          (w, x, y, z) := ⟨_, _, _, _, rfl⟩
    simp only [hI]
    rw [ih (seq + 1) Ist Ik Iuk
      (fun x hx => hne x (List.mem_cons_of_mem _ hx))]
    obtain ⟨M1, Mst, Mk, Muk, hM⟩ : ∃ w x y z,
        phase6All now g u pools cbh adminUserIds rest (seq + 1) Ist Ik Iuk =
          (w, x, y, z) := ⟨_, _, _, _, rfl⟩
    simp only [hM]
    simp [List.map_append]

theorem documentsForClient_map (f : Nat → Nat) (g u : Rand) (k uk : Nat)
    (c : Client) :
    documentsForClient g (fun j => f (u j)) k uk (mapClientIds f c) =
      (documentsForClient g u k uk c).map (mapDocumentIds f) := by
  have hid : (mapClientIds f c).id = f c.id := rfl
  have hadm : (mapClientIds f c).admissionDate = c.admissionDate := rfl
  simp only [documentsForClient, hid, hadm]
  by_cases hcoin : randBool g (k + 5 + randNat g (k + 3) 1 2) = true
  · simp only [if_pos hcoin]
    simp only [List.map_cons, List.map_append, List.map_map]
    rfl
  · simp only [if_neg hcoin]
    simp only [List.map_cons, List.map_append, List.map_map]
    rfl

theorem phase8All_map (f : Nat → Nat) (g u : Rand) :
    ∀ (clients : List Client) (k uk : Nat),
      phase8All g (fun j => f (u j)) (clients.map (mapClientIds f)) k uk =
        ((phase8All g u clients k uk).1.map (mapDocumentIds f),
         (phase8All g u clients k uk).2.1,
         (phase8All g u clients k uk).2.2) := by
  intro clients
  induction clients with
  | nil => intro k uk; rfl
  | cons c rest ih =>
    intro k uk
    simp only [phase8All, List.map_cons]
    rw [documentsForClient_map f g u k uk c, List.length_map,
      ih (k + 9) (uk + (documentsForClient g u k uk c).length)]
    simp [List.map_append]

theorem mapAssignmentIds_comp (f1 f2 : Nat → Nat) (a : HomeAssignment) :
    mapAssignmentIds f1 (mapAssignmentIds f2 a) =
      mapAssignmentIds (fun j => f1 (f2 j)) a := by
  cases hs : a.seededId
  · simp [mapAssignmentIds, hs]
  · simp [mapAssignmentIds, hs]

theorem mapIncidentIds_comp (f1 f2 : Nat → Nat) (i : Incident) :
    mapIncidentIds f1 (mapIncidentIds f2 i) =
      mapIncidentIds (fun j => f1 (f2 j)) i := by
  have hp : ∀ p : Photo, mapPhotoIds f1 (mapPhotoIds f2 p) =
      mapPhotoIds (fun j => f1 (f2 j)) p := fun p => rfl
  simp [mapIncidentIds, Option.map_map, List.map_map, Function.comp_def, hp]

theorem mapActivityIds_comp (f1 f2 : Nat → Nat) (a : Activity) :
    mapActivityIds f1 (mapActivityIds f2 a) =
      mapActivityIds (fun j => f1 (f2 j)) a := by
  have hp : ∀ p : Participation,
      mapParticipationIds f1 (mapParticipationIds f2 p) =
      mapParticipationIds (fun j => f1 (f2 j)) p := fun p => rfl
  simp [mapActivityIds, List.map_map, Function.comp_def, hp]

theorem mapAppointmentIds_comp (f1 f2 : Nat → Nat) (a : Appointment) :
    mapAppointmentIds f1 (mapAppointmentIds f2 a) =
      mapAppointmentIds (fun j => f1 (f2 j)) a := by
  simp [mapAppointmentIds, Option.map_map, Function.comp_def]

theorem mapDatasetIds_comp (f1 f2 : Nat → Nat) (d : Dataset) :
    mapDatasetIds f1 (mapDatasetIds f2 d) =
      mapDatasetIds (fun j => f1 (f2 j)) d := by
  simp [mapDatasetIds, List.map_map, Function.comp_def,
    mapAssignmentIds_comp, mapIncidentIds_comp, mapActivityIds_comp,
    mapAppointmentIds_comp, mapHomeIds, mapBedIds, mapUserIds, mapClientIds,
    mapAdlIds, mapVitalsIds, mapMedIds, mapRomIds, mapBehaviorIds,
    mapDocumentIds]

theorem p1_fst_map (f : Nat → Nat) (L : List (Home × List Bed)) :
    (L.map (fun p => (mapHomeIds f p.1, p.2.map (mapBedIds f)))).map
        Prod.fst = (L.map Prod.fst).map (mapHomeIds f) := by
  rw [List.map_map, List.map_map]
  rfl

theorem p1_snd_flatten_map (f : Nat → Nat) :
    ∀ L : List (Home × List Bed),
      ((L.map (fun p => (mapHomeIds f p.1, p.2.map (mapBedIds f)))).map
          Prod.snd).flatten =
        ((L.map Prod.snd).flatten).map (mapBedIds f) := by
  intro L
  induction L with
  | nil => rfl
  | cons p r ih =>
    simp only [List.map_cons, List.flatten_cons, List.map_append]
    rw [ih]

theorem cbh_snd_flatten_map (f : Nat → Nat) :
    ∀ M : List (Id × List Client),
      ((mapClientsByHome f M).map Prod.snd).flatten =
        ((M.map Prod.snd).flatten).map (mapClientIds f) := by
  intro M
  induction M with
  | nil => rfl
  | cons p r ih =>
    simp only [mapClientsByHome, List.map_cons, List.flatten_cons,
      List.map_append] at ih ⊢
    rw [ih]

set_option maxHeartbeats 2000000 in
theorem generateDataset_relabel (f : Nat → Nat) (hf : Function.Injective f)
    (g u : Rand) (now : Int) :
    generateDataset g (fun j => f (u j)) now =
      mapDatasetIds f (generateDataset g u now) := by
  simp only [generateDataset]
  rw [phase1_map f g u (u 0) (homeOpenDates g now 0) 5 2]
  obtain ⟨P1, Pk, Puk, hP⟩ : ∃ x y z,
      phase1 g u (u 0) (homeOpenDates g now 0) 5 2 = (x, y, z) :=
    ⟨_, _, _, rfl⟩
  simp only [hP]
  rw [p1_fst_map f P1, p1_snd_flatten_map f P1]
  rw [phase2_map f now g u (u 0) (P1.map Prod.fst) Pk Puk]
  obtain ⟨U2, A2, PL2, k2, uk2, hP2⟩ : ∃ v w x y z,
      phase2 g u now (u 0) (P1.map Prod.fst) Pk Puk = (v, w, x, y, z) :=
    ⟨_, _, _, _, _, rfl⟩
  simp only [hP2]
  have hdrop : ((P1.map Prod.fst).map (mapHomeIds f)).drop 3 =
      ((P1.map Prod.fst).drop 3).map (mapHomeIds f) := by
    rw [← List.map_drop]
  rw [hdrop]
  have hlen : P1.length = 6 := by
    have hl := phase1_length g u (u 0) (homeOpenDates g now 0) 5 2
    rw [hP] at hl
    exact hl
  have h3 : (P1.map Prod.fst).take 3 ≠ [] := by
    intro hnil
    have hln := congrArg List.length hnil
    simp only [List.length_take, List.length_map, hlen, List.length_nil]
      at hln
    omega
  have hpl3 : ∀ h ∈ (P1.map Prod.fst).take 3,
      ((PL2.lookup h.id).getD []) ≠ [] := by
    intro h hh
    have hmem : h ∈ P1.map Prod.fst := List.take_subset _ _ hh
    have hmem2 : h.id ∈ (P1.map Prod.fst).map Home.id :=
      List.mem_map.mpr ⟨h, hmem, rfl⟩
    have h1 := phase2_lookup_ne g u now (u 0) (P1.map Prod.fst) Pk Puk
      h.id hmem2
    rw [hP2] at h1
    exact h1
  rw [crossHome_map f hf g (P1.map Prod.fst) (u 0) h3
    ((P1.map Prod.fst).drop 3) PL2 k2 hpl3]
  obtain ⟨X1, XP, Xk, hX⟩ : ∃ x y z,
      crossHome g (P1.map Prod.fst) (u 0) ((P1.map Prod.fst).drop 3) PL2
        k2 = (x, y, z) := ⟨_, _, _, rfl⟩
  simp only [hX]
  have hXPne : ∀ a, a ∈ P1.map (fun hb => hb.1.id) →
      ((XP.lookup a).getD []) ≠ [] := by
    intro a ha
    have ha2 : a ∈ (P1.map Prod.fst).map Home.id := by
      rw [List.map_map]
      exact ha
    have h1 := phase2_lookup_ne g u now (u 0) (P1.map Prod.fst) Pk Puk a ha2
    rw [hP2] at h1
    have h2 := crossHome_lookup_ne g (P1.map Prod.fst) (u 0)
      ((P1.map Prod.fst).drop 3) PL2 k2 a h1
    rw [hX] at h2
    exact h2
  have hbs3 : ∀ hb ∈ P1, ((XP.lookup hb.1.id).getD []) ≠ [] := by
    intro hb hhb
    exact hXPne hb.1.id (List.mem_map.mpr ⟨hb, hhb, rfl⟩)
  rw [phase3All_map f hf now g u XP P1 Xk uk2 hbs3]
  obtain ⟨C1, Ck, Cuk, hC⟩ : ∃ x y z,
      phase3All now g u XP P1 Xk uk2 = (x, y, z) := ⟨_, _, _, rfl⟩
  simp only [hC]
  rw [cbh_snd_flatten_map f C1]
  have hhz : ∀ hb ∈ P1, startDate now + 14 * dayLen ≤ hb.1.createdAt ∧
      hb.1.createdAt + 30 * dayLen < endDate now := by
    intro hb hhb
    have h1 := phase1_createdAt g u (u 0) (homeOpenDates g now 0) 5 2 hb
      (by rw [hP]; exact hhb)
    have h2 := homeOpenDates_bounds g now 0 hb.1.createdAt h1
    simp only [startDate, endDate, dayLen] at h2 ⊢
    omega
  have hkeys : C1.map Prod.fst = P1.map (fun hb => hb.1.id) := by
    have hk := phase3All_keys now g u XP P1 Xk uk2
    rw [hC] at hk
    exact hk
  have hcli : ∀ c ∈ (C1.map Prod.snd).flatten,
      ((XP.lookup c.homeId).getD []) ≠ [] := by
    intro c hc
    rcases List.mem_flatten.mp hc with ⟨l, hl, hcl2⟩
    rcases List.mem_map.mp hl with ⟨p, hp, rfl⟩
    have hhor := phase3All_horizon now g u XP P1 Xk uk2 hhz p
      (by rw [hC]; exact hp) c hcl2
    have hkey : p.1 ∈ P1.map (fun hb => hb.1.id) := by
      rw [← hkeys]
      exact List.mem_map.mpr ⟨p, hp, rfl⟩
    rw [hhor.1]
    exact hXPne p.1 hkey
  rw [phase4All_map f hf now g u XP dayFuel ((C1.map Prod.snd).flatten)
    Ck Cuk hcli]
  obtain ⟨B4, k4, uk4, h4⟩ : ∃ x y z,
      phase4All now g u XP dayFuel ((C1.map Prod.snd).flatten) Ck Cuk =
        (x, y, z) := ⟨_, _, _, rfl⟩
  simp only [h4]
  have hhm : ∀ h ∈ P1.map Prod.fst, ((XP.lookup h.id).getD []) ≠ [] := by
    intro h hh
    rcases List.mem_map.mp hh with ⟨hb, hhb, rfl⟩
    exact hXPne (Prod.fst hb).id (List.mem_map.mpr ⟨hb, hhb, rfl⟩)
  rw [phase5All_map f hf now g u XP C1 (P1.map Prod.fst) k4 uk4 hhm]
  obtain ⟨A5, k5, uk5, h5⟩ : ∃ x y z,
      phase5All now g u XP C1 (P1.map Prod.fst) k4 uk4 = (x, y, z) :=
    ⟨_, _, _, rfl⟩
  simp only [h5]
  have h6 := phase6All_map f hf now g u XP C1 [u 0] (P1.map Prod.fst) 1
    IncidentGenState.init k5 uk5 hhm
  rw [show ([u 0].map f) = [f (u 0)] from rfl,
    show mapIncStateIds f IncidentGenState.init = IncidentGenState.init
      from rfl] at h6
  rw [h6]
  obtain ⟨I6, S6, k6, uk6, h6o⟩ : ∃ w x y z,
      phase6All now g u XP C1 [u 0] (P1.map Prod.fst) 1
        IncidentGenState.init k5 uk5 = (w, x, y, z) := ⟨_, _, _, _, rfl⟩
  simp only [h6o]
  rw [pastAppointments_map f hf now g u XP runFuel
    ((C1.map Prod.snd).flatten) k6 uk6 hcli]
  obtain ⟨PA, kp, ukp, hPA⟩ : ∃ x y z,
      pastAppointments now g u XP runFuel ((C1.map Prod.snd).flatten)
        k6 uk6 = (x, y, z) := ⟨_, _, _, rfl⟩
  simp only [hPA]
  rw [upcomingAll_map f hf now g u XP ((C1.map Prod.snd).flatten) kp ukp
    hcli]
  obtain ⟨UA, ku, uku, hUA⟩ : ∃ x y z,
      upcomingAll now g u XP ((C1.map Prod.snd).flatten) kp ukp =
        (x, y, z) := ⟨_, _, _, rfl⟩
  simp only [hUA]
  rw [phase8All_map f g u ((C1.map Prod.snd).flatten) ku uku]
  obtain ⟨D8, k8, uk8, h8⟩ : ∃ x y z,
      phase8All g u ((C1.map Prod.snd).flatten) ku uku = (x, y, z) :=
    ⟨_, _, _, rfl⟩
  simp only [h8]
  simp [mapDatasetIds, mapBundleIds, mapUserIds, List.map_append]

/-- C4 counterexample to the claim as stated: with the same seeded stream
and the same anchor but two different `uuid4` entropy streams, the two runs
differ (already in the home ids), so the run is not a deterministic function
of the seed and anchor alone. -/
theorem C4_counterexample :
    generateDataset (fun _ => 14) (fun j => j) (730 * dayLen) ≠
      generateDataset (fun _ => 14) (fun j => j + 1) (730 * dayLen) := by
  intro h
  exact absurd (congrArg (fun d => d.homes.map Home.id) h) (by decide)

/-- C4 (amended): the run is deterministic given the seeded stream and the
wall-clock anchor up to the uuid-drawn identifier fields.  For any two
injective `uuid4` entropy streams, the runs agree field-for-field on every
record of every stream (homes, beds, users, caregiver assignments including
the cross-home ones, clients, the five Phase-4 care-log streams, activities
with their participation records, incidents with their photos, past and
upcoming appointments, and client documents) once the uuid-drawn identifier
fields are erased; the seeded cross-home assignment ids are kept by the
erasure and still agree. -/
theorem C4_amended_determinism_modulo_ids (g : Rand) (now : Int)
    (u1 u2 : Rand) (h1 : Function.Injective u1)
    (h2 : Function.Injective u2) :
    eraseDatasetIds (generateDataset g u1 now) =
      eraseDatasetIds (generateDataset g u2 now) := by
  have e1 : generateDataset g u1 now =
      mapDatasetIds u1 (generateDataset g (fun j => j) now) :=
    generateDataset_relabel u1 h1 g (fun j => j) now
  have e2 : generateDataset g u2 now =
      mapDatasetIds u2 (generateDataset g (fun j => j) now) :=
    generateDataset_relabel u2 h2 g (fun j => j) now
  simp only [eraseDatasetIds]
  rw [e1, e2, mapDatasetIds_comp, mapDatasetIds_comp]

/-- Witness for C4: the amended determinism theorem applied at the constant
seeded stream 14, the anchor two years after epoch, and the identity and
successor uuid streams, whose injectivity is discharged by terms. -/
theorem C4_amended_determinism_modulo_ids_witness :
    eraseDatasetIds (generateDataset (fun _ => 14) (fun j => j)
        (730 * dayLen)) =
      eraseDatasetIds (generateDataset (fun _ => 14) (fun j => j + 1)
        (730 * dayLen)) :=
  C4_amended_determinism_modulo_ids (fun _ => 14) (730 * dayLen)
    (fun j => j) (fun j => j + 1) (fun a b h => h)
    (fun a b h => Nat.succ_injective h)

end LenkCare
